import Mathlib

/-!
The decode-and-forward pipeline of telem-bridge: a shallow embedding of
`backend/udp.go` and `backend/osc.go`.

* Go values that reach the gate and the sinks are modelled by `GoValue`; a value
  carries its dynamic type, because `shouldSend`, `valuesEqual` and `sendOSC`
  switch on it.  Floats are kept as their IEEE-754 bit patterns.
* `encoding/binary.Read` is modelled by `binaryRead`, driven by a descriptor
  (`GoType`) of the record type, as the library drives it by reflection.
* Frames are `List UInt8`.  Global mutable state (the two gate caches, what has
  been handed to the two sinks) is the explicit `World`; configuration and the
  clock are the read-only `Env`.
* Clock readings are integers (nanoseconds); `Time.Sub` is their difference, its
  saturation at the ends of the `Duration` range is out of reach of a running
  process and is not modelled.
* A run-time panic (index or slice out of range) is the result `none`.
* Logging, the set of WebSocket connections and the network are not modelled: a
  message counts as sent when it is handed to `broadcast` or to the OSC client.
-/

namespace TelemBridge

/-! ## Go values and types -/

/-- Go integer kinds that occur as dynamic types in the program. -/
inductive IntKind where
  | int | int8 | int16 | int32 | int64 | uint | uint8 | uint16 | uint32 | uint64
  deriving DecidableEq, Repr

/-- Descriptor of a Go type, as seen through `reflect`. -/
inductive GoType where
  | int (k : IntKind)
  | float32
  | float64
  | array (len : Nat) (elem : GoType)
  | struct (name : String) (fields : List (String × GoType))
  deriving Repr

/-- A Go value together with its dynamic type.  `float32 b` and `float64 b` hold
the IEEE-754 bit pattern `b`. -/
inductive GoValue where
  | int (k : IntKind) (v : Int)
  | float32 (bits : Nat)
  | float64 (bits : Nat)
  | str (s : String)
  | array (elems : List GoValue)
  | struct (name : String) (fields : List (String × GoValue))
  deriving Repr

/-- Errors returned by the decoders. -/
inductive DecodeError where
  | EOF
  | ErrUnexpectedEOF
  | invalidType
  deriving DecidableEq, Repr

/-- Size in bytes of a fixed-size integer kind (`encoding/binary` rejects the
platform-sized `int` and `uint`). -/
def IntKind.wireSize : IntKind → Option Nat
  | .int8 | .uint8 => some 1
  | .int16 | .uint16 => some 2
  | .int32 | .uint32 => some 4
  | .int64 | .uint64 => some 8
  | .int | .uint => none

/-- Whether the kind is signed. -/
def IntKind.signed : IntKind → Bool
  | .int | .int8 | .int16 | .int32 | .int64 => true
  | _ => false

/-- The function `sizeof` of `encoding/binary`: the number of bytes a value of
the type occupies on the wire, `none` where the library answers -1. -/
def GoType.sizeof : GoType → Option Nat
  | .int k => k.wireSize
  | .float32 => some 4
  | .float64 => some 8
  | .array n e => (e.sizeof).map (fun s => s * n)
  | .struct _ fs => sizeofFields fs
where
  /-- Sum of the sizes of the fields of a struct. -/
  sizeofFields : List (String × GoType) → Option Nat
  | [] => some 0
  | (_, t) :: rest =>
    match t.sizeof, sizeofFields rest with
    | some a, some b => some (a + b)
    | _, _ => none

/-- The zero value of a type (`var pkt T`). -/
def zeroValue : GoType → GoValue
  | .int k => .int k 0
  | .float32 => .float32 0
  | .float64 => .float64 0
  | .array n e => .array (List.replicate n (zeroValue e))
  | .struct name fs => .struct name (zeroFields fs)
where
  /-- Zero values of the fields of a struct. -/
  zeroFields : List (String × GoType) → List (String × GoValue)
  | [] => []
  | (f, t) :: rest => (f, zeroValue t) :: zeroFields rest

/-! ## Little-endian decoding (`encoding/binary`) -/

/-- Unsigned little-endian value of a byte string. -/
def leNat : List UInt8 → Nat
  | [] => 0
  | b :: bs => b.toNat + 256 * leNat bs

/-- Reinterpret an unsigned `8*n`-bit value as two's complement. -/
def toSigned (n : Nat) (v : Nat) : Int :=
  if 2 * v < 2 ^ (8 * n) then (v : Int) else (v : Int) - (2 : Int) ^ (8 * n)

/-- Read one integer of kind `k` from the front of the buffer. -/
def decodeInt (k : IntKind) (buf : List UInt8) : GoValue × List UInt8 :=
  let n := (k.wireSize).getD 0
  let u := leNat (buf.take n)
  (.int k (if k.signed then toSigned n u else (u : Int)), buf.drop n)

/-- Decode `n` consecutive elements with the element decoder `f`. -/
def decodeN (f : List UInt8 → GoValue × List UInt8) : Nat → List UInt8 → List GoValue × List UInt8
  | 0, buf => ([], buf)
  | n + 1, buf =>
    let r := f buf
    let rs := decodeN f n r.2
    (r.1 :: rs.1, rs.2)

/-- The method `decoder.value`: fill a value of type `t` from the front of the
buffer, field by field and element by element, and return what is left. -/
def decodeValue : GoType → List UInt8 → GoValue × List UInt8
  | .int k => fun buf => decodeInt k buf
  | .float32 => fun buf => (.float32 (leNat (buf.take 4)), buf.drop 4)
  | .float64 => fun buf => (.float64 (leNat (buf.take 8)), buf.drop 8)
  | .array n e => fun buf =>
    let r := decodeN (decodeValue e) n buf
    (.array r.1, r.2)
  | .struct name fs => fun buf =>
    let r := decodeFields fs buf
    (.struct name r.1, r.2)
where
  /-- Decode the fields of a struct in declaration order. -/
  decodeFields : List (String × GoType) → List UInt8 → List (String × GoValue) × List UInt8
  | [] => fun buf => ([], buf)
  | (f, t) :: rest => fun buf =>
    let r := decodeValue t buf
    let rs := decodeFields rest r.2
    ((f, r.1) :: rs.1, rs.2)

/-- The call `binary.Read(bytes.NewReader(data), binary.LittleEndian, &pkt)` with
`pkt` the zero value of `t`: the library computes the wire size of `t`, reads
exactly that many bytes with `io.ReadFull` and only then fills the record.  The
result is the pair (record, error) the decoders return. -/
def binaryRead (t : GoType) (data : List UInt8) : GoValue × Option DecodeError :=
  match t.sizeof with
  | none => (zeroValue t, some .invalidType)
  | some size =>
    if data.length < size then
      (zeroValue t, some (if data.length = 0 then .EOF else .ErrUnexpectedEOF))
    else
      ((decodeValue t (data.take size)).1, none)

/-! ## Record types of the packets -/

/-- Go struct type PacketHeader (wire size 29 bytes). -/
def PacketHeader : GoType :=
  GoType.struct "PacketHeader" [
    ("PacketFormat", GoType.int IntKind.uint16),
    ("GameYear", GoType.int IntKind.uint8),
    ("GameMajorVersion", GoType.int IntKind.uint8),
    ("GameMinorVersion", GoType.int IntKind.uint8),
    ("PacketVersion", GoType.int IntKind.uint8),
    ("PacketId", GoType.int IntKind.uint8),
    ("SessionUID", GoType.int IntKind.uint64),
    ("SessionTime", GoType.float32),
    ("FrameIdentifier", GoType.int IntKind.uint32),
    ("OverallFrameIdentifier", GoType.int IntKind.uint32),
    ("PlayerCarIndex", GoType.int IntKind.uint8),
    ("SecondaryPlayerCarIndex", GoType.int IntKind.uint8)
  ]

/-- Go struct type CarMotionData (wire size 60 bytes). -/
def CarMotionData : GoType :=
  GoType.struct "CarMotionData" [
    ("WorldPositionX", GoType.float32),
    ("WorldPositionY", GoType.float32),
    ("WorldPositionZ", GoType.float32),
    ("WorldVelocityX", GoType.float32),
    ("WorldVelocityY", GoType.float32),
    ("WorldVelocityZ", GoType.float32),
    ("WorldForwardDirX", GoType.int IntKind.int16),
    ("WorldForwradDirY", GoType.int IntKind.int16),
    ("WorldForwardDirZ", GoType.int IntKind.int16),
    ("WorldRightDirX", GoType.int IntKind.int16),
    ("WorldRightDirY", GoType.int IntKind.int16),
    ("WorldRightDirZ", GoType.int IntKind.int16),
    ("GForceLateral", GoType.float32),
    ("GForceLongitudinal", GoType.float32),
    ("GForceVertical", GoType.float32),
    ("Yaw", GoType.float32),
    ("Pitch", GoType.float32),
    ("Roll", GoType.float32)
  ]

/-- Go struct type PacketMotionData (wire size 1349 bytes). -/
def PacketMotionData : GoType :=
  GoType.struct "PacketMotionData" [
    ("Header", PacketHeader),
    ("CarMotionData", GoType.array 22 CarMotionData)
  ]

/-- Go struct type MarshalZone (wire size 5 bytes). -/
def MarshalZone : GoType :=
  GoType.struct "MarshalZone" [
    ("ZoneStart", GoType.float32),
    ("ZoneFlag", GoType.int IntKind.int8)
  ]

/-- Go struct type WeatherForecastSample (wire size 8 bytes). -/
def WeatherForecastSample : GoType :=
  GoType.struct "WeatherForecastSample" [
    ("SessionType", GoType.int IntKind.uint8),
    ("TimeOffset", GoType.int IntKind.uint8),
    ("Weather", GoType.int IntKind.uint8),
    ("TrackTemperature", GoType.int IntKind.int8),
    ("TrackTemperatureChange", GoType.int IntKind.int8),
    ("AirTemperature", GoType.int IntKind.int8),
    ("AirTemperatureChange", GoType.int IntKind.int8),
    ("RainPercentage", GoType.int IntKind.uint8)
  ]

/-- Go struct type PacketSessionData (wire size 753 bytes). -/
def PacketSessionData : GoType :=
  GoType.struct "PacketSessionData" [
    ("Header", PacketHeader),
    ("Weather", GoType.int IntKind.uint8),
    ("TrackTemperature", GoType.int IntKind.int8),
    ("AirTemperature", GoType.int IntKind.int8),
    ("TotalLaps", GoType.int IntKind.uint8),
    ("TrackLength", GoType.int IntKind.uint16),
    ("SessionType", GoType.int IntKind.uint8),
    ("TrackId", GoType.int IntKind.int8),
    ("Formula", GoType.int IntKind.uint8),
    ("SessionTimeLeft", GoType.int IntKind.uint16),
    ("SessionDuration", GoType.int IntKind.uint16),
    ("PitSpeedLimit", GoType.int IntKind.uint8),
    ("GamePaused", GoType.int IntKind.uint8),
    ("IsSpectating", GoType.int IntKind.uint8),
    ("SpectatorCarIndex", GoType.int IntKind.uint8),
    ("SliProNativeSupport", GoType.int IntKind.uint8),
    ("NumMarshalZones", GoType.int IntKind.uint8),
    ("MarshalZones", GoType.array 21 MarshalZone),
    ("SafetyCarStatus", GoType.int IntKind.uint8),
    ("NetworkGame", GoType.int IntKind.uint8),
    ("NumWeatherForecastSamples", GoType.int IntKind.uint8),
    ("WeatherForecastSamples", GoType.array 64 WeatherForecastSample),
    ("ForecastAccuracy", GoType.int IntKind.uint8),
    ("AIDifficulty", GoType.int IntKind.uint8),
    ("SeasonLinkIdentifier", GoType.int IntKind.uint32),
    ("WeekendLinkIdentifier", GoType.int IntKind.uint32),
    ("SessionLinkIdentifier", GoType.int IntKind.uint32),
    ("PitStopWindowIdealLap", GoType.int IntKind.uint8),
    ("PitStopWindowLatestLap", GoType.int IntKind.uint8),
    ("PitStopRejoinPosition", GoType.int IntKind.uint8),
    ("SteeringAssist", GoType.int IntKind.uint8),
    ("BrakingAssist", GoType.int IntKind.uint8),
    ("GearboxAssist", GoType.int IntKind.uint8),
    ("PitAssist", GoType.int IntKind.uint8),
    ("PitReleaseAssist", GoType.int IntKind.uint8),
    ("ERSAssist", GoType.int IntKind.uint8),
    ("DRSAssist", GoType.int IntKind.uint8),
    ("DynamicRacingLine", GoType.int IntKind.uint8),
    ("DynamicRacingLineType", GoType.int IntKind.uint8),
    ("GameMode", GoType.int IntKind.uint8),
    ("RuleSet", GoType.int IntKind.uint8),
    ("TimeOfDay", GoType.int IntKind.uint32),
    ("SessionLength", GoType.int IntKind.uint8),
    ("SpeedUnitsLeadPlayer", GoType.int IntKind.uint8),
    ("TemperatureUnitsLeadPlayer", GoType.int IntKind.uint8),
    ("SpeedUnitsSecondaryPlayer", GoType.int IntKind.uint8),
    ("TemperatureUnitsSecondaryPlayer", GoType.int IntKind.uint8),
    ("NumSafetyCarPeriods", GoType.int IntKind.uint8),
    ("NumVirtualSafetyCarPeriods", GoType.int IntKind.uint8),
    ("NumRedFlagPeriods", GoType.int IntKind.uint8),
    ("EqualCarPerformance", GoType.int IntKind.uint8),
    ("RecoveryMode", GoType.int IntKind.uint8),
    ("FlashbackLimit", GoType.int IntKind.uint8),
    ("SurfaceType", GoType.int IntKind.uint8),
    ("LowFuelMode", GoType.int IntKind.uint8),
    ("RaceStarts", GoType.int IntKind.uint8),
    ("TyreTemperature", GoType.int IntKind.uint8),
    ("PitLaneTyreSim", GoType.int IntKind.uint8),
    ("CarDamage", GoType.int IntKind.uint8),
    ("CarDamageRate", GoType.int IntKind.uint8),
    ("Collisions", GoType.int IntKind.uint8),
    ("CollisionsOffForFirstLapOnly", GoType.int IntKind.uint8),
    ("MpUnsafePitRelease", GoType.int IntKind.uint8),
    ("MpOffForGriefing", GoType.int IntKind.uint8),
    ("CornerCuttingStringency", GoType.int IntKind.uint8),
    ("ParcFermeRules", GoType.int IntKind.uint8),
    ("PitStopExperience", GoType.int IntKind.uint8),
    ("SafetyCar", GoType.int IntKind.uint8),
    ("SafetyCarExperience", GoType.int IntKind.uint8),
    ("FormationLap", GoType.int IntKind.uint8),
    ("FormationLapExperience", GoType.int IntKind.uint8),
    ("RedFlags", GoType.int IntKind.uint8),
    ("AffectsLicenceLevelSolo", GoType.int IntKind.uint8),
    ("AffectsLicenceLevelMP", GoType.int IntKind.uint8),
    ("NumSessionsInWeekend", GoType.int IntKind.uint8),
    ("WeekendStructure", GoType.array 12 (GoType.int IntKind.uint8)),
    ("Sector2LapDistanceStart", GoType.float32),
    ("Sector3LapDistanceStart", GoType.float32)
  ]

/-- Go struct type LapData (wire size 57 bytes). -/
def LapData : GoType :=
  GoType.struct "LapData" [
    ("LastLapTimeInMS", GoType.int IntKind.uint32),
    ("CurrentLapTimeInMS", GoType.int IntKind.uint32),
    ("Sector1TimeMSPart", GoType.int IntKind.uint16),
    ("Sector1TimeMinutesPart", GoType.int IntKind.uint8),
    ("Sector2TimeMSPart", GoType.int IntKind.uint16),
    ("Sector2TimeMinutesPart", GoType.int IntKind.uint8),
    ("DeltaToCarInFrontMSPart", GoType.int IntKind.uint16),
    ("DeltaToCarInFrontMinutesPart", GoType.int IntKind.uint8),
    ("DeltaToRaceLeaderMSPart", GoType.int IntKind.uint16),
    ("DeltaToRaceLeaderMinutesPart", GoType.int IntKind.uint8),
    ("LapDistance", GoType.float32),
    ("TotalDistance", GoType.float32),
    ("SafetyCarDelta", GoType.float32),
    ("CarPosition", GoType.int IntKind.uint8),
    ("CurrentLapNum", GoType.int IntKind.uint8),
    ("PitStatus", GoType.int IntKind.uint8),
    ("NumPitStops", GoType.int IntKind.uint8),
    ("Sector", GoType.int IntKind.uint8),
    ("CurrentLapInvalid", GoType.int IntKind.uint8),
    ("Penalties", GoType.int IntKind.uint8),
    ("TotalWarnings", GoType.int IntKind.uint8),
    ("CornerCuttingWarnings", GoType.int IntKind.uint8),
    ("NumUnservedDriveThroughPens", GoType.int IntKind.uint8),
    ("NumUnservedStopGoPens", GoType.int IntKind.uint8),
    ("GridPosition", GoType.int IntKind.uint8),
    ("DriverStatus", GoType.int IntKind.uint8),
    ("ResultStatus", GoType.int IntKind.uint8),
    ("PitLaneTimerActive", GoType.int IntKind.uint8),
    ("PitLaneTimeInLaneInMS", GoType.int IntKind.uint16),
    ("PitStopTimerInMS", GoType.int IntKind.uint16),
    ("PitStopShouldServePen", GoType.int IntKind.uint8),
    ("SpeedTrapFastestSpeed", GoType.float32),
    ("SpeedTrapFastestLap", GoType.int IntKind.uint8)
  ]

/-- Go struct type LapDataPacket (wire size 1285 bytes). -/
def LapDataPacket : GoType :=
  GoType.struct "LapDataPacket" [
    ("Header", PacketHeader),
    ("LapData", GoType.array 22 LapData),
    ("TimeTrialPBCarIdx", GoType.int IntKind.uint8),
    ("TimeTrialRivalCarIdx", GoType.int IntKind.uint8)
  ]

/-- Go struct type PacketEventData (wire size 57 bytes). -/
def PacketEventData : GoType :=
  GoType.struct "PacketEventData" [
    ("Header", PacketHeader),
    ("EventStringCode", GoType.array 4 (GoType.int IntKind.uint8)),
    ("EventDetails", GoType.array 24 (GoType.int IntKind.uint8))
  ]

/-- Go struct type LiveryColour (wire size 3 bytes). -/
def LiveryColour : GoType :=
  GoType.struct "LiveryColour" [
    ("Red", GoType.int IntKind.uint8),
    ("Green", GoType.int IntKind.uint8),
    ("Blue", GoType.int IntKind.uint8)
  ]

/-- Go struct type ParticipantData (wire size 57 bytes). -/
def ParticipantData : GoType :=
  GoType.struct "ParticipantData" [
    ("AIControlled", GoType.int IntKind.uint8),
    ("DriverId", GoType.int IntKind.uint8),
    ("NetworkId", GoType.int IntKind.uint8),
    ("TeamId", GoType.int IntKind.uint8),
    ("MyTeam", GoType.int IntKind.uint8),
    ("RaceNumber", GoType.int IntKind.uint8),
    ("Nationality", GoType.int IntKind.uint8),
    ("Name", GoType.array 32 (GoType.int IntKind.uint8)),
    ("YourTelemetry", GoType.int IntKind.uint8),
    ("ShowOnlineNames", GoType.int IntKind.uint8),
    ("TechLevel", GoType.int IntKind.uint16),
    ("Platform", GoType.int IntKind.uint8),
    ("NumColours", GoType.int IntKind.uint8),
    ("LiveryColours", GoType.array 4 LiveryColour)
  ]

/-- Go struct type PacketParticipantsData (wire size 1284 bytes). -/
def PacketParticipantsData : GoType :=
  GoType.struct "PacketParticipantsData" [
    ("Header", PacketHeader),
    ("NumActiveCars", GoType.int IntKind.uint8),
    ("Participants", GoType.array 22 ParticipantData)
  ]

/-- Go struct type CarSetupData (wire size 50 bytes). -/
def CarSetupData : GoType :=
  GoType.struct "CarSetupData" [
    ("FrontWing", GoType.int IntKind.uint8),
    ("RearWing", GoType.int IntKind.uint8),
    ("OnThrottle", GoType.int IntKind.uint8),
    ("OffThrottle", GoType.int IntKind.uint8),
    ("FrontCamber", GoType.float32),
    ("RearCamber", GoType.float32),
    ("FrontToe", GoType.float32),
    ("RearToe", GoType.float32),
    ("FrontSuspension", GoType.int IntKind.uint8),
    ("RearSuspension", GoType.int IntKind.uint8),
    ("FrontAntiRollBar", GoType.int IntKind.uint8),
    ("RearAntiRollBar", GoType.int IntKind.uint8),
    ("FrontSuspensionHeight", GoType.int IntKind.uint8),
    ("RearSuspensionHeight", GoType.int IntKind.uint8),
    ("BrakePressure", GoType.int IntKind.uint8),
    ("BrakeBias", GoType.int IntKind.uint8),
    ("EngineBraking", GoType.int IntKind.uint8),
    ("RearLeftTyrePressure", GoType.float32),
    ("RearRightTyrePressure", GoType.float32),
    ("FrontLeftTyrePressure", GoType.float32),
    ("FrontRightTyrePressure", GoType.float32),
    ("Ballast", GoType.int IntKind.uint8),
    ("FuelLoad", GoType.float32)
  ]

/-- Go struct type PacketCarSetupData (wire size 1133 bytes). -/
def PacketCarSetupData : GoType :=
  GoType.struct "PacketCarSetupData" [
    ("Header", PacketHeader),
    ("CarSetupData", GoType.array 22 CarSetupData),
    ("NextFrontWingValue", GoType.float32)
  ]

/-- Go struct type CarStatusData (wire size 55 bytes). -/
def CarStatusData : GoType :=
  GoType.struct "CarStatusData" [
    ("TractionControl", GoType.int IntKind.uint8),
    ("AntiLockBrakes", GoType.int IntKind.uint8),
    ("FuelMix", GoType.int IntKind.uint8),
    ("FrontBrakeBias", GoType.int IntKind.uint8),
    ("PitLimiterStatus", GoType.int IntKind.uint8),
    ("FuelInTank", GoType.float32),
    ("FuelCapacity", GoType.float32),
    ("FuelRemainingLaps", GoType.float32),
    ("MaxRPM", GoType.int IntKind.uint16),
    ("IdleRPM", GoType.int IntKind.uint16),
    ("MaxGears", GoType.int IntKind.uint8),
    ("DRSAllowed", GoType.int IntKind.uint8),
    ("DRSActivationDistance", GoType.int IntKind.uint16),
    ("ActualTyreCompound", GoType.int IntKind.uint8),
    ("VisualTyreCompound", GoType.int IntKind.uint8),
    ("TyresAgeLaps", GoType.int IntKind.uint8),
    ("VehicleFIAFlags", GoType.int IntKind.int8),
    ("EnginePowerICE", GoType.float32),
    ("EnginePowerMGUK", GoType.float32),
    ("ERSStoreEnergy", GoType.float32),
    ("ERSDeployMode", GoType.int IntKind.uint8),
    ("ERSHarvestedThisLapMGUK", GoType.float32),
    ("ERSHarvestedThisLapMGUH", GoType.float32),
    ("ERSDeployedThisLap", GoType.float32),
    ("NetworkPaused", GoType.int IntKind.uint8)
  ]

/-- Go struct type PacketCarStatusData (wire size 1239 bytes). -/
def PacketCarStatusData : GoType :=
  GoType.struct "PacketCarStatusData" [
    ("Header", PacketHeader),
    ("CarStatusData", GoType.array 22 CarStatusData)
  ]

/-- Go struct type FinalClassificationData (wire size 46 bytes). -/
def FinalClassificationData : GoType :=
  GoType.struct "FinalClassificationData" [
    ("Position", GoType.int IntKind.uint8),
    ("NumLaps", GoType.int IntKind.uint8),
    ("GridPosition", GoType.int IntKind.uint8),
    ("Points", GoType.int IntKind.uint8),
    ("NumPitStops", GoType.int IntKind.uint8),
    ("ResultStatus", GoType.int IntKind.uint8),
    ("ResultReason", GoType.int IntKind.uint8),
    ("BestLapTimeInMS", GoType.int IntKind.uint32),
    ("TotalRaceTime", GoType.float64),
    ("PenaltiesTime", GoType.int IntKind.uint8),
    ("NumPenalties", GoType.int IntKind.uint8),
    ("NumTyreStints", GoType.int IntKind.uint8),
    ("TyreStintsActual", GoType.array 8 (GoType.int IntKind.uint8)),
    ("TyreStintsVisual", GoType.array 8 (GoType.int IntKind.uint8)),
    ("TyreStintsEndLaps", GoType.array 8 (GoType.int IntKind.uint8))
  ]

/-- Go struct type PacketFinalClassificationData (wire size 1042 bytes). -/
def PacketFinalClassificationData : GoType :=
  GoType.struct "PacketFinalClassificationData" [
    ("Header", PacketHeader),
    ("NumCars", GoType.int IntKind.uint8),
    ("ClassificationData", GoType.array 22 FinalClassificationData)
  ]

/-- Go struct type LobbyInfoData (wire size 42 bytes). -/
def LobbyInfoData : GoType :=
  GoType.struct "LobbyInfoData" [
    ("AIControlled", GoType.int IntKind.uint8),
    ("TeamId", GoType.int IntKind.uint8),
    ("Nationality", GoType.int IntKind.uint8),
    ("Platform", GoType.int IntKind.uint8),
    ("Name", GoType.array 32 (GoType.int IntKind.uint8)),
    ("CarNumber", GoType.int IntKind.uint8),
    ("YourTelemetry", GoType.int IntKind.uint8),
    ("ShowOnlineNames", GoType.int IntKind.uint8),
    ("TechLevel", GoType.int IntKind.uint16),
    ("ReadyStatus", GoType.int IntKind.uint8)
  ]

/-- Go struct type PacketLobbyInfoData (wire size 954 bytes). -/
def PacketLobbyInfoData : GoType :=
  GoType.struct "PacketLobbyInfoData" [
    ("Header", PacketHeader),
    ("NumPlayers", GoType.int IntKind.uint8),
    ("LobbyPlayers", GoType.array 22 LobbyInfoData)
  ]

/-- Go struct type CarDamageData (wire size 46 bytes). -/
def CarDamageData : GoType :=
  GoType.struct "CarDamageData" [
    ("TyresWear", GoType.array 4 GoType.float32),
    ("TyresDamage", GoType.array 4 (GoType.int IntKind.uint8)),
    ("BrakesDamage", GoType.array 4 (GoType.int IntKind.uint8)),
    ("TyreBlisters", GoType.array 4 (GoType.int IntKind.uint8)),
    ("FrontLeftWingDamage", GoType.int IntKind.uint8),
    ("FrontRightWingDamage", GoType.int IntKind.uint8),
    ("RearWingDamage", GoType.int IntKind.uint8),
    ("FloorDamage", GoType.int IntKind.uint8),
    ("DiffuserDamage", GoType.int IntKind.uint8),
    ("SidepodDamage", GoType.int IntKind.uint8),
    ("DRSFault", GoType.int IntKind.uint8),
    ("ERSFault", GoType.int IntKind.uint8),
    ("GearBoxDamage", GoType.int IntKind.uint8),
    ("EngineDamage", GoType.int IntKind.uint8),
    ("EngineMGUHWear", GoType.int IntKind.uint8),
    ("EngineESWear", GoType.int IntKind.uint8),
    ("EngineCEWear", GoType.int IntKind.uint8),
    ("EngineICEWear", GoType.int IntKind.uint8),
    ("EngineMGUKWear", GoType.int IntKind.uint8),
    ("EngineTCWear", GoType.int IntKind.uint8),
    ("EngineBlown", GoType.int IntKind.uint8),
    ("EngineSeized", GoType.int IntKind.uint8)
  ]

/-- Go struct type PacketCarDamageData (wire size 1041 bytes). -/
def PacketCarDamageData : GoType :=
  GoType.struct "PacketCarDamageData" [
    ("Header", PacketHeader),
    ("CarDamageData", GoType.array 22 CarDamageData)
  ]

/-- Go struct type LapHistoryData (wire size 14 bytes). -/
def LapHistoryData : GoType :=
  GoType.struct "LapHistoryData" [
    ("LapTimeInMS", GoType.int IntKind.uint32),
    ("Sector1TimeMSPart", GoType.int IntKind.uint16),
    ("Sector1TimeMinutesPart", GoType.int IntKind.uint8),
    ("Sector2TimeMSPart", GoType.int IntKind.uint16),
    ("Sector2TimeMinutesPart", GoType.int IntKind.uint8),
    ("Sector3TimeMSPart", GoType.int IntKind.uint16),
    ("Sector3TimeMinutesPart", GoType.int IntKind.uint8),
    ("LapValidBitFlags", GoType.int IntKind.uint8)
  ]

/-- Go struct type TyreStintHistoryData (wire size 3 bytes). -/
def TyreStintHistoryData : GoType :=
  GoType.struct "TyreStintHistoryData" [
    ("EndLap", GoType.int IntKind.uint8),
    ("TyreActualCompound", GoType.int IntKind.uint8),
    ("TyreVisualCompound", GoType.int IntKind.uint8)
  ]

/-- Go struct type PacketSessionHistoryData (wire size 1460 bytes). -/
def PacketSessionHistoryData : GoType :=
  GoType.struct "PacketSessionHistoryData" [
    ("Header", PacketHeader),
    ("CarIdx", GoType.int IntKind.uint8),
    ("NumLaps", GoType.int IntKind.uint8),
    ("NumTyreStints", GoType.int IntKind.uint8),
    ("BestLapTimeLapNum", GoType.int IntKind.uint8),
    ("BestSector1LapNum", GoType.int IntKind.uint8),
    ("BestSector2LapNum", GoType.int IntKind.uint8),
    ("BestSector3LapNum", GoType.int IntKind.uint8),
    ("LapHistoryData", GoType.array 100 LapHistoryData),
    ("TyreStintsHistoryData", GoType.array 8 TyreStintHistoryData)
  ]

/-- Go struct type TyreSetData (wire size 10 bytes). -/
def TyreSetData : GoType :=
  GoType.struct "TyreSetData" [
    ("ActualTyreCompound", GoType.int IntKind.uint8),
    ("VisualTyreCompound", GoType.int IntKind.uint8),
    ("Wear", GoType.int IntKind.uint8),
    ("Available", GoType.int IntKind.uint8),
    ("RecommendedSession", GoType.int IntKind.uint8),
    ("LifeSpan", GoType.int IntKind.uint8),
    ("UsableLife", GoType.int IntKind.uint8),
    ("LapDeltaTime", GoType.int IntKind.int16),
    ("Fitted", GoType.int IntKind.uint8)
  ]

/-- Go struct type PacketTyreSetsData (wire size 231 bytes). -/
def PacketTyreSetsData : GoType :=
  GoType.struct "PacketTyreSetsData" [
    ("Header", PacketHeader),
    ("CarIdx", GoType.int IntKind.uint8),
    ("TyreSetData", GoType.array 20 TyreSetData),
    ("FittedIdx", GoType.int IntKind.uint8)
  ]

/-- Go struct type PacketMotionExData (wire size 273 bytes). -/
def PacketMotionExData : GoType :=
  GoType.struct "PacketMotionExData" [
    ("Header", PacketHeader),
    ("SuspensionPosition", GoType.array 4 GoType.float32),
    ("SuspensionVelocity", GoType.array 4 GoType.float32),
    ("SuspensionAcceleration", GoType.array 4 GoType.float32),
    ("WheelSpeed", GoType.array 4 GoType.float32),
    ("WheelSlipRatio", GoType.array 4 GoType.float32),
    ("WheelSlipAngle", GoType.array 4 GoType.float32),
    ("WheelLatForce", GoType.array 4 GoType.float32),
    ("WheelLongForce", GoType.array 4 GoType.float32),
    ("HeightOfCOGAboveGround", GoType.float32),
    ("LocalVelocityX", GoType.float32),
    ("LocalVelocityY", GoType.float32),
    ("LocalVelocityZ", GoType.float32),
    ("AngularVelocityX", GoType.float32),
    ("AngularVelocityY", GoType.float32),
    ("AngularVelocityZ", GoType.float32),
    ("AngularAccelerationX", GoType.float32),
    ("AngularAccelerationY", GoType.float32),
    ("AngularAccelerationZ", GoType.float32),
    ("FrontWheelsAngle", GoType.float32),
    ("WheelVertForce", GoType.array 4 GoType.float32),
    ("FrontAeroHeight", GoType.float32),
    ("RearAeroHeight", GoType.float32),
    ("FrontRollAngle", GoType.float32),
    ("RearRollAngle", GoType.float32),
    ("ChassisYaw", GoType.float32),
    ("ChassisPitch", GoType.float32),
    ("WheelCamber", GoType.array 4 GoType.float32),
    ("WheelCamberGain", GoType.array 4 GoType.float32)
  ]

/-- Go struct type TimeTrialDataSet (wire size 24 bytes). -/
def TimeTrialDataSet : GoType :=
  GoType.struct "TimeTrialDataSet" [
    ("CarIdx", GoType.int IntKind.uint8),
    ("TeamId", GoType.int IntKind.uint8),
    ("LapTimeInMS", GoType.int IntKind.uint32),
    ("Sector1TimeInMS", GoType.int IntKind.uint32),
    ("Sector2TimeInMS", GoType.int IntKind.uint32),
    ("Sector3TimeInMS", GoType.int IntKind.uint32),
    ("TractionControl", GoType.int IntKind.uint8),
    ("GearboxAssist", GoType.int IntKind.uint8),
    ("AntiLockBrakes", GoType.int IntKind.uint8),
    ("EqualCarPerformance", GoType.int IntKind.uint8),
    ("CustomSetup", GoType.int IntKind.uint8),
    ("Valid", GoType.int IntKind.uint8)
  ]

/-- Go struct type PacketTimeTrialData (wire size 101 bytes). -/
def PacketTimeTrialData : GoType :=
  GoType.struct "PacketTimeTrialData" [
    ("Header", PacketHeader),
    ("PlayerSessionBestDataSet", TimeTrialDataSet),
    ("PersonalBestDataSet", TimeTrialDataSet),
    ("RivalDataSet", TimeTrialDataSet)
  ]

/-- Go struct type PacketLapPositionsData (wire size 1131 bytes). -/
def PacketLapPositionsData : GoType :=
  GoType.struct "PacketLapPositionsData" [
    ("Header", PacketHeader),
    ("NumLaps", GoType.int IntKind.uint8),
    ("LapStart", GoType.int IntKind.uint8),
    ("PositionForVehicleIdx", GoType.array 50 (GoType.array 22 (GoType.int IntKind.uint8)))
  ]
/-- The record `CarTelemetryData`.  Floats are bit patterns; the four-element
arrays are lists of length 4. -/
structure CarTelemetryData where
  Speed : Nat
  Throttle : Nat
  Steer : Nat
  Brake : Nat
  Clutch : Nat
  Gear : Int
  RPM : Nat
  EngineRPM : Nat
  DRS : Nat
  RevLightsPercent : Nat
  RevLightsBitValue : Nat
  BrakesTemperature : List Nat
  TyresSurfaceTemperature : List Nat
  TyresInnerTemperature : List Nat
  EngineTemperature : Nat
  TyresPressure : List Nat
  SurfaceType : List Nat
  deriving DecidableEq, Repr

/-- The zero value `CarTelemetryData{}`. -/
def CarTelemetryData.empty : CarTelemetryData where
  Speed := 0
  Throttle := 0
  Steer := 0
  Brake := 0
  Clutch := 0
  Gear := 0
  RPM := 0
  EngineRPM := 0
  DRS := 0
  RevLightsPercent := 0
  RevLightsBitValue := 0
  BrakesTemperature := [0, 0, 0, 0]
  TyresSurfaceTemperature := [0, 0, 0, 0]
  TyresInnerTemperature := [0, 0, 0, 0]
  EngineTemperature := 0
  TyresPressure := [0, 0, 0, 0]
  SurfaceType := [0, 0, 0, 0]

/-! ## Decoders -/

/-- The slice expression `data[lo:hi]`; `none` is the run-time panic.  (Go allows
`hi` up to the capacity; the model is stricter and asks for `hi ≤ len`.) -/
def goSlice (data : List UInt8) (lo hi : Nat) : Option (List UInt8) :=
  if lo ≤ hi ∧ hi ≤ data.length then some ((data.drop lo).take (hi - lo)) else none

/-- The call `binary.LittleEndian.Uint16(b)`; `none` is the panic on a short slice. -/
def leUint16 (b : List UInt8) : Option Nat := do
  let b0 ← b[0]?
  let b1 ← b[1]?
  pure (b0.toNat + 256 * b1.toNat)

/-- The call `binary.LittleEndian.Uint32(b)`; `none` is the panic on a short slice. -/
def leUint32 (b : List UInt8) : Option Nat := do
  let b0 ← b[0]?
  let b1 ← b[1]?
  let b2 ← b[2]?
  let b3 ← b[3]?
  pure (b0.toNat + 256 * b1.toNat + 65536 * b2.toNat + 16777216 * b3.toNat)

/-- The function `mathFromBits`: the float32 whose bit pattern is the
little-endian 32-bit value of the slice. -/
def mathFromBits (b : List UInt8) : Option Nat :=
  leUint32 b

/-- The conversion `int8(b)` of a byte. -/
def int8OfByte (b : UInt8) : Int :=
  if b.toNat < 128 then (b.toNat : Int) else (b.toNat : Int) - 256

/-- A little-endian uint16 read from `carData[lo:hi]`. -/
def uint16At (carData : List UInt8) (lo hi : Nat) : Option Nat :=
  (goSlice carData lo hi).bind leUint16

/-- A float32 bit pattern read from `carData[lo:hi]` with `mathFromBits`. -/
def floatAt (carData : List UInt8) (lo hi : Nat) : Option Nat :=
  (goSlice carData lo hi).bind mathFromBits

/-- The index expression `carData[i]`; `none` is the run-time panic. -/
def byteAt (carData : List UInt8) (i : Nat) : Option UInt8 :=
  carData[i]?

/-- The assignments of `decodeCarTelemetryPacket` to the fields of `telemetry`
from the 60-byte slice `carData`; the four loops run over `i = 0, 1, 2, 3`.  The
field `RPM` is never assigned. -/
def decodeCarData (carData : List UInt8) : Option CarTelemetryData :=
  match uint16At carData 0 2, floatAt carData 2 6, floatAt carData 6 10,
    floatAt carData 10 14, byteAt carData 14, byteAt carData 15,
    uint16At carData 16 18, byteAt carData 18, byteAt carData 19,
    uint16At carData 20 22,
    [0, 1, 2, 3].mapM (fun (i : Nat) => uint16At carData (22 + i * 2) (24 + i * 2)),
    [0, 1, 2, 3].mapM (fun (i : Nat) => byteAt carData (30 + i)),
    [0, 1, 2, 3].mapM (fun (i : Nat) => byteAt carData (34 + i)),
    uint16At carData 38 40,
    [0, 1, 2, 3].mapM (fun (i : Nat) => floatAt carData (40 + i * 4) (44 + i * 4)),
    [0, 1, 2, 3].mapM (fun (i : Nat) => byteAt carData (56 + i)) with
  | some speed, some throttle, some steer, some brake, some clutch, some gear,
    some engineRPM, some drs, some revLightsPercent, some revLightsBitValue,
    some brakesTemperature, some tyresSurfaceTemperature, some tyresInnerTemperature,
    some engineTemperature, some tyresPressure, some surfaceType =>
    some {
      Speed := speed
      Throttle := throttle
      Steer := steer
      Brake := brake
      Clutch := clutch.toNat
      Gear := int8OfByte gear
      RPM := 0
      EngineRPM := engineRPM
      DRS := drs.toNat
      RevLightsPercent := revLightsPercent.toNat
      RevLightsBitValue := revLightsBitValue
      BrakesTemperature := brakesTemperature
      TyresSurfaceTemperature := tyresSurfaceTemperature.map UInt8.toNat
      TyresInnerTemperature := tyresInnerTemperature.map UInt8.toNat
      EngineTemperature := engineTemperature
      TyresPressure := tyresPressure
      SurfaceType := surfaceType.map UInt8.toNat }
  | _, _, _, _, _, _, _, _, _, _, _, _, _, _, _, _ => none

/-- The function `decodeCarTelemetryPacket`.  The Go function returns a record
only; `none` stands for a run-time panic (index or slice out of range). -/
def decodeCarTelemetryPacket (data : List UInt8) : Option CarTelemetryData :=
  if data.length < 29 + 22 * 60 then
    some CarTelemetryData.empty
  else
    match data[27]? with
    | none => none
    | some b =>
      let carIndex := b.toNat
      if carIndex ≥ 22 then
        some CarTelemetryData.empty
      else
        let carDataStart := 29 + carIndex * 60
        match goSlice data carDataStart (carDataStart + 60) with
        | none => none
        | some carData => decodeCarData carData

/-- The function `decodeMotionPacket`: no length guard, the struct read decides. -/
def decodeMotionPacket (data : List UInt8) : GoValue × Option DecodeError :=
  binaryRead PacketMotionData data

/-- The function `decodeSessionPacket` (`expectedSize = 753`). -/
def decodeSessionPacket (data : List UInt8) : GoValue × Option DecodeError :=
  if data.length < 753 then (zeroValue PacketSessionData, some .ErrUnexpectedEOF)
  else binaryRead PacketSessionData data

/-- The function `decodeLapDataPacket` (`expectedSize = 1285`). -/
def decodeLapDataPacket (data : List UInt8) : GoValue × Option DecodeError :=
  if data.length < 1285 then (zeroValue LapDataPacket, some .ErrUnexpectedEOF)
  else binaryRead LapDataPacket data

/-- The function `decodeEventPacket` (`expectedSize = 45`). -/
def decodeEventPacket (data : List UInt8) : GoValue × Option DecodeError :=
  if data.length < 45 then (zeroValue PacketEventData, some .ErrUnexpectedEOF)
  else binaryRead PacketEventData data

/-- The function `decodeParticipantsPacket` (`expectedSize = 1284`). -/
def decodeParticipantsPacket (data : List UInt8) : GoValue × Option DecodeError :=
  if data.length < 1284 then (zeroValue PacketParticipantsData, some .ErrUnexpectedEOF)
  else binaryRead PacketParticipantsData data

/-- The function `decodeCarSetupsPacket` (`expectedSize = 1133`). -/
def decodeCarSetupsPacket (data : List UInt8) : GoValue × Option DecodeError :=
  if data.length < 1133 then (zeroValue PacketCarSetupData, some .ErrUnexpectedEOF)
  else binaryRead PacketCarSetupData data

/-- The function `decodeCarStatusPacket` (`expectedSize = 1239`). -/
def decodeCarStatusPacket (data : List UInt8) : GoValue × Option DecodeError :=
  if data.length < 1239 then (zeroValue PacketCarStatusData, some .ErrUnexpectedEOF)
  else binaryRead PacketCarStatusData data

/-- The function `decodeFinalClassificationPacket` (`expectedSize = 1042`). -/
def decodeFinalClassificationPacket (data : List UInt8) : GoValue × Option DecodeError :=
  if data.length < 1042 then (zeroValue PacketFinalClassificationData, some .ErrUnexpectedEOF)
  else binaryRead PacketFinalClassificationData data

/-- The function `decodeLobbyInfoPacket` (`expectedSize = 954`). -/
def decodeLobbyInfoPacket (data : List UInt8) : GoValue × Option DecodeError :=
  if data.length < 954 then (zeroValue PacketLobbyInfoData, some .ErrUnexpectedEOF)
  else binaryRead PacketLobbyInfoData data

/-- The function `decodeCarDamagePacket` (`expectedSize = 1041`). -/
def decodeCarDamagePacket (data : List UInt8) : GoValue × Option DecodeError :=
  if data.length < 1041 then (zeroValue PacketCarDamageData, some .ErrUnexpectedEOF)
  else binaryRead PacketCarDamageData data

/-- The function `decodeSessionHistoryPacket` (`expectedSize = 1460`). -/
def decodeSessionHistoryPacket (data : List UInt8) : GoValue × Option DecodeError :=
  if data.length < 1460 then (zeroValue PacketSessionHistoryData, some .ErrUnexpectedEOF)
  else binaryRead PacketSessionHistoryData data

/-- The function `decodeTyreSetsPacket` (`expectedSize = 231`). -/
def decodeTyreSetsPacket (data : List UInt8) : GoValue × Option DecodeError :=
  if data.length < 231 then (zeroValue PacketTyreSetsData, some .ErrUnexpectedEOF)
  else binaryRead PacketTyreSetsData data

/-- The function `decodeMotionExPacket` (`expectedSize = 273`). -/
def decodeMotionExPacket (data : List UInt8) : GoValue × Option DecodeError :=
  if data.length < 273 then (zeroValue PacketMotionExData, some .ErrUnexpectedEOF)
  else binaryRead PacketMotionExData data

/-- The function `decodeTimeTrialPacket` (`expectedSize = 101`). -/
def decodeTimeTrialPacket (data : List UInt8) : GoValue × Option DecodeError :=
  if data.length < 101 then (zeroValue PacketTimeTrialData, some .ErrUnexpectedEOF)
  else binaryRead PacketTimeTrialData data

/-- The function `decodeLapPositionsPacket` (`expectedSize = 1131`). -/
def decodeLapPositionsPacket (data : List UInt8) : GoValue × Option DecodeError :=
  if data.length < 1131 then (zeroValue PacketLapPositionsData, some .ErrUnexpectedEOF)
  else binaryRead PacketLapPositionsData data

/-! ## IEEE-754 bit patterns

The gate compares floats; the comparisons are computed exactly on the bit
patterns.  A finite float is an integer multiple of the smallest subnormal of its
format, and that integer (the "magnitude") is what the functions below work on. -/

/-- An IEEE-754 binary interchange format: width of the fraction and of the
exponent field. -/
structure FloatFormat where
  mbits : Nat
  ebits : Nat

/-- The format of `float32`. -/
def binary32 : FloatFormat := ⟨23, 8⟩

/-- The format of `float64`. -/
def binary64 : FloatFormat := ⟨52, 11⟩

/-- Sign bit of a bit pattern. -/
def fSign (F : FloatFormat) (b : Nat) : Bool :=
  (b / 2 ^ (F.mbits + F.ebits)) % 2 = 1

/-- Biased exponent field. -/
def fExp (F : FloatFormat) (b : Nat) : Nat :=
  (b / 2 ^ F.mbits) % 2 ^ F.ebits

/-- Fraction field. -/
def fMant (F : FloatFormat) (b : Nat) : Nat :=
  b % 2 ^ F.mbits

/-- The pattern is a NaN. -/
def fIsNaN (F : FloatFormat) (b : Nat) : Bool :=
  fExp F b = 2 ^ F.ebits - 1 ∧ fMant F b ≠ 0

/-- The pattern is an infinity. -/
def fIsInf (F : FloatFormat) (b : Nat) : Bool :=
  fExp F b = 2 ^ F.ebits - 1 ∧ fMant F b = 0

/-- The Go comparison `v == 0`: true for +0 and -0. -/
def fIsZero (F : FloatFormat) (b : Nat) : Bool :=
  fExp F b = 0 ∧ fMant F b = 0

/-- Absolute value of a finite float, in units of the smallest subnormal. -/
def fMag (F : FloatFormat) (b : Nat) : Nat :=
  if fExp F b = 0 then fMant F b else (2 ^ F.mbits + fMant F b) * 2 ^ (fExp F b - 1)

/-- Value of a finite float, in units of the smallest subnormal. -/
def fScaled (F : FloatFormat) (b : Nat) : Int :=
  if fSign F b then -(fMag F b : Int) else (fMag F b : Int)

/-- Number of binary digits of `n`, by halving at most `fuel` times. -/
def bitLengthAux : Nat → Nat → Nat
  | 0, _ => 0
  | fuel + 1, n => if n = 0 then 0 else 1 + bitLengthAux fuel (n / 2)

/-- Number of binary digits of `n`. -/
def bitLength (n : Nat) : Nat :=
  bitLengthAux n n

/-- Round-to-nearest-even of `a` to a multiple of `2 ^ s`. -/
def roundShift (a s : Nat) : Nat :=
  let q := a / 2 ^ s
  let r := a % 2 ^ s
  (if 2 * r > 2 ^ s ∨ (2 * r = 2 ^ s ∧ q % 2 = 1) then q + 1 else q) * 2 ^ s

/-- Round a magnitude to the nearest float of the format (ties to even); `none`
when the result overflows to infinity. -/
def fRound (F : FloatFormat) (a : Nat) : Option Nat :=
  let res := roundShift a (bitLength a - (F.mbits + 1))
  if res ≥ 2 ^ (F.mbits + 1) * 2 ^ (2 ^ F.ebits - 3) then none else some res

/-- Magnitude of the float `a - b`, `none` when the difference is a NaN or an
infinity. -/
def fSubAbs (F : FloatFormat) (a b : Nat) : Option Nat :=
  if fIsNaN F a ∨ fIsNaN F b ∨ fIsInf F a ∨ fIsInf F b then none
  else fRound F (fScaled F a - fScaled F b).natAbs

/-- The test `math.Abs(float64(va-vb)) < 1e-4` on float32 bit patterns.  The
constant is the float64 nearest to 1e-4, 7378697629483821 * 2^-66. -/
def close32 (va vb : Nat) : Bool :=
  match fSubAbs binary32 va vb with
  | some d => decide (d < 7378697629483821 * 2 ^ 83)
  | none => false

/-- The test `math.Abs(va-vb) < 1e-7` on float64 bit patterns.  The constant is
the float64 nearest to 1e-7, 7555786372591432 * 2^-76. -/
def close64 (va vb : Nat) : Bool :=
  match fSubAbs binary64 va vb with
  | some d => decide (d < 7555786372591432 * 2 ^ 998)
  | none => false

/-- The Go comparison `a == b` of two floats of one format. -/
def fEq (F : FloatFormat) (a b : Nat) : Bool :=
  !fIsNaN F a && !fIsNaN F b && (a == b || (fIsZero F a && fIsZero F b))

/-- The conversion `float32(v)` of a float64 bit pattern. -/
def f64to32 (b : Nat) : Nat :=
  let sign := if fSign binary64 b then 2 ^ 31 else 0
  if fIsNaN binary64 b then sign + 0x7FC00000 + fMant binary64 b / 2 ^ 29 % 2 ^ 22
  else if fIsInf binary64 b then sign + 0x7F800000
  else
    let a := fMag binary64 b
    let k := roundShift a (max 925 (bitLength a - 24)) / 2 ^ 925
    if k ≥ 2 ^ 24 * 2 ^ 253 then sign + 0x7F800000
    else if k < 2 ^ 23 then sign + k
    else sign + (bitLength k - 23) * 2 ^ 23 + (k / 2 ^ (bitLength k - 24) - 2 ^ 23)

/-- The verb `%.2f` applied to a float32. -/
def fmtF2 (b : Nat) : String :=
  if fIsNaN binary32 b then "NaN"
  else if fIsInf binary32 b then (if fSign binary32 b then "-Inf" else "+Inf")
  else
    let n := roundShift (fMag binary32 b * 100) 149 / 2 ^ 149
    (if fSign binary32 b then "-" else "") ++ toString (n / 100) ++ "."
      ++ toString (n % 100 / 10) ++ toString (n % 10)

/-! ## Configuration, clock and global state -/

/-- The fields of `AppConfig` the pipeline reads. -/
structure AppConfig where
  EnableOSC : Bool
  BroadcastRateHz : Int

/-- An entry of the OSC address table. -/
structure OSCAddressEntry where
  Address : String
  ValueType : String
  Enabled : Bool
  AllowZero : Bool

/-- What the pipeline only reads: the configuration, the two tables and the
clock.  `clock i` is the reading `time.Now()` returns in the `i`-th gate
operation (a call of `shouldSend` or of `updateLastSent`), in nanoseconds.
`telemetryOrder` is the order in which the `range` over the map of telemetry
fields visits its seven keys (Go leaves it unspecified). -/
structure Env where
  Config : AppConfig
  OSCAddresses : String → Option OSCAddressEntry
  PacketForwardingConfig : UInt8 → Option Bool
  clock : Nat → Int
  telemetryOrder : List String

/-- An entry of a gate cache: last-sent time and last-sent value. -/
structure Entry where
  t : Int
  v : GoValue

/-- A gate cache (`lastSentWS`, `lastSentOSC`). -/
abbrev Cache := String → Option Entry

/-- A message handed to `broadcast`: either the text `"<key> <value>"` built with
the verbs `%s %v`, or a ready text. -/
inductive WSMessage where
  | keyed (key : String) (value : GoValue)
  | text (s : String)

/-- A message handed to the OSC client by `sendOSC`. -/
structure OSCMessage where
  address : String
  value : GoValue

/-- The mutable global state and the messages given to the two sinks so far
(oldest first). -/
structure World where
  lastSentWS : Cache
  lastSentOSC : Cache
  wsOut : List WSMessage
  oscOut : List OSCMessage
  clockReads : Nat

/-! ## Throttle and dedup gate -/

/-- The function `getBroadcastInterval`, in nanoseconds.  In the second branch
both operands are positive, so the quotient is the same under every rounding
convention. -/
def getBroadcastInterval (cfg : AppConfig) : Int :=
  if cfg.BroadcastRateHz ≤ 0 then 500 * 1000000
  else 1000000000 / cfg.BroadcastRateHz

/-- The function `reflect.DeepEqual` on two values. -/
def deepEqual : GoValue → GoValue → Bool
  | .int k v, .int k2 v2 => k == k2 && v == v2
  | .float32 a, .float32 b => fEq binary32 a b
  | .float64 a, .float64 b => fEq binary64 a b
  | .str a, .str b => a == b
  | .array xs, .array ys => deepEqualList xs ys
  | .struct n fs, .struct n2 fs2 => n == n2 && deepEqualFields fs fs2
  | _, _ => false
where
  /-- Elementwise comparison of two arrays. -/
  deepEqualList : List GoValue → List GoValue → Bool
  | [], [] => true
  | x :: xs, y :: ys => deepEqual x y && deepEqualList xs ys
  | _, _ => false
  /-- Fieldwise comparison of two structs. -/
  deepEqualFields : List (String × GoValue) → List (String × GoValue) → Bool
  | [], [] => true
  | (f, x) :: xs, (g, y) :: ys => f == g && deepEqual x y && deepEqualFields xs ys
  | _, _ => false

/-- The function `valuesEqual`. -/
def valuesEqual (a b : GoValue) : Bool :=
  match a with
  | .float32 va =>
    match b with
    | .float32 vb => close32 va vb
    | _ => false
  | .float64 va =>
    match b with
    | .float64 vb => close64 va vb
    | _ => false
  | _ => deepEqual a b

/-- The first `switch` of `shouldSend`: the value is a zero of one of the types
float32, float64, int, int32, int64, uint, uint32, uint64. -/
def isIgnoredZero (value : GoValue) : Bool :=
  match value with
  | .float32 v => fIsZero binary32 v
  | .float64 v => fIsZero binary64 v
  | .int .int v => v == 0
  | .int .int32 v => v == 0
  | .int .int64 v => v == 0
  | .int .uint v => v == 0
  | .int .uint32 v => v == 0
  | .int .uint64 v => v == 0
  | _ => false

/-- The function `shouldSend`; `now` is the reading of `time.Now()`. -/
def shouldSend (cfg : AppConfig) (now : Int) (key : String) (value : GoValue)
    (lastSent : Cache) : Bool :=
  if isIgnoredZero value then false
  else
    match lastSent key with
    | some entry =>
      if now - entry.t < getBroadcastInterval cfg then
        if valuesEqual entry.v value then false else false
      else if valuesEqual entry.v value then false
      else true
    | none => true

/-- The function `updateLastSent`; `now` is the reading of `time.Now()`. -/
def updateLastSent (now : Int) (key : String) (value : GoValue) (lastSent : Cache) : Cache :=
  fun k => if k = key then some ⟨now, value⟩ else lastSent k

/-! ## Sinks -/

/-- The function `broadcast`: the message is offered to every connected client. -/
def broadcast (m : WSMessage) (w : World) : World :=
  { w with wsOut := w.wsOut ++ [m] }

/-- The type conversions of `sendOSC`. -/
def oscConvert : GoValue → GoValue
  | .int .uint8 v => .int .int32 v
  | .int .uint16 v => .int .int32 v
  | .int .uint32 v => .int .int32 (if v % 2 ^ 32 < 2 ^ 31 then v % 2 ^ 32 else v % 2 ^ 32 - 2 ^ 32)
  | .int .int8 v => .int .int32 v
  | .int .int16 v => .int .int32 v
  | .float64 b => .float32 (f64to32 b)
  | v => v

/-- The function `sendOSC`: the converted message is given to the OSC client. -/
def sendOSC (env : Env) (address : String) (value : GoValue) (w : World) : World :=
  if !env.Config.EnableOSC then w
  else { w with oscOut := w.oscOut ++ [⟨address, oscConvert value⟩] }

/-- The statement `if shouldSend(key, v, lastSentWS) ...` of the WebSocket
paths: on admission the message is broadcast and the cache updated. -/
def gateWS (env : Env) (key : String) (value : GoValue) (m : WSMessage) (w : World) : World :=
  if shouldSend env.Config (env.clock w.clockReads) key value w.lastSentWS then
    let w1 := broadcast m { w with clockReads := w.clockReads + 1 }
    { w1 with
      lastSentWS := updateLastSent (env.clock w1.clockReads) key value w1.lastSentWS
      clockReads := w1.clockReads + 1 }
  else { w with clockReads := w.clockReads + 1 }

/-- The statement `if shouldSend(key, v, lastSentOSC) || sendZero ...` of the OSC
paths: on admission the message is sent and the cache updated. -/
def gateOSC (env : Env) (entry : OSCAddressEntry) (value : GoValue) (sendZero : Bool)
    (w : World) : World :=
  if shouldSend env.Config (env.clock w.clockReads) entry.Address value w.lastSentOSC
      || sendZero then
    let w1 := sendOSC env entry.Address value { w with clockReads := w.clockReads + 1 }
    { w1 with
      lastSentOSC := updateLastSent (env.clock w1.clockReads) entry.Address value w1.lastSentOSC
      clockReads := w1.clockReads + 1 }
  else { w with clockReads := w.clockReads + 1 }

/-! ## Field walkers -/

/-- The inner loop of `broadcastStructFieldsToWS` over the elements of an array
field, from index `j` on; the key is `Sprintf("%s/%s[%d]", packetName, name, j)`. -/
def wsArray (env : Env) (packetName name : String) : List GoValue → Nat → World → World
  | [], _, w => w
  | elem :: rest, j, w =>
    let key := packetName ++ "/" ++ name ++ "[" ++ toString j ++ "]"
    wsArray env packetName name rest (j + 1) (gateWS env key elem (.keyed key elem) w)

/-- The function `broadcastStructFieldsToWS`. -/
def broadcastStructFieldsToWS (env : Env) : GoValue → String → World → World
  | .struct _ fs => fun packetName w => wsFields fs packetName w
  | _ => fun _ w => w
where
  /-- The loop over the fields of a struct, in declaration order. -/
  wsFields : List (String × GoValue) → String → World → World
  | [] => fun _ w => w
  | (name, .struct _ fs) :: rest => fun packetName w =>
    wsFields rest packetName (wsFields fs (packetName ++ "/" ++ name) w)
  | (name, .array elems) :: rest => fun packetName w =>
    wsFields rest packetName (wsArray env packetName name elems 0 w)
  | (name, field) :: rest => fun packetName w =>
    let key := packetName ++ "/" ++ name
    wsFields rest packetName (gateWS env key field (.keyed key field) w)

/-- The condition `entry, ok := OSCAddresses[key]; ok && entry.Enabled &&
Config.EnableOSC`, with the entry on success. -/
def lookupOSC (env : Env) (key : String) : Option OSCAddressEntry :=
  match env.OSCAddresses key with
  | some entry => if entry.Enabled && env.Config.EnableOSC then some entry else none
  | none => none

/-- The types listed in the `case` of the zero switch of `sendStructFieldsToOSC`. -/
def inZeroCase (value : GoValue) : Bool :=
  match value with
  | .float32 _ | .float64 _ => true
  | .int .int _ | .int .int32 _ | .int .int64 _ => true
  | .int .uint _ | .int .uint32 _ | .int .uint64 _ => true
  | _ => false

/-- The comparison `v == 0` inside that `case`: there `v` is an interface value,
the constant becomes `int(0)`, and the comparison holds only for a value of
dynamic type `int` that is 0. -/
def ifaceEqZero (value : GoValue) : Bool :=
  match value with
  | .int .int v => v == 0
  | _ => false

/-- The wheel suffix of index `j` in a four-element array. -/
def suffixes : List String := ["RL", "RR", "FL", "FR"]

/-- The function `sendStructFieldsToOSC`. -/
def sendStructFieldsToOSC (env : Env) : GoValue → World → World
  | .struct _ fs => fun w => oscFields fs w
  | _ => fun w => w
where
  /-- The loop over the fields of a struct, in declaration order. -/
  oscFields : List (String × GoValue) → World → World
  | [] => fun w => w
  | (name, field) :: rest => fun w =>
    match lookupOSC env name with
    | some entry =>
      if inZeroCase field && ifaceEqZero field && !entry.AllowZero then
        oscFields rest w
      else
        let sendZero := inZeroCase field && ifaceEqZero field && entry.AllowZero
        let w1 := gateOSC env entry field sendZero w
        match field with
        | .struct _ fs => oscFields rest (oscFields fs w1)
        | .array elems => oscFields rest (oscElems name elems.length elems 0 w1)
        | _ => oscFields rest w1
    | none =>
      match field with
      | .struct _ fs => oscFields rest (oscFields fs w)
      | .array elems => oscFields rest (oscElems name elems.length elems 0 w)
      | _ => oscFields rest w
  /-- The loop over the elements of the array field `name` of length `len`, from
  index `j` on. -/
  oscElems (name : String) (len : Nat) : List GoValue → Nat → World → World
  | [], _ => fun w => w
  | elem :: rest, j => fun w =>
    let key := if len = 4 ∧ j < suffixes.length then name ++ suffixes.getD j "" else name
    let w1 :=
      match lookupOSC env key with
      | some entry => gateOSC env entry elem false w
      | none => w
    match elem with
    | .struct _ fs => oscElems name len rest (j + 1) (oscFields fs w1)
    | _ => oscElems name len rest (j + 1) w1

/-- The summary text of `broadcastTelemetryFields`, built with the verbs `%d`
and `%.2f`. -/
def telemetrySummary (t : CarTelemetryData) : String :=
  "CarTelemetry/Speed " ++ toString t.Speed ++ " | Throttle " ++ fmtF2 t.Throttle
    ++ " | Steer " ++ fmtF2 t.Steer ++ " | Brake " ++ fmtF2 t.Brake
    ++ " | Clutch " ++ toString t.Clutch ++ " | Gear " ++ toString t.Gear
    ++ " | RPM " ++ toString t.RPM

/-- The map `fields` of `broadcastTelemetryFields`. -/
def telemetryFields (t : CarTelemetryData) : List (String × GoValue) :=
  [("Speed", .int .uint16 t.Speed),
   ("Throttle", .float32 t.Throttle),
   ("Steer", .float32 t.Steer),
   ("Brake", .float32 t.Brake),
   ("Clutch", .int .uint8 t.Clutch),
   ("Gear", .int .int8 t.Gear),
   ("EngineRPM", .int .uint16 t.EngineRPM)]

/-- One round of the `range` loop of `broadcastTelemetryFields`, for key `k`. -/
def telemetryStep (env : Env) (t : CarTelemetryData) (w : World) (k : String) : World :=
  match (telemetryFields t).lookup k with
  | some v =>
    match lookupOSC env k with
    | some entry => gateOSC env entry v false w
    | none => w
  | none => w

/-- The function `broadcastTelemetryFields`. -/
def broadcastTelemetryFields (env : Env) (t : CarTelemetryData) (w : World) : World :=
  let msg := telemetrySummary t
  let w1 := gateWS env "CarTelemetry/summary" (.str msg) (.text msg) w
  env.telemetryOrder.foldl (telemetryStep env t) w1

/-- The field `name` of a struct value, read as an array. -/
def arrayField (pkt : GoValue) (name : String) : List GoValue :=
  match pkt with
  | .struct _ fs =>
    match fs.lookup name with
    | some (.array elems) => elems
    | _ => []
  | _ => []

/-- The names of the slice `fields` of `broadcastMotionExFields`. -/
def motionExFieldNames : List String :=
  ["WheelSpeed", "WheelSlipRatio", "WheelSlipAngle", "WheelLatForce", "WheelLongForce",
   "WheelVertForce", "WheelCamber", "WheelCamberGain"]

/-- One round of the inner loop of `broadcastMotionExFields`: wheel `wheel` of
the field `name` with value `value`. -/
def motionExStep (env : Env) (name : String) (w : World) (wv : String × GoValue) : World :=
  let key := name ++ wv.1
  match env.OSCAddresses key with
  | none => w
  | some entry =>
    let w1 := broadcast (.keyed ("MotionEx/" ++ key) wv.2) w
    if env.Config.EnableOSC && entry.Enabled then sendOSC env entry.Address wv.2 w1 else w1

/-- The function `broadcastMotionExFields`. -/
def broadcastMotionExFields (env : Env) (pkt : GoValue) (w : World) : World :=
  motionExFieldNames.foldl
    (fun w name => (suffixes.zip (arrayField pkt name)).foldl (motionExStep env name) w) w

/-! ## Dispatch -/

/-- The function `decodeAndBroadcast`. -/
def decodeAndBroadcast (env : Env) (data : List UInt8)
    (decodeFunc : List UInt8 → GoValue × Option DecodeError) (packetName : String)
    (w : World) : World :=
  match (decodeFunc data).2 with
  | some _ => w
  | none =>
    sendStructFieldsToOSC env (decodeFunc data).1
      (broadcastStructFieldsToWS env (decodeFunc data).1 packetName w)

/-- The function `handleUDPPacket`; `none` stands for a run-time panic. -/
def handleUDPPacket (env : Env) (data : List UInt8) (w : World) : Option World :=
  if data.length < 24 then some w
  else
    match data[6]? with
    | none => none
    | some packetID =>
      if !(env.PacketForwardingConfig packetID).getD false then some w
      else
        match packetID.toNat with
        | 0 => some (decodeAndBroadcast env data decodeMotionPacket "Motion" w)
        | 1 => some (decodeAndBroadcast env data decodeSessionPacket "Session" w)
        | 2 => some (decodeAndBroadcast env data decodeLapDataPacket "LapData" w)
        | 3 => some (decodeAndBroadcast env data decodeEventPacket "Event" w)
        | 4 => some (decodeAndBroadcast env data decodeParticipantsPacket "Participants" w)
        | 5 => some (decodeAndBroadcast env data decodeCarSetupsPacket "CarSetups" w)
        | 6 => (decodeCarTelemetryPacket data).map (fun t => broadcastTelemetryFields env t w)
        | 7 => some (decodeAndBroadcast env data decodeCarStatusPacket "CarStatus" w)
        | 8 => some (decodeAndBroadcast env data decodeFinalClassificationPacket
            "FinalClassification" w)
        | 9 => some (decodeAndBroadcast env data decodeLobbyInfoPacket "LobbyInfo" w)
        | 10 => some (decodeAndBroadcast env data decodeCarDamagePacket "CarDamage" w)
        | 11 => some (decodeAndBroadcast env data decodeSessionHistoryPacket "SessionHistory" w)
        | 12 => some (decodeAndBroadcast env data decodeTyreSetsPacket "TyreSets" w)
        | 13 =>
          match (decodeMotionExPacket data).2 with
          | some _ => some w
          | none => some (broadcastMotionExFields env (decodeMotionExPacket data).1 w)
        | 14 => some (decodeAndBroadcast env data decodeTimeTrialPacket "TimeTrial" w)
        | 15 => some (decodeAndBroadcast env data decodeLapPositionsPacket "LapPositions" w)
        | _ => some w

/-! ## Reference definitions used by the statements -/

/-- The fifteen struct decoders: packet id of the dispatch `switch`, decoder,
record type it fills, and the expected byte length of the kind (the constant
`expectedSize` of the decoder; `decodeMotionPacket` has none and its length is
header + 22 car-motion records). -/
def decoderTable :
    List (UInt8 × (List UInt8 → GoValue × Option DecodeError) × GoType × Nat) :=
  [(0, decodeMotionPacket, PacketMotionData, 1349),
   (1, decodeSessionPacket, PacketSessionData, 753),
   (2, decodeLapDataPacket, LapDataPacket, 1285),
   (3, decodeEventPacket, PacketEventData, 45),
   (4, decodeParticipantsPacket, PacketParticipantsData, 1284),
   (5, decodeCarSetupsPacket, PacketCarSetupData, 1133),
   (7, decodeCarStatusPacket, PacketCarStatusData, 1239),
   (8, decodeFinalClassificationPacket, PacketFinalClassificationData, 1042),
   (9, decodeLobbyInfoPacket, PacketLobbyInfoData, 954),
   (10, decodeCarDamagePacket, PacketCarDamageData, 1041),
   (11, decodeSessionHistoryPacket, PacketSessionHistoryData, 1460),
   (12, decodeTyreSetsPacket, PacketTyreSetsData, 231),
   (13, decodeMotionExPacket, PacketMotionExData, 273),
   (14, decodeTimeTrialPacket, PacketTimeTrialData, 101),
   (15, decodeLapPositionsPacket, PacketLapPositionsData, 1131)]

/-- Reference for `decodeCarTelemetryPacket`, written from the layout: the
record of the player's car is read from the 60-byte slot at offset
`29 + 60 * i`, where `i` is byte 27 of the frame; a frame shorter than
`29 + 22 * 60` bytes or with `i ≥ 22` gives the all-zero record. -/
def telemetryReference (data : List UInt8) : CarTelemetryData :=
  if 29 + 22 * 60 ≤ data.length ∧ (data.getD 27 0).toNat < 22 then
    let byte := fun (k : Nat) => (data.getD (29 + 60 * (data.getD 27 0).toNat + k) 0).toNat
    let u16 := fun (k : Nat) => byte k + 256 * byte (k + 1)
    let u32 := fun (k : Nat) =>
      byte k + 256 * byte (k + 1) + 65536 * byte (k + 2) + 16777216 * byte (k + 3)
    { Speed := u16 0
      Throttle := u32 2
      Steer := u32 6
      Brake := u32 10
      Clutch := byte 14
      Gear := if byte 15 < 128 then (byte 15 : Int) else (byte 15 : Int) - 256
      RPM := 0
      EngineRPM := u16 16
      DRS := byte 18
      RevLightsPercent := byte 19
      RevLightsBitValue := u16 20
      BrakesTemperature := [u16 22, u16 24, u16 26, u16 28]
      TyresSurfaceTemperature := [byte 30, byte 31, byte 32, byte 33]
      TyresInnerTemperature := [byte 34, byte 35, byte 36, byte 37]
      EngineTemperature := u16 38
      TyresPressure := [u32 40, u32 44, u32 48, u32 52]
      SurfaceType := [byte 56, byte 57, byte 58, byte 59] }
  else CarTelemetryData.empty

/-! ## Gate runs and walk effects -/

/-- One gate decision: key and value offered, the clock reading of `shouldSend`,
and the clock reading `updateLastSent` takes if the value is admitted. -/
structure GateRequest where
  key : String
  value : GoValue
  tDecide : Int
  tUpdate : Int

/-- An admission: what was admitted and the clock reading of the decision. -/
structure Admission where
  key : String
  value : GoValue
  t : Int

/-- The gate protocol of every call site, `if shouldSend(k, v, c) then send and
updateLastSent(k, v, c)`, run over a sequence of requests on one cache; the
result lists the admissions in order. -/
def gateRun (cfg : AppConfig) : List GateRequest → Cache → List Admission
  | [], _ => []
  | r :: rs, c =>
    if shouldSend cfg r.tDecide r.key r.value c then
      ⟨r.key, r.value, r.tDecide⟩ :: gateRun cfg rs (updateLastSent r.tUpdate r.key r.value c)
    else gateRun cfg rs c

/-- The clock readings of a sequence of requests, in the order they are taken. -/
def clockReadings : List GateRequest → List Int
  | [] => []
  | r :: rs => r.tDecide :: r.tUpdate :: clockReadings rs

/-- The value of a WebSocket message built for the gate key `key`. -/
def keyedValue (key : String) : WSMessage → Option GoValue
  | .keyed k v => if k = key then some v else none
  | .text _ => none

/-- The value of the last message for `key` in a list of WebSocket messages. -/
def lastKeyed (key : String) (ms : List WSMessage) : Option GoValue :=
  (ms.filterMap (keyedValue key)).getLast?

/-- The value of an OSC message sent to `address`. -/
def sentTo (address : String) (m : OSCMessage) : Option GoValue :=
  if m.address = address then some m.value else none

/-- The value of the last message to `address` in a list of OSC messages. -/
def lastSentTo (address : String) (ms : List OSCMessage) : Option GoValue :=
  (ms.filterMap (sentTo address)).getLast?

/-- Effect of a walk for the WebSocket sink from `w` to `w2`. -/
def wsWalkEffect (env : Env) (w w2 : World) : Prop :=
  w2.lastSentOSC = w.lastSentOSC ∧ w2.oscOut = w.oscOut ∧ w.clockReads ≤ w2.clockReads ∧
  ∃ new, w2.wsOut = w.wsOut ++ new ∧ ∀ key,
    (lastKeyed key new = none → w2.lastSentWS key = w.lastSentWS key) ∧
    (∀ x, lastKeyed key new = some x → ∃ i, w.clockReads ≤ i ∧ i < w2.clockReads ∧
      w2.lastSentWS key = some ⟨env.clock i, x⟩)

/-- Effect of a walk for the OSC sink from `w` to `w2`. -/
def oscWalkEffect (env : Env) (w w2 : World) : Prop :=
  w2.lastSentWS = w.lastSentWS ∧ w2.wsOut = w.wsOut ∧ w.clockReads ≤ w2.clockReads ∧
  ∃ new, w2.oscOut = w.oscOut ++ new ∧ ∀ key,
    (lastSentTo key new = none → w2.lastSentOSC key = w.lastSentOSC key) ∧
    (∀ x, lastSentTo key new = some x → ∃ i y, w.clockReads ≤ i ∧ i < w2.clockReads ∧
      w2.lastSentOSC key = some ⟨env.clock i, y⟩ ∧ oscConvert y = x)

/-! ## Sample inputs -/

/-- A 45-byte Event frame. -/
def frameEvent45 : List UInt8 := List.replicate 6 0 ++ [3] ++ List.replicate 38 0

/-- A 44-byte Event frame. -/
def frameEvent44 : List UInt8 := List.replicate 6 0 ++ [3] ++ List.replicate 37 0

/-- A 753-byte Session frame. -/
def frameSession753 : List UInt8 := List.replicate 6 0 ++ [1] ++ List.replicate 746 0

/-- A 1380-byte CarTelemetry frame with player car index 0 and byte 29 (low byte
of the speed of car 0) equal to 1. -/
def frameTelemetry1380 : List UInt8 :=
  List.replicate 6 0 ++ [6] ++ List.replicate 22 0 ++ [1] ++ List.replicate 1350 0

/-- A 24-byte CarTelemetry frame. -/
def frameTelemetryShort : List UInt8 := List.replicate 6 0 ++ [6] ++ List.replicate 17 0

/-- A 1349-byte CarTelemetry frame with player car index 22. -/
def frameTelemetryBadIndex : List UInt8 :=
  List.replicate 6 0 ++ [6] ++ List.replicate 20 0 ++ [22] ++ List.replicate 1321 0

/-- A 1381-byte CarTelemetry frame with player car index 3: the slots of cars 0
to 2 are filled with the byte 9, the slot of car 3 starts with speed 0x1234,
throttle 1.0 (0x3F800000) and has gear byte 0xFF. -/
def frameTelemetryCar3 : List UInt8 :=
  List.replicate 6 0 ++ [6] ++ List.replicate 20 0 ++ [3, 0] ++ List.replicate 180 9
    ++ [0x34, 0x12, 0, 0, 0x80, 0x3F] ++ List.replicate 9 7 ++ [0xFF]
    ++ List.replicate 1156 0

/-- A 10-byte frame, shorter than the header. -/
def frameTooShort : List UInt8 := List.replicate 10 0

/-- Three entries of the default OSC address table. -/
def sampleAddresses (k : String) : Option OSCAddressEntry :=
  if k = "Speed" then some ⟨"/car/speed", "float", true, false⟩
  else if k = "Throttle" then some ⟨"/car/throttle", "float", true, false⟩
  else if k = "Gear" then some ⟨"/car/gear", "int", true, false⟩
  else none

/-- An environment for the examples: OSC on, 2 Hz, every kind forwarded, one
millisecond between clock readings. -/
def sampleEnv : Env where
  Config := ⟨true, 2⟩
  OSCAddresses := sampleAddresses
  PacketForwardingConfig := fun _ => some true
  clock := fun i => 1000000 * (i : Int)
  telemetryOrder := ["Speed", "Throttle", "Steer", "Brake", "Clutch", "Gear", "EngineRPM"]

/-- The state at start-up: empty caches, nothing sent. -/
def emptyWorld : World := ⟨fun _ => none, fun _ => none, [], [], 0⟩

/-- A cache whose only entry is key "k", sent at time 0 with value 1. -/
def sampleCache : Cache :=
  fun k => if k = "k" then some ⟨0, GoValue.int IntKind.uint8 1⟩ else none

/-- Two admissions of key "k" 600 ms apart, with a rejected request in between. -/
def sampleRequests : List GateRequest :=
  [⟨"k", .int .uint8 1, 0, 1⟩, ⟨"k", .int .uint8 2, 100000000, 100000001⟩,
   ⟨"k", .int .uint8 2, 600000000, 600000001⟩]

/-! ## Definitions for the walk, header and float claims -/

/-- The bytes given to `broadcast` for a message: `Sprintf("%s %v", key, value)`
for a keyed message, with `fmtV` the rendering of the verb `%v`. -/
def WSMessage.render (fmtV : GoValue → String) : WSMessage → String
  | .keyed key value => key ++ " " ++ fmtV value
  | .text s => s

mutual
/-- Reference for the WebSocket walk, written from the key scheme: the (key,
value) pairs the walk offers to the gate for the field `name` of a record reached
through `path` (the kind name followed by the names of the enclosing record
fields).  A non-array field `F` has key `path/F`, element `j` of an array field
`F` has key `path/F[j]`, and a record field is entered with `F` appended to the
path. -/
def wsFieldLeaves : GoValue → String → List String → List (String × GoValue)
  | .struct _ fs => fun name path => wsLeaves fs (path ++ [name])
  | .array elems => fun name path =>
    elems.enum.map
      (fun je => ("/".intercalate (path ++ [name]) ++ "[" ++ toString je.1 ++ "]", je.2))
  | field => fun name path => [("/".intercalate (path ++ [name]), field)]
/-- The pairs of the fields `fs` of a record reached through `path`, in
declaration order. -/
def wsLeaves : List (String × GoValue) → List String → List (String × GoValue)
  | [] => fun _ => []
  | (name, field) :: rest => fun path => wsFieldLeaves field name path ++ wsLeaves rest path
end

/-- One gate step of the WebSocket walk for the pair `kv`. -/
def wsStep (env : Env) (w : World) (kv : String × GoValue) : World :=
  gateWS env kv.1 kv.2 (.keyed kv.1 kv.2) w

/-- The message the WebSocket walk builds for the pair `kv`. -/
def keyedOf (kv : String × GoValue) : WSMessage :=
  .keyed kv.1 kv.2

/-- The gate key of a WebSocket message built by the walk. -/
def WSMessage.key? : WSMessage → Option String
  | .keyed key _ => some key
  | .text _ => none

/-- A 101-byte TimeTrial frame, all zero but the packet id. -/
def frameTimeTrial101 : List UInt8 := List.replicate 6 0 ++ [14] ++ List.replicate 94 0

/-- The keys under which the WebSocket walk consults the gate for a CarStatus
record, in visiting order. -/
def carStatusKeys : List String :=
  ["CarStatus/Header/PacketFormat", "CarStatus/Header/GameYear",
   "CarStatus/Header/GameMajorVersion", "CarStatus/Header/GameMinorVersion",
   "CarStatus/Header/PacketVersion", "CarStatus/Header/PacketId",
   "CarStatus/Header/SessionUID", "CarStatus/Header/SessionTime",
   "CarStatus/Header/FrameIdentifier", "CarStatus/Header/OverallFrameIdentifier",
   "CarStatus/Header/PlayerCarIndex", "CarStatus/Header/SecondaryPlayerCarIndex",
   "CarStatus/CarStatusData[0]", "CarStatus/CarStatusData[1]",
   "CarStatus/CarStatusData[2]", "CarStatus/CarStatusData[3]",
   "CarStatus/CarStatusData[4]", "CarStatus/CarStatusData[5]",
   "CarStatus/CarStatusData[6]", "CarStatus/CarStatusData[7]",
   "CarStatus/CarStatusData[8]", "CarStatus/CarStatusData[9]",
   "CarStatus/CarStatusData[10]", "CarStatus/CarStatusData[11]",
   "CarStatus/CarStatusData[12]", "CarStatus/CarStatusData[13]",
   "CarStatus/CarStatusData[14]", "CarStatus/CarStatusData[15]",
   "CarStatus/CarStatusData[16]", "CarStatus/CarStatusData[17]",
   "CarStatus/CarStatusData[18]", "CarStatus/CarStatusData[19]",
   "CarStatus/CarStatusData[20]", "CarStatus/CarStatusData[21]"]

/-- The header record as `decoder.value` fills it from the front of `buf`. -/
def headerOf (buf : List UInt8) : GoValue :=
  .struct "PacketHeader"
    [("PacketFormat", .int .uint16 (leNat (buf.take 2))),
     ("GameYear", .int .uint8 (leNat ((buf.drop 2).take 1))),
     ("GameMajorVersion", .int .uint8 (leNat ((buf.drop 3).take 1))),
     ("GameMinorVersion", .int .uint8 (leNat ((buf.drop 4).take 1))),
     ("PacketVersion", .int .uint8 (leNat ((buf.drop 5).take 1))),
     ("PacketId", .int .uint8 (leNat ((buf.drop 6).take 1))),
     ("SessionUID", .int .uint64 (leNat ((buf.drop 7).take 8))),
     ("SessionTime", .float32 (leNat ((buf.drop 15).take 4))),
     ("FrameIdentifier", .int .uint32 (leNat ((buf.drop 19).take 4))),
     ("OverallFrameIdentifier", .int .uint32 (leNat ((buf.drop 23).take 4))),
     ("PlayerCarIndex", .int .uint8 (leNat ((buf.drop 27).take 1))),
     ("SecondaryPlayerCarIndex", .int .uint8 (leNat ((buf.drop 28).take 1)))]

/-- The value is a single number (an integer or a float). -/
def GoValue.isScalar : GoValue → Bool
  | .int _ _ => true
  | .float32 _ => true
  | .float64 _ => true
  | _ => false

/-- The message carries a single number. -/
def WSMessage.carriesScalar : WSMessage → Bool
  | .keyed _ value => value.isScalar
  | .text _ => false

/-- A 1239-byte CarStatus frame, all zero but the packet id. -/
def frameCarStatus1239 : List UInt8 := List.replicate 6 0 ++ [7] ++ List.replicate 1232 0

/-- The TimeTrial keys the WebSocket walk sends for an all-zero frame: the keys of
the float32, uint32 and uint64 fields are missing. -/
def timeTrialZeroKeys : List String :=
  ["TimeTrial/Header/PacketFormat", "TimeTrial/Header/GameYear",
   "TimeTrial/Header/GameMajorVersion", "TimeTrial/Header/GameMinorVersion",
   "TimeTrial/Header/PacketVersion", "TimeTrial/Header/PacketId",
   "TimeTrial/Header/PlayerCarIndex", "TimeTrial/Header/SecondaryPlayerCarIndex",
   "TimeTrial/PlayerSessionBestDataSet/CarIdx", "TimeTrial/PlayerSessionBestDataSet/TeamId",
   "TimeTrial/PlayerSessionBestDataSet/TractionControl",
   "TimeTrial/PlayerSessionBestDataSet/GearboxAssist",
   "TimeTrial/PlayerSessionBestDataSet/AntiLockBrakes",
   "TimeTrial/PlayerSessionBestDataSet/EqualCarPerformance",
   "TimeTrial/PlayerSessionBestDataSet/CustomSetup", "TimeTrial/PlayerSessionBestDataSet/Valid",
   "TimeTrial/PersonalBestDataSet/CarIdx", "TimeTrial/PersonalBestDataSet/TeamId",
   "TimeTrial/PersonalBestDataSet/TractionControl",
   "TimeTrial/PersonalBestDataSet/GearboxAssist",
   "TimeTrial/PersonalBestDataSet/AntiLockBrakes",
   "TimeTrial/PersonalBestDataSet/EqualCarPerformance",
   "TimeTrial/PersonalBestDataSet/CustomSetup", "TimeTrial/PersonalBestDataSet/Valid",
   "TimeTrial/RivalDataSet/CarIdx", "TimeTrial/RivalDataSet/TeamId",
   "TimeTrial/RivalDataSet/TractionControl", "TimeTrial/RivalDataSet/GearboxAssist",
   "TimeTrial/RivalDataSet/AntiLockBrakes", "TimeTrial/RivalDataSet/EqualCarPerformance",
   "TimeTrial/RivalDataSet/CustomSetup", "TimeTrial/RivalDataSet/Valid"]

/-- The field list of the record type `PacketTimeTrialData`. -/
def timeTrialFields : List (String × GoType) :=
  [("Header", PacketHeader), ("PlayerSessionBestDataSet", TimeTrialDataSet),
   ("PersonalBestDataSet", TimeTrialDataSet), ("RivalDataSet", TimeTrialDataSet)]

/-- The OSC address table of the burst examples: entries of the default table
for the gear, traction control and rear-left wheel speed. -/
def burstAddresses (k : String) : Option OSCAddressEntry :=
  if k = "Gear" then some ⟨"/car/gear", "int", true, false⟩
  else if k = "TractionControl" then some ⟨"/status/traction_control", "int", true, false⟩
  else if k = "WheelSpeedRL" then some ⟨"/motion_ex/wheel_speed/rl", "float", true, false⟩
  else none

/-- An environment in which every clock reading is the same instant: OSC on,
2 Hz, every kind forwarded. -/
def burstEnv : Env where
  Config := ⟨true, 2⟩
  OSCAddresses := burstAddresses
  PacketForwardingConfig := fun _ => some true
  clock := fun _ => 0
  telemetryOrder := ["Speed", "Throttle", "Steer", "Brake", "Clutch", "Gear", "EngineRPM"]

/-- A 273-byte MotionEx frame whose rear-left wheel speed (bytes 77 to 80) is
1.0, all other bytes zero but the packet id. -/
def frameMotionEx273 : List UInt8 :=
  List.replicate 6 0 ++ [13] ++ List.replicate 70 0 ++ [0, 0, 0x80, 0x3F]
    ++ List.replicate 192 0

/-- A 1349-byte CarTelemetry frame for car 0 with speed 100 (byte 29), gear 0
and clutch 0. -/
def frameTelemetryNeutral : List UInt8 :=
  List.replicate 6 0 ++ [6] ++ List.replicate 22 0 ++ [100] ++ List.replicate 1319 0

/-- A request of the OSC walk to the gate: address-table entry, value, and the
flag `sendZero`. -/
abbrev OSCRequest := OSCAddressEntry × GoValue × Bool

/-- The first `if` block of the loop body of `sendStructFieldsToOSC` for the
field `name` with value `field`: `none` is the `continue`, otherwise the request
made to the gate, if any. -/
def oscHead (env : Env) (name : String) (field : GoValue) : Option (List OSCRequest) :=
  match lookupOSC env name with
  | some entry =>
    if inZeroCase field && ifaceEqZero field && !entry.AllowZero then none
    else some [(entry, field, inZeroCase field && ifaceEqZero field && entry.AllowZero)]
  | none => some []

/-- The key under which element `j` of the array field `name` of length `len` is
looked up. -/
def oscElemKey (name : String) (len j : Nat) : String :=
  if len = 4 ∧ j < suffixes.length then name ++ suffixes.getD j "" else name

/-- The request made for an array element looked up under `key`. -/
def oscElemHead (env : Env) (key : String) (elem : GoValue) : List OSCRequest :=
  match lookupOSC env key with
  | some entry => [(entry, elem, false)]
  | none => []

mutual
/-- The requests the OSC walk makes to the gate for the field `name`, in order. -/
def oscFieldLeaves (env : Env) : GoValue → String → List OSCRequest
  | .struct n fs => fun name =>
    match oscHead env name (.struct n fs) with
    | none => []
    | some h => h ++ oscLeaves env fs
  | .array elems => fun name =>
    match oscHead env name (.array elems) with
    | none => []
    | some h => h ++ oscElemLeaves env elems name elems.length 0
  | field => fun name =>
    match oscHead env name field with
    | none => []
    | some h => h
/-- The requests the OSC walk makes for the fields `fs`, in declaration order. -/
def oscLeaves (env : Env) : List (String × GoValue) → List OSCRequest
  | [] => []
  | (name, field) :: rest => oscFieldLeaves env field name ++ oscLeaves env rest
/-- The requests the OSC walk makes for the elements of the array field `name`
of length `len`, from index `j` on. -/
def oscElemLeaves (env : Env) : List GoValue → String → Nat → Nat → List OSCRequest
  | [] => fun _ _ _ => []
  | elem :: rest => fun name len j =>
    oscElemHead env (oscElemKey name len j) elem ++ oscElemLeaf env elem
      ++ oscElemLeaves env rest name len (j + 1)
/-- The requests made inside an array element: its fields when it is a record. -/
def oscElemLeaf (env : Env) : GoValue → List OSCRequest
  | .struct _ fs => oscLeaves env fs
  | _ => []
end

/-- One gate step of the OSC walk for the request `r`. -/
def oscStep (env : Env) (w : World) (r : OSCRequest) : World :=
  gateOSC env r.1 r.2.1 r.2.2 w

/-- The field `name` of a record value. -/
def GoValue.field (v : GoValue) (name : String) : Option GoValue :=
  match v with
  | .struct _ fs => fs.lookup name
  | _ => none

/-- Reference for the decoded header, written from the wire layout: every field
is the little-endian value of the frame bytes at its fixed offset. -/
def headerReference (data : List UInt8) : GoValue :=
  let b := fun (k : Nat) => (data.getD k 0).toNat
  .struct "PacketHeader"
    [("PacketFormat", .int .uint16 ((b 0 + 256 * b 1 : Nat) : Int)),
     ("GameYear", .int .uint8 (b 2 : Nat)),
     ("GameMajorVersion", .int .uint8 (b 3 : Nat)),
     ("GameMinorVersion", .int .uint8 (b 4 : Nat)),
     ("PacketVersion", .int .uint8 (b 5 : Nat)),
     ("PacketId", .int .uint8 (b 6 : Nat)),
     ("SessionUID", .int .uint64
        ((b 7 + 256 * b 8 + 256 ^ 2 * b 9 + 256 ^ 3 * b 10 + 256 ^ 4 * b 11 + 256 ^ 5 * b 12
          + 256 ^ 6 * b 13 + 256 ^ 7 * b 14 : Nat) : Int)),
     ("SessionTime", .float32 (b 15 + 256 * b 16 + 256 ^ 2 * b 17 + 256 ^ 3 * b 18)),
     ("FrameIdentifier", .int .uint32
        ((b 19 + 256 * b 20 + 256 ^ 2 * b 21 + 256 ^ 3 * b 22 : Nat) : Int)),
     ("OverallFrameIdentifier", .int .uint32
        ((b 23 + 256 * b 24 + 256 ^ 2 * b 25 + 256 ^ 3 * b 26 : Nat) : Int)),
     ("PlayerCarIndex", .int .uint8 (b 27 : Nat)),
     ("SecondaryPlayerCarIndex", .int .uint8 (b 28 : Nat))]

/-- A 753-byte Session frame with byte 24 equal to 5 and byte 29 equal to 9. -/
def frameSessionOffsets : List UInt8 :=
  List.replicate 6 0 ++ [1] ++ List.replicate 17 0 ++ [5] ++ List.replicate 4 0 ++ [9]
    ++ List.replicate 723 0

/-- A 753-byte Session frame with format 2025 (bytes 0xE9 0x07) and byte 30, the
track temperature, equal to 0xFF. -/
def frameSessionCold : List UInt8 :=
  [0xE9, 0x07] ++ List.replicate 4 0 ++ [1] ++ List.replicate 23 0 ++ [0xFF]
    ++ List.replicate 722 0

/-- No float occurs in the value, at any depth. -/
def GoValue.floatFree : GoValue → Bool
  | .int _ _ => true
  | .float32 _ => false
  | .float64 _ => false
  | .str _ => true
  | .array xs => floatFreeList xs
  | .struct _ fs => floatFreeFields fs
where
  /-- No float occurs in the elements of an array. -/
  floatFreeList : List GoValue → Bool
  | [] => true
  | x :: xs => x.floatFree && floatFreeList xs
  /-- No float occurs in the fields of a struct. -/
  floatFreeFields : List (String × GoValue) → Bool
  | [] => true
  | (_, x) :: xs => x.floatFree && floatFreeFields xs

/-! ## Definitions for the address-table, conversion and telemetry claims -/

/-- The statement of the element loop of `sendStructFieldsToOSC` that looks
`key` up in the address table and, when the entry is there and enabled and OSC is
on, offers the value to the OSC gate. -/
def oscLookupSend (env : Env) (key : String) (value : GoValue) (w : World) : World :=
  match lookupOSC env key with
  | some entry => gateOSC env entry value false w
  | none => w

/-- An address table with the four wheel keys of `WheelSpeed`, the bare key
`EventDetails` and three indexed spellings of its element 0. -/
def wheelAddresses (k : String) : Option OSCAddressEntry :=
  if k = "WheelSpeedRL" then some ⟨"/motion_ex/wheel_speed/rl", "float", true, false⟩
  else if k = "WheelSpeedRR" then some ⟨"/motion_ex/wheel_speed/rr", "float", true, false⟩
  else if k = "WheelSpeedFL" then some ⟨"/motion_ex/wheel_speed/fl", "float", true, false⟩
  else if k = "WheelSpeedFR" then some ⟨"/motion_ex/wheel_speed/fr", "float", true, false⟩
  else if k = "EventDetails" then some ⟨"/event/details", "int", true, false⟩
  else if k = "EventDetails0" then some ⟨"/event/details/0", "int", true, false⟩
  else if k = "EventDetails[0]" then some ⟨"/event/details/0", "int", true, false⟩
  else if k = "EventDetails_0" then some ⟨"/event/details/0", "int", true, false⟩
  else none

/-- An environment whose clock advances one second per reading, so that the
throttle never applies: OSC on, 2 Hz, every kind forwarded. -/
def slowEnv : Env where
  Config := ⟨true, 2⟩
  OSCAddresses := wheelAddresses
  PacketForwardingConfig := fun _ => some true
  clock := fun i => 1000000000 * (i : Int)
  telemetryOrder := ["Speed", "Throttle", "Steer", "Brake", "Clutch", "Gear", "EngineRPM"]

/-- The address `a` is the address of an enabled entry of the OSC address table,
with OSC enabled in the configuration. -/
def enabledAddress (env : Env) (a : String) : Prop :=
  ∃ key entry, env.OSCAddresses key = some entry ∧ entry.Enabled = true ∧
    env.Config.EnableOSC = true ∧ entry.Address = a

/-- Effect of handling on the OSC side from `w` to `w2`: the messages sent go to
addresses of enabled table entries, and the OSC gate cache changes only under
such addresses. -/
def oscTableEffect (env : Env) (w w2 : World) : Prop :=
  ∃ new, w2.oscOut = w.oscOut ++ new ∧
    (∀ m ∈ new, enabledAddress env m.address) ∧
    (∀ k, w2.lastSentOSC k ≠ w.lastSentOSC k → enabledAddress env k)

/-- The environment `env` with the OSC address table replaced by `table`. -/
def Env.withTable (env : Env) (table : String → Option OSCAddressEntry) : Env :=
  { env with OSCAddresses := table }

/-- The entry with its allow-zero flag cleared. -/
def eraseAllowZero (e : OSCAddressEntry) : OSCAddressEntry :=
  { e with AllowZero := false }

/-- A request of the OSC walk with the allow-zero flag of its entry cleared. -/
def eraseRequest (r : OSCRequest) : OSCRequest :=
  (eraseAllowZero r.1, r.2.1, r.2.2)

/-- No value of the platform-sized Go type `int` occurs in the value, at any
depth. -/
def GoValue.noGoInt : GoValue → Bool
  | .int k _ => match k with
    | .int => false
    | _ => true
  | .float32 _ => true
  | .float64 _ => true
  | .str _ => true
  | .array xs => noGoIntList xs
  | .struct _ fs => noGoIntFields fs
where
  /-- No `int` occurs in the elements of an array. -/
  noGoIntList : List GoValue → Bool
  | [] => true
  | x :: xs => x.noGoInt && noGoIntList xs
  /-- No `int` occurs in the fields of a struct. -/
  noGoIntFields : List (String × GoValue) → Bool
  | [] => true
  | (_, x) :: xs => x.noGoInt && noGoIntFields xs

/-- The table `burstAddresses` with every allow-zero flag set. -/
def burstAddressesAllowZero (k : String) : Option OSCAddressEntry :=
  if k = "Gear" then some ⟨"/car/gear", "int", true, true⟩
  else if k = "TractionControl" then some ⟨"/status/traction_control", "int", true, true⟩
  else if k = "WheelSpeedRL" then some ⟨"/motion_ex/wheel_speed/rl", "float", true, true⟩
  else none

/-- The request goes to address `a` and its value is not a zero the zero rule
of `shouldSend` suppresses. -/
def OSCRequest.admissibleAt (a : String) (r : OSCRequest) : Bool :=
  decide (r.1.Address = a) && !isIgnoredZero r.2.1

/-- The type is a number `encoding/binary` can read: a fixed-size integer or a
float. -/
def GoType.wireScalar : GoType → Bool
  | .int k => k.wireSize.isSome
  | .float32 => true
  | .float64 => true
  | _ => false

/-- The field names of a struct type, in declaration order. -/
def structFieldNames : GoType → List String
  | .struct _ fs => fs.map Prod.fst
  | _ => []

/-- The field types of a struct type, in declaration order. -/
def structFields : GoType → List (String × GoType)
  | .struct _ fs => fs
  | _ => []

/-- The 22 car slots of a CarStatus frame, decoded from byte 29 on (55 bytes
each). -/
def carStatusSlots (data : List UInt8) : List GoValue :=
  (decodeN (decodeValue CarStatusData) 22 ((data.drop 29).take 1210)).1

/-- The names the OSC walk of a CarStatus record looks up in the address table:
the two fields of the record, the header fields and the fields of a car slot. -/
def carStatusLookupNames : List String :=
  "Header" :: structFieldNames PacketHeader
    ++ "CarStatusData" :: structFieldNames CarStatusData

/-- An address table with two of the default CarStatus entries. -/
def statusAddresses (k : String) : Option OSCAddressEntry :=
  if k = "TractionControl" then some ⟨"/status/traction_control", "int", true, false⟩
  else if k = "FuelInTank" then some ⟨"/status/fuel_in_tank", "float", true, false⟩
  else none

/-- The environment `burstEnv` (clock standing still, OSC on, 2 Hz, every kind
forwarded) with the table `statusAddresses`. -/
def statusEnv : Env := burstEnv.withTable statusAddresses

/-- A 1239-byte CarStatus frame with player car index 5.  Car slot 0 is all zero;
car slot 1 has traction control 2 and 1.0 (0x3F800000) fuel in tank; the other
slots are all zero. -/
def frameCarStatusFuel : List UInt8 :=
  List.replicate 6 0 ++ [7] ++ List.replicate 20 0 ++ [5, 0] ++ List.replicate 55 0
    ++ ([2, 0, 0, 0, 0] ++ [0, 0, 0x80, 0x3F] ++ List.replicate 46 0)
    ++ List.replicate 1100 0

/-! ## Definitions for the equality of composite values and the rounds of the OSC loops -/

/-- The bit pattern with both zeros (+0 and -0) identified: a pattern that is a
zero becomes the pattern of +0, every other pattern is kept. -/
def normZero (F : FloatFormat) (b : Nat) : Nat :=
  if fIsZero F b then 0 else b

/-- The value with -0 replaced by +0 in every float it contains, at any depth;
dynamic types, record names and field names are kept. -/
def GoValue.normalizeZero : GoValue → GoValue
  | .int k v => .int k v
  | .float32 b => .float32 (normZero binary32 b)
  | .float64 b => .float64 (normZero binary64 b)
  | .str s => .str s
  | .array xs => .array (normalizeList xs)
  | .struct n fs => .struct n (normalizeFields fs)
where
  /-- The elements of an array, normalised. -/
  normalizeList : List GoValue → List GoValue
  | [] => []
  | x :: xs => x.normalizeZero :: normalizeList xs
  /-- The fields of a struct, normalised. -/
  normalizeFields : List (String × GoValue) → List (String × GoValue)
  | [] => []
  | (f, x) :: xs => (f, x.normalizeZero) :: normalizeFields xs

/-- No float contained in the value, at any depth, is a NaN. -/
def GoValue.nanFree : GoValue → Bool
  | .int _ _ => true
  | .float32 b => !fIsNaN binary32 b
  | .float64 b => !fIsNaN binary64 b
  | .str _ => true
  | .array xs => nanFreeList xs
  | .struct _ fs => nanFreeFields fs
where
  /-- No NaN occurs in the elements of an array. -/
  nanFreeList : List GoValue → Bool
  | [] => true
  | x :: xs => x.nanFree && nanFreeList xs
  /-- No NaN occurs in the fields of a struct. -/
  nanFreeFields : List (String × GoValue) → Bool
  | [] => true
  | (_, x) :: xs => x.nanFree && nanFreeFields xs

/-- What one round of an OSC loop may do, from `w` to `w1`, for the field with
table key `key` and value `value`: either nothing was sent and the OSC gate
cache is unchanged, or the table has an entry under `key`, that entry is
enabled, OSC is enabled, exactly one message was sent, carrying the address of
that entry and the converted value, and the OSC gate cache was updated under
that address. -/
def sentUnderKey (env : Env) (key : String) (value : GoValue) (w w1 : World) : Prop :=
  (w1.oscOut = w.oscOut ∧ w1.lastSentOSC = w.lastSentOSC) ∨
  ∃ entry, env.OSCAddresses key = some entry ∧ entry.Enabled = true ∧
    env.Config.EnableOSC = true ∧
    w1.oscOut = w.oscOut ++ [⟨entry.Address, oscConvert value⟩] ∧
    w1.lastSentOSC
      = updateLastSent (env.clock (w.clockReads + 1)) entry.Address value w.lastSentOSC

/-! ## Lemmas on the struct read -/

theorem binaryRead_short (T : GoType) (L : Nat) (hs : T.sizeof = some L) (data : List UInt8)
    (h : data.length < L) :
    binaryRead T data
      = (zeroValue T, some (if data.length = 0 then .EOF else .ErrUnexpectedEOF)) := by
  simp [binaryRead, hs, h]

theorem binaryRead_enough (T : GoType) (L : Nat) (hs : T.sizeof = some L) (data : List UInt8)
    (h : L ≤ data.length) :
    binaryRead T data = ((decodeValue T (data.take L)).1, none) := by
  simp [binaryRead, hs, Nat.not_lt.mpr h]

theorem sizeof_PacketMotionData : PacketMotionData.sizeof = some 1349 := by decide
theorem sizeof_PacketSessionData : PacketSessionData.sizeof = some 753 := by decide
theorem sizeof_LapDataPacket : LapDataPacket.sizeof = some 1285 := by decide
theorem sizeof_PacketEventData : PacketEventData.sizeof = some 57 := by decide
theorem sizeof_PacketParticipantsData : PacketParticipantsData.sizeof = some 1284 := by decide
theorem sizeof_PacketCarSetupData : PacketCarSetupData.sizeof = some 1133 := by decide
theorem sizeof_PacketCarStatusData : PacketCarStatusData.sizeof = some 1239 := by decide
theorem sizeof_PacketFinalClassificationData :
    PacketFinalClassificationData.sizeof = some 1042 := by decide
theorem sizeof_PacketLobbyInfoData : PacketLobbyInfoData.sizeof = some 954 := by decide
theorem sizeof_PacketCarDamageData : PacketCarDamageData.sizeof = some 1041 := by decide
theorem sizeof_PacketSessionHistoryData : PacketSessionHistoryData.sizeof = some 1460 := by decide
theorem sizeof_PacketTyreSetsData : PacketTyreSetsData.sizeof = some 231 := by decide
theorem sizeof_PacketMotionExData : PacketMotionExData.sizeof = some 273 := by decide
theorem sizeof_PacketTimeTrialData : PacketTimeTrialData.sizeof = some 101 := by decide
theorem sizeof_PacketLapPositionsData : PacketLapPositionsData.sizeof = some 1131 := by decide

/-- What every entry of the decoder table does: with `S` the wire size of the
record type, the decoder is the struct read behind a guard `len < L`. -/
theorem decoderTable_spec (id : UInt8) (d : List UInt8 → GoValue × Option DecodeError)
    (T : GoType) (L : Nat) (h : (id, d, T, L) ∈ decoderTable) :
    ∃ S, T.sizeof = some S ∧ (id ≠ 3 → S = L) ∧ (id = 3 → L = 45 ∧ S = 57) ∧
      ((∀ data, d data = binaryRead T data) ∨
       (∀ data, d data = if data.length < L then (zeroValue T, some .ErrUnexpectedEOF)
          else binaryRead T data)) := by
  simp only [decoderTable, List.mem_cons, Prod.mk.injEq, List.mem_singleton, List.not_mem_nil,
    or_false] at h
  rcases h with h | h | h | h | h | h | h | h | h | h | h | h | h | h | h <;>
    obtain ⟨rfl, rfl, rfl, rfl⟩ := h
  · exact ⟨_, sizeof_PacketMotionData, by simp, by decide, Or.inl fun _ => rfl⟩
  · exact ⟨_, sizeof_PacketSessionData, by simp, by decide, Or.inr fun _ => rfl⟩
  · exact ⟨_, sizeof_LapDataPacket, by simp, by decide, Or.inr fun _ => rfl⟩
  · exact ⟨_, sizeof_PacketEventData, by simp, by simp, Or.inr fun _ => rfl⟩
  · exact ⟨_, sizeof_PacketParticipantsData, by simp, by decide, Or.inr fun _ => rfl⟩
  · exact ⟨_, sizeof_PacketCarSetupData, by simp, by decide, Or.inr fun _ => rfl⟩
  · exact ⟨_, sizeof_PacketCarStatusData, by simp, by decide, Or.inr fun _ => rfl⟩
  · exact ⟨_, sizeof_PacketFinalClassificationData, by simp, by decide, Or.inr fun _ => rfl⟩
  · exact ⟨_, sizeof_PacketLobbyInfoData, by simp, by decide, Or.inr fun _ => rfl⟩
  · exact ⟨_, sizeof_PacketCarDamageData, by simp, by decide, Or.inr fun _ => rfl⟩
  · exact ⟨_, sizeof_PacketSessionHistoryData, by simp, by decide, Or.inr fun _ => rfl⟩
  · exact ⟨_, sizeof_PacketTyreSetsData, by simp, by decide, Or.inr fun _ => rfl⟩
  · exact ⟨_, sizeof_PacketMotionExData, by simp, by decide, Or.inr fun _ => rfl⟩
  · exact ⟨_, sizeof_PacketTimeTrialData, by simp, by decide, Or.inr fun _ => rfl⟩
  · exact ⟨_, sizeof_PacketLapPositionsData, by simp, by decide, Or.inr fun _ => rfl⟩

/-- A decoder of the table that reports an error returns the zero record. -/
theorem decoderTable_error_zero (id : UInt8) (d : List UInt8 → GoValue × Option DecodeError)
    (T : GoType) (L : Nat) (h : (id, d, T, L) ∈ decoderTable) (data : List UInt8)
    (herr : (d data).2 ≠ none) : (d data).1 = zeroValue T := by
  obtain ⟨S, hS, -, -, hd | hd⟩ := decoderTable_spec id d T L h
  · rw [hd] at herr ⊢
    by_cases hlt : data.length < S
    · rw [binaryRead_short T S hS data hlt]
    · rw [binaryRead_enough T S hS data (Nat.not_lt.mp hlt)] at herr
      exact absurd rfl herr
  · rw [hd] at herr ⊢
    by_cases hL : data.length < L
    · simp [hL]
    · simp only [hL, if_false] at herr ⊢
      by_cases hlt : data.length < S
      · rw [binaryRead_short T S hS data hlt]
      · rw [binaryRead_enough T S hS data (Nat.not_lt.mp hlt)] at herr
        exact absurd rfl herr

/-- The dispatcher does nothing with a frame whose decoder reports an error. -/
theorem handleUDPPacket_of_error (env : Env) (w : World) (id : UInt8)
    (d : List UInt8 → GoValue × Option DecodeError)
    (T : GoType) (L : Nat) (h : (id, d, T, L) ∈ decoderTable) (data : List UInt8)
    (herr : (d data).2 ≠ none) (h6 : data[6]? = some id) :
    handleUDPPacket env data w = some w := by
  obtain ⟨e, he⟩ := Option.ne_none_iff_exists'.mp herr
  simp only [decoderTable, List.mem_cons, Prod.mk.injEq, List.mem_singleton, List.not_mem_nil,
    or_false] at h
  unfold handleUDPPacket
  rw [h6]
  by_cases h24 : data.length < 24
  · simp [h24]
  by_cases hen : (!(env.PacketForwardingConfig id).getD false) = true
  · simp [h24, hen]
  rcases h with h | h | h | h | h | h | h | h | h | h | h | h | h | h | h <;>
    obtain ⟨rfl, rfl, rfl, rfl⟩ := h <;>
    simp [h24, hen, decodeAndBroadcast, he]

/-! ## Lemmas on the telemetry decoder -/

theorem byteAt_eq (l : List UInt8) (k : Nat) (h : k < l.length) :
    byteAt l k = some (l.getD k 0) := by
  simp [byteAt, List.getD, List.getElem?_eq_getElem h]

theorem goSlice_eq (l : List UInt8) (lo hi : Nat) (h1 : lo ≤ hi) (h2 : hi ≤ l.length) :
    goSlice l lo hi = some ((l.drop lo).take (hi - lo)) := by
  simp [goSlice, h1, h2]

theorem slice_getElem? (l : List UInt8) (lo n k : Nat) (hk : k < n) (h : lo + n ≤ l.length) :
    ((l.drop lo).take n)[k]? = some (l.getD (lo + k) 0) := by
  have : lo + k < l.length := by omega
  simp [List.getElem?_take, hk, List.getElem?_drop, List.getD, List.getElem?_eq_getElem this]

theorem uint16At_eq (l : List UInt8) (lo hi : Nat) (hhi : hi = lo + 2) (h : hi ≤ l.length) :
    uint16At l lo hi = some ((l.getD lo 0).toNat + 256 * (l.getD (lo + 1) 0).toNat) := by
  subst hhi
  have h0 := slice_getElem? l lo 2 0 (by norm_num) h
  have h1 := slice_getElem? l lo 2 1 (by norm_num) h
  simp only [Nat.add_zero] at h0
  simp [uint16At, goSlice_eq l lo (lo + 2) (by omega) h, leUint16, h0, h1]

theorem floatAt_eq (l : List UInt8) (lo hi : Nat) (hhi : hi = lo + 4) (h : hi ≤ l.length) :
    floatAt l lo hi = some ((l.getD lo 0).toNat + 256 * (l.getD (lo + 1) 0).toNat
      + 65536 * (l.getD (lo + 2) 0).toNat + 16777216 * (l.getD (lo + 3) 0).toNat) := by
  subst hhi
  have h0 := slice_getElem? l lo 4 0 (by norm_num) h
  have h1 := slice_getElem? l lo 4 1 (by norm_num) h
  have h2 := slice_getElem? l lo 4 2 (by norm_num) h
  have h3 := slice_getElem? l lo 4 3 (by norm_num) h
  simp only [Nat.add_zero] at h0
  simp [floatAt, goSlice_eq l lo (lo + 4) (by omega) h, mathFromBits, leUint32, h0, h1, h2, h3]

theorem decodeCarData_eq (l : List UInt8) (h : l.length = 60) :
    decodeCarData l = some
      { Speed := (l.getD 0 0).toNat + 256 * (l.getD 1 0).toNat
        Throttle := (l.getD 2 0).toNat + 256 * (l.getD 3 0).toNat
          + 65536 * (l.getD 4 0).toNat + 16777216 * (l.getD 5 0).toNat
        Steer := (l.getD 6 0).toNat + 256 * (l.getD 7 0).toNat
          + 65536 * (l.getD 8 0).toNat + 16777216 * (l.getD 9 0).toNat
        Brake := (l.getD 10 0).toNat + 256 * (l.getD 11 0).toNat
          + 65536 * (l.getD 12 0).toNat + 16777216 * (l.getD 13 0).toNat
        Clutch := (l.getD 14 0).toNat
        Gear := int8OfByte (l.getD 15 0)
        RPM := 0
        EngineRPM := (l.getD 16 0).toNat + 256 * (l.getD 17 0).toNat
        DRS := (l.getD 18 0).toNat
        RevLightsPercent := (l.getD 19 0).toNat
        RevLightsBitValue := (l.getD 20 0).toNat + 256 * (l.getD 21 0).toNat
        BrakesTemperature :=
          [(l.getD 22 0).toNat + 256 * (l.getD 23 0).toNat,
           (l.getD 24 0).toNat + 256 * (l.getD 25 0).toNat,
           (l.getD 26 0).toNat + 256 * (l.getD 27 0).toNat,
           (l.getD 28 0).toNat + 256 * (l.getD 29 0).toNat]
        TyresSurfaceTemperature :=
          [(l.getD 30 0).toNat, (l.getD 31 0).toNat, (l.getD 32 0).toNat, (l.getD 33 0).toNat]
        TyresInnerTemperature :=
          [(l.getD 34 0).toNat, (l.getD 35 0).toNat, (l.getD 36 0).toNat, (l.getD 37 0).toNat]
        EngineTemperature := (l.getD 38 0).toNat + 256 * (l.getD 39 0).toNat
        TyresPressure :=
          [(l.getD 40 0).toNat + 256 * (l.getD 41 0).toNat
             + 65536 * (l.getD 42 0).toNat + 16777216 * (l.getD 43 0).toNat,
           (l.getD 44 0).toNat + 256 * (l.getD 45 0).toNat
             + 65536 * (l.getD 46 0).toNat + 16777216 * (l.getD 47 0).toNat,
           (l.getD 48 0).toNat + 256 * (l.getD 49 0).toNat
             + 65536 * (l.getD 50 0).toNat + 16777216 * (l.getD 51 0).toNat,
           (l.getD 52 0).toNat + 256 * (l.getD 53 0).toNat
             + 65536 * (l.getD 54 0).toNat + 16777216 * (l.getD 55 0).toNat]
        SurfaceType :=
          [(l.getD 56 0).toNat, (l.getD 57 0).toNat, (l.getD 58 0).toNat, (l.getD 59 0).toNat] } := by
  have hb : ∀ k, k < 60 → byteAt l k = some (l.getD k 0) :=
    fun k hk => byteAt_eq l k (by omega)
  have hu : ∀ lo hi, hi = lo + 2 → hi ≤ 60 → uint16At l lo hi
      = some ((l.getD lo 0).toNat + 256 * (l.getD (lo + 1) 0).toNat) :=
    fun lo hi h1 h2 => uint16At_eq l lo hi h1 (by omega)
  have hf : ∀ lo hi, hi = lo + 4 → hi ≤ 60 → floatAt l lo hi
      = some ((l.getD lo 0).toNat + 256 * (l.getD (lo + 1) 0).toNat
        + 65536 * (l.getD (lo + 2) 0).toNat + 16777216 * (l.getD (lo + 3) 0).toNat) :=
    fun lo hi h1 h2 => floatAt_eq l lo hi h1 (by omega)
  unfold decodeCarData
  simp only [List.mapM_cons, List.mapM_nil]
  rw [hu 0 2 rfl (by norm_num), hf 2 6 rfl (by norm_num), hf 6 10 rfl (by norm_num),
    hf 10 14 rfl (by norm_num), hb 14 (by norm_num), hb 15 (by norm_num),
    hu 16 18 rfl (by norm_num), hb 18 (by norm_num), hb 19 (by norm_num),
    hu 20 22 rfl (by norm_num), hu 38 40 rfl (by norm_num)]
  simp [hb, hu, hf]

theorem slot_getD (data : List UInt8) (lo k : Nat) (hk : k < 60) (h : lo + 60 ≤ data.length) :
    ((data.drop lo).take 60).getD k 0 = data.getD (lo + k) 0 := by
  have := slice_getElem? data lo 60 k hk h
  simp only [List.getD_eq_getElem?_getD, this, Option.getD_some]

theorem decodeCarTelemetryPacket_eq (data : List UInt8) :
    decodeCarTelemetryPacket data = some (telemetryReference data) := by
  unfold decodeCarTelemetryPacket telemetryReference
  by_cases hlen : data.length < 29 + 22 * 60
  · rw [if_pos hlen, if_neg (by omega)]
  · have h27 : 27 < data.length := by omega
    have hb : data[27]? = some (data.getD 27 0) := by
      simp [List.getD, List.getElem?_eq_getElem h27]
    rw [if_neg hlen]
    simp only [hb]
    by_cases hidx : (data.getD 27 0).toNat ≥ 22
    · rw [if_pos hidx, if_neg (by omega)]
    · have hs : 29 + (data.getD 27 0).toNat * 60 + 60 ≤ data.length := by omega
      rw [if_neg hidx, if_pos ⟨by omega, by omega⟩, goSlice_eq data _ _ (by omega) hs]
      have e : 29 + (data.getD 27 0).toNat * 60 + 60 - (29 + (data.getD 27 0).toNat * 60) = 60 := by
        omega
      have e2 : 29 + 60 * (data.getD 27 0).toNat = 29 + (data.getD 27 0).toNat * 60 := by ring
      rw [e, e2]
      have hl : ((data.drop (29 + (data.getD 27 0).toNat * 60)).take 60).length = 60 := by
        simp only [List.length_take, List.length_drop]
        omega
      simp only [decodeCarData_eq _ hl]
      have hg : ∀ k, k < 60 → ((data.drop (29 + (data.getD 27 0).toNat * 60)).take 60).getD k 0
          = data.getD (29 + (data.getD 27 0).toNat * 60 + k) 0 :=
        fun k hk => slot_getD data _ k hk hs
      simp (disch := norm_num) only [hg, int8OfByte, Nat.add_zero]

/-! ## The walkers are sequences of gate steps -/

theorem wsArray_closure (env : Env) (R : World → World → Prop) (hrefl : ∀ w, R w w)
    (htrans : ∀ a b c, R a b → R b c → R a c)
    (hstep : ∀ key value w, R w (gateWS env key value (.keyed key value) w))
    (packetName name : String) (elems : List GoValue) :
    ∀ j w, R w (wsArray env packetName name elems j w) := by
  induction elems with
  | nil => intro j w; exact hrefl w
  | cons e rest ih =>
    intro j w
    simp only [wsArray]
    exact htrans _ _ _ (hstep _ _ _) (ih _ _)

theorem wsFields_closure (env : Env) (R : World → World → Prop) (hrefl : ∀ w, R w w)
    (htrans : ∀ a b c, R a b → R b c → R a c)
    (hstep : ∀ key value w, R w (gateWS env key value (.keyed key value) w))
    (fs : List (String × GoValue)) :
    ∀ packetName w, R w (broadcastStructFieldsToWS.wsFields env fs packetName w) := by
  induction fs using broadcastStructFieldsToWS.wsFields.induct env with
  | case1 => intro p w; rw [broadcastStructFieldsToWS.wsFields.eq_1]; exact hrefl w
  | case2 name n fs rest ihr ihf =>
    intro p w
    rw [broadcastStructFieldsToWS.wsFields.eq_2]
    exact htrans _ _ _ (ihf _ _) (ihr _ _)
  | case3 name elems rest ihr =>
    intro p w
    rw [broadcastStructFieldsToWS.wsFields.eq_3]
    exact htrans _ _ _ (wsArray_closure env R hrefl htrans hstep p name elems 0 w) (ihr _ _)
  | case4 name field rest h1 h2 ihr =>
    intro p w
    rw [broadcastStructFieldsToWS.wsFields.eq_4 env name field rest h1 h2]
    exact htrans _ _ _ (hstep _ _ _) (ihr _ _)

theorem broadcastStructFieldsToWS_closure (env : Env) (R : World → World → Prop)
    (hrefl : ∀ w, R w w) (htrans : ∀ a b c, R a b → R b c → R a c)
    (hstep : ∀ key value w, R w (gateWS env key value (.keyed key value) w))
    (v : GoValue) (packetName : String) (w : World) :
    R w (broadcastStructFieldsToWS env v packetName w) := by
  cases v with
  | struct n fs =>
    simp only [broadcastStructFieldsToWS]
    exact wsFields_closure env R hrefl htrans hstep fs packetName w
  | _ => simp only [broadcastStructFieldsToWS]; exact hrefl w

theorem lookupOSC_enabled (env : Env) (key : String) (entry : OSCAddressEntry)
    (h : lookupOSC env key = some entry) : env.Config.EnableOSC = true := by
  unfold lookupOSC at h
  split at h
  · split at h
    · rename_i hc
      simp only [Bool.and_eq_true] at hc
      exact hc.2
    · exact absurd h (by simp)
  · exact absurd h (by simp)

theorem oscFields_closure (env : Env) (R : World → World → Prop) (hrefl : ∀ w, R w w)
    (htrans : ∀ a b c, R a b → R b c → R a c)
    (hstep : env.Config.EnableOSC = true →
      ∀ entry value sendZero w, R w (gateOSC env entry value sendZero w))
    (fs : List (String × GoValue)) :
    ∀ w, R w (sendStructFieldsToOSC.oscFields env fs w) := by
  refine sendStructFieldsToOSC.oscFields.induct env
    (fun fs => ∀ w, R w (sendStructFieldsToOSC.oscFields env fs w))
    (fun name len elems j => ∀ w, R w (sendStructFieldsToOSC.oscElems env name len elems j w))
    ?_ ?_ ?_ ?_ fs
  · intro w
    rw [sendStructFieldsToOSC.oscFields.eq_1]
    exact hrefl w
  · intro name field rest ihr ih w
    rw [sendStructFieldsToOSC.oscFields.eq_2]
    cases field <;> cases hl : lookupOSC env name <;> simp only [] at ih ⊢ <;>
      (try split) <;>
      first
      | exact ihr _
      | exact htrans _ _ _ (ih.2 _) (ihr _)
      | exact htrans _ _ _ (hstep (lookupOSC_enabled env name _ hl) _ _ _ _) (ihr _)
      | exact htrans _ _ _ (hstep (lookupOSC_enabled env name _ hl) _ _ _ _)
          (htrans _ _ _ (ih.2 _) (ihr _))
  · intro name len j w
    rw [sendStructFieldsToOSC.oscElems.eq_1]
    exact hrefl w
  · intro name len elem rest j ih w
    rw [sendStructFieldsToOSC.oscElems.eq_2]
    cases elem <;>
      cases hl : lookupOSC env
        (if len = 4 ∧ j < suffixes.length then name ++ suffixes.getD j "" else name) <;>
      simp only [hl] at ih ⊢ <;>
      first
      | exact ih _
      | exact htrans _ _ _ (ih.2 _) (ih.1 _)
      | exact htrans _ _ _ (hstep (lookupOSC_enabled env _ _ hl) _ _ _ _) (ih _)
      | exact htrans _ _ _ (hstep (lookupOSC_enabled env _ _ hl) _ _ _ _)
          (htrans _ _ _ (ih.2 _) (ih.1 _))

theorem sendStructFieldsToOSC_closure (env : Env) (R : World → World → Prop)
    (hrefl : ∀ w, R w w) (htrans : ∀ a b c, R a b → R b c → R a c)
    (hstep : env.Config.EnableOSC = true →
      ∀ entry value sendZero w, R w (gateOSC env entry value sendZero w))
    (v : GoValue) (w : World) :
    R w (sendStructFieldsToOSC env v w) := by
  cases v with
  | struct n fs =>
    simp only [sendStructFieldsToOSC]
    exact oscFields_closure env R hrefl htrans hstep fs w
  | _ => simp only [sendStructFieldsToOSC]; exact hrefl w

/-! ## Lemmas on walk effects -/

theorem wsWalkEffect_refl (env : Env) (w : World) : wsWalkEffect env w w := by
  refine ⟨rfl, rfl, le_refl _, [], by simp, fun key => ⟨fun _ => rfl, fun x hx => ?_⟩⟩
  simp [lastKeyed] at hx

theorem wsWalkEffect_trans (env : Env) (a b c : World) (h1 : wsWalkEffect env a b)
    (h2 : wsWalkEffect env b c) : wsWalkEffect env a c := by
  obtain ⟨ho1, hm1, hc1, n1, hn1, hk1⟩ := h1
  obtain ⟨ho2, hm2, hc2, n2, hn2, hk2⟩ := h2
  refine ⟨ho2.trans ho1, hm2.trans hm1, le_trans hc1 hc2, n1 ++ n2,
    by rw [hn2, hn1, List.append_assoc], fun key => ?_⟩
  have hl : lastKeyed key (n1 ++ n2) = (lastKeyed key n2).or (lastKeyed key n1) := by
    simp [lastKeyed, List.filterMap_append, List.getLast?_append]
  rw [hl]
  cases h : lastKeyed key n2 with
  | none =>
    simp only [Option.or]
    refine ⟨fun hn => ((hk2 key).1 h).trans ((hk1 key).1 hn), fun x hx => ?_⟩
    obtain ⟨i, hi1, hi2, he⟩ := (hk1 key).2 x hx
    exact ⟨i, hi1, lt_of_lt_of_le hi2 hc2, ((hk2 key).1 h).trans he⟩
  | some y =>
    simp only [Option.or]
    refine ⟨fun hn => by simp at hn, fun x hx => ?_⟩
    obtain ⟨i, hi1, hi2, he⟩ := (hk2 key).2 x (by rw [h]; exact hx)
    exact ⟨i, le_trans hc1 hi1, hi2, he⟩

theorem wsWalkEffect_step (env : Env) (key : String) (value : GoValue) (w : World) :
    wsWalkEffect env w (gateWS env key value (.keyed key value) w) := by
  unfold gateWS
  split
  · refine ⟨rfl, rfl, by simp only [broadcast]; omega, [.keyed key value], rfl, fun k => ?_⟩
    by_cases hk : key = k
    · subst hk
      refine ⟨fun hn => by simp [lastKeyed, keyedValue] at hn, fun x hx => ?_⟩
      simp [lastKeyed, keyedValue] at hx
      subst hx
      exact ⟨w.clockReads + 1, by simp, by simp [broadcast], by simp [broadcast, updateLastSent]⟩
    · refine ⟨fun _ => ?_, fun x hx => by simp [lastKeyed, keyedValue, hk] at hx⟩
      have : ¬ k = key := fun h => hk h.symm
      simp [broadcast, updateLastSent, this]
  · refine ⟨rfl, rfl, by simp, [], by simp, fun k => ⟨fun _ => rfl, fun x hx => ?_⟩⟩
    simp [lastKeyed] at hx

theorem oscWalkEffect_refl (env : Env) (w : World) : oscWalkEffect env w w := by
  refine ⟨rfl, rfl, le_refl _, [], by simp, fun key => ⟨fun _ => rfl, fun x hx => ?_⟩⟩
  simp [lastSentTo] at hx

theorem oscWalkEffect_trans (env : Env) (a b c : World) (h1 : oscWalkEffect env a b)
    (h2 : oscWalkEffect env b c) : oscWalkEffect env a c := by
  obtain ⟨ho1, hm1, hc1, n1, hn1, hk1⟩ := h1
  obtain ⟨ho2, hm2, hc2, n2, hn2, hk2⟩ := h2
  refine ⟨ho2.trans ho1, hm2.trans hm1, le_trans hc1 hc2, n1 ++ n2,
    by rw [hn2, hn1, List.append_assoc], fun key => ?_⟩
  have hl : lastSentTo key (n1 ++ n2) = (lastSentTo key n2).or (lastSentTo key n1) := by
    simp [lastSentTo, List.filterMap_append, List.getLast?_append]
  rw [hl]
  cases h : lastSentTo key n2 with
  | none =>
    simp only [Option.or]
    refine ⟨fun hn => ((hk2 key).1 h).trans ((hk1 key).1 hn), fun x hx => ?_⟩
    obtain ⟨i, y, hi1, hi2, he, hy⟩ := (hk1 key).2 x hx
    exact ⟨i, y, hi1, lt_of_lt_of_le hi2 hc2, ((hk2 key).1 h).trans he, hy⟩
  | some z =>
    simp only [Option.or]
    refine ⟨fun hn => by simp at hn, fun x hx => ?_⟩
    obtain ⟨i, y, hi1, hi2, he, hy⟩ := (hk2 key).2 x (by rw [h]; exact hx)
    exact ⟨i, y, le_trans hc1 hi1, hi2, he, hy⟩

theorem oscWalkEffect_step (env : Env) (hen : env.Config.EnableOSC = true)
    (entry : OSCAddressEntry) (value : GoValue) (sendZero : Bool) (w : World) :
    oscWalkEffect env w (gateOSC env entry value sendZero w) := by
  unfold gateOSC
  split
  · refine ⟨by simp [sendOSC, hen], by simp [sendOSC, hen],
      by simp only [sendOSC, hen, Bool.not_true, Bool.false_eq_true, if_false]; omega,
      [⟨entry.Address, oscConvert value⟩], by simp [sendOSC, hen], fun k => ?_⟩
    by_cases hk : entry.Address = k
    · subst hk
      refine ⟨fun hn => by simp [lastSentTo, sentTo] at hn, fun x hx => ?_⟩
      simp [lastSentTo, sentTo] at hx
      exact ⟨w.clockReads + 1, value, by simp, by simp [sendOSC, hen],
        by simp [sendOSC, hen, updateLastSent], hx⟩
    · refine ⟨fun _ => ?_, fun x hx => by simp [lastSentTo, sentTo, hk] at hx⟩
      have : ¬ k = entry.Address := fun h => hk h.symm
      simp [sendOSC, hen, updateLastSent, this]
  · refine ⟨rfl, rfl, by simp, [], by simp, fun k => ⟨fun _ => rfl, fun x hx => ?_⟩⟩
    simp [lastSentTo] at hx

/-! ## Lemmas on gate runs -/

theorem tUpdate_mem_clockReadings (rs : List GateRequest) (r : GateRequest) (h : r ∈ rs) :
    r.tUpdate ∈ clockReadings rs := by
  induction rs with
  | nil => simp at h
  | cons a rs ih =>
    simp only [clockReadings, List.mem_cons]
    rcases List.mem_cons.mp h with rfl | h
    · right; left; rfl
    · right; right; exact ih h

theorem shouldSend_entry_spaced (cfg : AppConfig) (now : Int) (key : String) (value : GoValue)
    (c : Cache) (e : Entry) (he : c key = some e)
    (h : shouldSend cfg now key value c = true) : getBroadcastInterval cfg ≤ now - e.t := by
  unfold shouldSend at h
  rw [he] at h
  by_contra hlt
  have hlt2 : now - e.t < getBroadcastInterval cfg := not_le.mp hlt
  by_cases hz : isIgnoredZero value = true
  · simp [hz] at h
  · simp [hz, hlt2] at h

theorem gateRun_after_entry (cfg : AppConfig) (k : String) (T0 : Int) (rs : List GateRequest) :
    ∀ c : Cache, (∀ r ∈ rs, T0 ≤ r.tUpdate) → (∃ e, c k = some e ∧ T0 ≤ e.t) →
      ∀ a ∈ gateRun cfg rs c, a.key = k → getBroadcastInterval cfg ≤ a.t - T0 := by
  induction rs with
  | nil => intro c _ _ a ha; simp [gateRun] at ha
  | cons r rs ih =>
    intro c hT he a ha hk
    have hT2 : ∀ r2 ∈ rs, T0 ≤ r2.tUpdate := fun r2 h2 => hT r2 (List.mem_cons_of_mem _ h2)
    simp only [gateRun] at ha
    by_cases hs : shouldSend cfg r.tDecide r.key r.value c = true
    · rw [if_pos hs] at ha
      rcases List.mem_cons.mp ha with rfl | ha
      · obtain ⟨e, hce, hle⟩ := he
        simp only at hk
        subst hk
        have := shouldSend_entry_spaced cfg r.tDecide r.key r.value c e hce hs
        simp only
        omega
      · refine ih _ hT2 ?_ a ha hk
        by_cases hkey : k = r.key
        · exact ⟨⟨r.tUpdate, r.value⟩, by simp [updateLastSent, hkey],
            hT r (List.mem_cons_self _ _)⟩
        · obtain ⟨e, hce, hle⟩ := he
          exact ⟨e, by simp [updateLastSent, hkey, hce], hle⟩
    · rw [if_neg hs] at ha
      exact ih c hT2 he a ha hk

/-! ## Claims -/

set_option maxRecDepth 100000 in
/-- Claim C1, as stated, fails at two inputs.  A frame of exactly 45 bytes, the
expected length of the Event kind, makes `decodeEventPacket` fail (the record
type is 57 bytes wide); and a CarTelemetry frame of 1380 bytes, one byte less
than the expected length 1381, does not give the empty record (the guard of
`decodeCarTelemetryPacket` is `29 + 22 * 60 = 1349`). -/
theorem expected_length_counterexample :
    frameEvent45.length = 45 ∧
    (decodeEventPacket frameEvent45).2 = some DecodeError.ErrUnexpectedEOF ∧
    frameTelemetry1380.length = 1381 - 1 ∧
    decodeCarTelemetryPacket frameTelemetry1380 ≠ some CarTelemetryData.empty := by
  decide

/-- Claim C1, amended.  For each of the fourteen struct kinds other than Event,
with the expected length `L` of the table, the decoder does not fail on a frame
of exactly `L` bytes and fails on a frame of exactly `L - 1` bytes; the Event
decoder fails on every frame of 44 bytes; the CarTelemetry decoder, whose length
guard is `29 + 22 * 60 = 1349` bytes, returns the empty record on every frame of
1348 bytes and, on every frame of exactly 1349 bytes with a player car index
below 22, returns the record of that car's slot without reading outside the
frame. -/
theorem decoders_at_expected_length (data : List UInt8) :
    (∀ id d T L, (id, d, T, L) ∈ decoderTable → id ≠ 3 →
      (data.length = L → (d data).2 = none) ∧ (data.length + 1 = L → (d data).2 ≠ none)) ∧
    (data.length = 44 → (decodeEventPacket data).2 ≠ none) ∧
    (data.length + 1 = 29 + 22 * 60 →
      decodeCarTelemetryPacket data = some CarTelemetryData.empty) ∧
    (data.length = 29 + 22 * 60 → (data.getD 27 0).toNat < 22 →
      decodeCarTelemetryPacket data = some (telemetryReference data)) := by
  refine ⟨fun id d T L h hid => ?_, fun h44 => ?_, fun hlen => ?_, fun _ _ => ?_⟩
  · obtain ⟨S, hS, h1, -, hd⟩ := decoderTable_spec id d T L h
    obtain rfl := h1 hid
    constructor
    · intro hl
      rcases hd with hd | hd
      · rw [hd, binaryRead_enough T S hS data (by omega)]
      · rw [hd, if_neg (by omega), binaryRead_enough T S hS data (by omega)]
    · intro hl
      rcases hd with hd | hd
      · rw [hd, binaryRead_short T S hS data (by omega)]; simp
      · rw [hd, if_pos (by omega)]; simp
  · simp [decodeEventPacket, h44]
  · simp [decodeCarTelemetryPacket, show data.length < 29 + 22 * 60 by omega]
  · exact decodeCarTelemetryPacket_eq data

set_option maxRecDepth 100000 in
/-- Instance of the amended claim C1: a 753-byte Session frame decodes without
error and a 44-byte Event frame fails. -/
theorem decoders_at_expected_length_witness :
    (decodeSessionPacket frameSession753).2 = none ∧
    (decodeEventPacket frameEvent44).2 ≠ none :=
  ⟨((decoders_at_expected_length frameSession753).1 1 decodeSessionPacket PacketSessionData 753
      (by simp [decoderTable]) (by decide)).1 (by decide),
   (decoders_at_expected_length frameEvent44).2.1 (by decide)⟩

/-- Claim C2.  For each of the fourteen kinds Motion, Session, LapData,
Participants, CarSetups, CarStatus, FinalClassification, LobbyInfo, CarDamage,
SessionHistory, TyreSets, MotionEx, TimeTrial and LapPositions, with declared
length `L`: the wire size of the record type is `L`; on every frame shorter than
`L` the decoder returns a length error (`ErrUnexpectedEOF`, or `EOF` from the
unguarded Motion decoder on the empty frame); and on every frame of at least `L`
bytes it returns, without error, the record read from the first `L` bytes. -/
theorem struct_decoder_length_guard (id : UInt8)
    (d : List UInt8 → GoValue × Option DecodeError) (T : GoType) (L : Nat)
    (h : (id, d, T, L) ∈ decoderTable) (hid : id ≠ 3) (data : List UInt8) :
    T.sizeof = some L ∧
    (data.length < L →
      (d data).2 = some DecodeError.ErrUnexpectedEOF ∨ (d data).2 = some DecodeError.EOF) ∧
    (L ≤ data.length → d data = ((decodeValue T (data.take L)).1, none)) := by
  obtain ⟨S, hS, h1, -, hd⟩ := decoderTable_spec id d T L h
  obtain rfl := h1 hid
  refine ⟨hS, fun hlt => ?_, fun hle => ?_⟩
  · rcases hd with hd | hd
    · rw [hd, binaryRead_short T S hS data hlt]
      by_cases h0 : data.length = 0
      · right; simp [h0]
      · left; simp [h0]
    · left; rw [hd, if_pos hlt]
  · rcases hd with hd | hd
    · rw [hd, binaryRead_enough T S hS data hle]
    · rw [hd, if_neg (Nat.not_lt.mpr hle), binaryRead_enough T S hS data hle]

/-- Instance of claim C2 for the Session decoder and a 753-byte frame. -/
theorem struct_decoder_length_guard_witness :
    (1, decodeSessionPacket, PacketSessionData, 753) ∈ decoderTable ∧ (1 : UInt8) ≠ 3 ∧
    PacketSessionData.sizeof = some 753 ∧
    (frameSession753.length < 753 →
      (decodeSessionPacket frameSession753).2 = some DecodeError.ErrUnexpectedEOF ∨
      (decodeSessionPacket frameSession753).2 = some DecodeError.EOF) ∧
    (753 ≤ frameSession753.length → decodeSessionPacket frameSession753
      = ((decodeValue PacketSessionData (frameSession753.take 753)).1, none)) :=
  ⟨by simp [decoderTable], by decide,
    struct_decoder_length_guard 1 decodeSessionPacket PacketSessionData 753
      (by simp [decoderTable]) (by decide) frameSession753⟩

/-- Claim C3.  For each of the fifteen kinds other than CarTelemetry and every
frame on which the kind's decoder returns an error, the record returned is the
zero value of the record type, and `handleUDPPacket` on a frame of that kind
(byte 6 is the kind's id) returns the state it was given: nothing is sent to
either sink and both gate caches are unchanged.  Every 44-byte Event frame is
such a frame. -/
theorem decode_error_drops_frame (env : Env) (w : World) (data : List UInt8) :
    (∀ id d T L, (id, d, T, L) ∈ decoderTable → (d data).2 ≠ none →
      (d data).1 = zeroValue T ∧ (data[6]? = some id → handleUDPPacket env data w = some w)) ∧
    (data.length = 44 →
      (decodeEventPacket data).2 ≠ none ∧
      (decodeEventPacket data).1 = zeroValue PacketEventData ∧
      (data[6]? = some 3 → handleUDPPacket env data w = some w)) := by
  have key : ∀ id d T L, (id, d, T, L) ∈ decoderTable → (d data).2 ≠ none →
      (d data).1 = zeroValue T ∧ (data[6]? = some id → handleUDPPacket env data w = some w) :=
    fun id d T L h herr =>
      ⟨decoderTable_error_zero id d T L h data herr,
       fun h6 => handleUDPPacket_of_error env w id d T L h data herr h6⟩
  refine ⟨key, fun h44 => ?_⟩
  have herr : (decodeEventPacket data).2 ≠ none := by simp [decodeEventPacket, h44]
  exact ⟨herr, key 3 decodeEventPacket PacketEventData 45 (by simp [decoderTable]) herr⟩

set_option maxRecDepth 100000 in
/-- Instance of claim C3: the 44-byte Event frame is dropped. -/
theorem decode_error_drops_frame_witness :
    frameEvent44.length = 44 ∧ frameEvent44[6]? = some 3 ∧
    (decodeEventPacket frameEvent44).2 ≠ none ∧
    (decodeEventPacket frameEvent44).1 = zeroValue PacketEventData ∧
    handleUDPPacket sampleEnv frameEvent44 emptyWorld = some emptyWorld :=
  ⟨by decide, by decide,
    ((decode_error_drops_frame sampleEnv emptyWorld frameEvent44).2 (by decide)).1,
    ((decode_error_drops_frame sampleEnv emptyWorld frameEvent44).2 (by decide)).2.1,
    ((decode_error_drops_frame sampleEnv emptyWorld frameEvent44).2 (by decide)).2.2
      (by decide)⟩

/-- Claim C4.  `decodeCarTelemetryPacket` is total (it never panics: the result
is always `some`) and equals the reference: on a frame of at least
`29 + 22 * 60` bytes whose byte 27 is `i < 22` the record is read from the 60
bytes at offset `29 + 60 * i`, which lie inside the frame; on every other frame
the result is the all-zero record. -/
theorem decodeCarTelemetryPacket_total_reference (data : List UInt8) :
    decodeCarTelemetryPacket data = some (telemetryReference data) ∧
    ((29 + 22 * 60 ≤ data.length ∧ (data.getD 27 0).toNat < 22) →
      29 + 60 * (data.getD 27 0).toNat + 60 ≤ data.length) ∧
    (¬ (29 + 22 * 60 ≤ data.length ∧ (data.getD 27 0).toNat < 22) →
      decodeCarTelemetryPacket data = some CarTelemetryData.empty) := by
  refine ⟨decodeCarTelemetryPacket_eq data, fun h => by omega, fun h => ?_⟩
  rw [decodeCarTelemetryPacket_eq, telemetryReference, if_neg h]

set_option maxRecDepth 100000 in
/-- Instance of claim C4: in a 1381-byte frame with player car index 3 the speed,
throttle and gear are those written in the slot of car 3 (0x1234, the bits of
1.0, -1), not the bytes 9 of the slot of car 0. -/
theorem decodeCarTelemetryPacket_total_reference_witness :
    frameTelemetryCar3.length = 1381 ∧ frameTelemetryCar3[27]? = some 3 ∧
    decodeCarTelemetryPacket frameTelemetryCar3
      = some (telemetryReference frameTelemetryCar3) ∧
    (telemetryReference frameTelemetryCar3).Speed = 0x1234 ∧
    (telemetryReference frameTelemetryCar3).Throttle = 0x3F800000 ∧
    (telemetryReference frameTelemetryCar3).Gear = -1 :=
  ⟨by decide, by decide, (decodeCarTelemetryPacket_total_reference frameTelemetryCar3).1,
    by decide, by decide, by decide⟩

set_option maxRecDepth 100000 in
/-- Claim C5 fails on the code.  A 24-byte CarTelemetry frame (too short) and a
1349-byte CarTelemetry frame with player car index 22, handled from the start-up
state, each make `handleUDPPacket` broadcast the summary of the empty record to
the WebSocket sink and send the zero speed and the zero gear to the OSC sink. -/
theorem telemetry_error_still_emits :
    frameTelemetryShort.length = 24 ∧
    (∃ w, handleUDPPacket sampleEnv frameTelemetryShort emptyWorld = some w ∧
      w.wsOut = [WSMessage.text
        "CarTelemetry/Speed 0 | Throttle 0.00 | Steer 0.00 | Brake 0.00 | Clutch 0 | Gear 0 | RPM 0"] ∧
      w.oscOut = [⟨"/car/speed", GoValue.int IntKind.int32 0⟩,
        ⟨"/car/gear", GoValue.int IntKind.int32 0⟩]) ∧
    frameTelemetryBadIndex.length = 1349 ∧ frameTelemetryBadIndex[27]? = some 22 ∧
    (∃ w, handleUDPPacket sampleEnv frameTelemetryBadIndex emptyWorld = some w ∧
      w.wsOut = [WSMessage.text
        "CarTelemetry/Speed 0 | Throttle 0.00 | Steer 0.00 | Brake 0.00 | Clutch 0 | Gear 0 | RPM 0"] ∧
      w.oscOut = [⟨"/car/speed", GoValue.int IntKind.int32 0⟩,
        ⟨"/car/gear", GoValue.int IntKind.int32 0⟩]) :=
  ⟨by decide, ⟨_, rfl, rfl, rfl⟩, by decide, by decide, ⟨_, rfl, rfl, rfl⟩⟩

/-- Claim C6.  `handleUDPPacket` returns the state it was given (no message to
either sink, both caches unchanged) whenever the frame has fewer than 24 bytes,
or the entry of its byte 6 in the enable table is false or absent, or its byte 6
is 16 or more, whatever the enable table holds for it. -/
theorem handleUDPPacket_drops (env : Env) (w : World) (data : List UInt8)
    (h : data.length < 24 ∨ ∃ id, data[6]? = some id ∧
      ((env.PacketForwardingConfig id).getD false = false ∨ 16 ≤ id.toNat)) :
    handleUDPPacket env data w = some w := by
  unfold handleUDPPacket
  rcases h with h | ⟨id, h6, h | h⟩
  · rw [if_pos h]
  · rw [h6]; simp [h]
  · rw [h6]
    by_cases h24 : data.length < 24
    · simp [h24]
    by_cases hen : (!(env.PacketForwardingConfig id).getD false) = true
    · simp [h24, hen]
    simp only [h24, hen, if_false]
    obtain ⟨k, hk⟩ : ∃ k, id.toNat = k + 16 := ⟨id.toNat - 16, by omega⟩
    rw [hk]
    rfl

/-- Instance of claim C6: a 10-byte frame is dropped. -/
theorem handleUDPPacket_drops_witness :
    frameTooShort.length < 24 ∧
    handleUDPPacket sampleEnv frameTooShort emptyWorld = some emptyWorld :=
  ⟨by decide, handleUDPPacket_drops sampleEnv emptyWorld frameTooShort (Or.inl (by decide))⟩

/-- Claim C7.  Interval rule of the gate: if the key has an entry with last-sent
time `t` and `now - t` is less than the broadcast interval, `shouldSend` returns
false, whatever the value offered and the value stored. -/
theorem shouldSend_interval_rule (cfg : AppConfig) (now : Int) (key : String)
    (value : GoValue) (lastSent : Cache) (entry : Entry)
    (he : lastSent key = some entry) (ht : now - entry.t < getBroadcastInterval cfg) :
    shouldSend cfg now key value lastSent = false := by
  unfold shouldSend
  rw [he]
  by_cases hz : isIgnoredZero value = true
  · simp [hz]
  · simp [hz, ht]

/-- Instance of claim C7: at 2 Hz, 100 ms after key "k" was sent with value 1,
the new value 5 is rejected. -/
theorem shouldSend_interval_rule_witness :
    sampleCache "k" = some ⟨0, GoValue.int IntKind.uint8 1⟩ ∧
    (100000000 : Int) - 0 < getBroadcastInterval ⟨true, 2⟩ ∧
    shouldSend ⟨true, 2⟩ 100000000 "k" (GoValue.int IntKind.uint8 5) sampleCache = false :=
  ⟨rfl, by decide,
    shouldSend_interval_rule ⟨true, 2⟩ 100000000 "k" (GoValue.int IntKind.uint8 5) sampleCache
      ⟨0, GoValue.int IntKind.uint8 1⟩ rfl (by decide)⟩

/-- Claim C8.  Admission rule of the gate outside the interval window, for a
value the zero rule does not suppress: `shouldSend` returns true when the key has
no entry; and when the key has an entry whose age `now - t` is at least the
interval, it returns true exactly when `valuesEqual` of the stored and the new
value is false. -/
theorem shouldSend_admission_rule (cfg : AppConfig) (now : Int) (key : String)
    (value : GoValue) (lastSent : Cache) (hz : isIgnoredZero value = false) :
    (lastSent key = none → shouldSend cfg now key value lastSent = true) ∧
    (∀ entry, lastSent key = some entry → getBroadcastInterval cfg ≤ now - entry.t →
      (shouldSend cfg now key value lastSent = true ↔ valuesEqual entry.v value = false)) := by
  constructor
  · intro hn
    simp [shouldSend, hz, hn]
  · intro entry he ht
    have : ¬ (now - entry.t < getBroadcastInterval cfg) := not_lt.mpr ht
    simp [shouldSend, hz, he, this]

/-- Instance of claim C8: at 2 Hz, 600 ms after key "k" was sent with value 1,
the value 5 is admitted, and so is any value for the fresh key "j". -/
theorem shouldSend_admission_rule_witness :
    isIgnoredZero (GoValue.int IntKind.uint8 5) = false ∧
    shouldSend ⟨true, 2⟩ 600000000 "j" (GoValue.int IntKind.uint8 5) sampleCache = true ∧
    shouldSend ⟨true, 2⟩ 600000000 "k" (GoValue.int IntKind.uint8 5) sampleCache = true :=
  ⟨rfl,
    (shouldSend_admission_rule ⟨true, 2⟩ 600000000 "j" (GoValue.int IntKind.uint8 5)
      sampleCache rfl).1 rfl,
    ((shouldSend_admission_rule ⟨true, 2⟩ 600000000 "k" (GoValue.int IntKind.uint8 5)
      sampleCache rfl).2 ⟨0, GoValue.int IntKind.uint8 1⟩ rfl (by decide)).2 rfl⟩

/-- Claim C9.  Gate state changes only on admission.  `shouldSend` returns a
boolean only.  In a walk of a record for the WebSocket sink the messages sent
are appended to the sink, the OSC cache is untouched, and for every key: if no
message for the key was sent in the walk its cache entry is unchanged, otherwise
the entry is (a clock reading taken during the walk, the value of the last
message sent for the key).  The same holds for a walk for the OSC sink, with the
WebSocket cache untouched and the value sent being the OSC conversion of the
value stored.  A rejection by `shouldSend` leaves the cache and the sink as they
were. -/
theorem gate_state_changes_only_on_admission (env : Env) (v : GoValue) (packetName : String)
    (w : World) :
    (∃ new, (broadcastStructFieldsToWS env v packetName w).wsOut = w.wsOut ++ new ∧
      (broadcastStructFieldsToWS env v packetName w).lastSentOSC = w.lastSentOSC ∧
      ∀ key,
        (lastKeyed key new = none →
          (broadcastStructFieldsToWS env v packetName w).lastSentWS key = w.lastSentWS key) ∧
        (∀ x, lastKeyed key new = some x →
          ∃ i, w.clockReads ≤ i ∧ i < (broadcastStructFieldsToWS env v packetName w).clockReads ∧
            (broadcastStructFieldsToWS env v packetName w).lastSentWS key
              = some ⟨env.clock i, x⟩)) ∧
    (∃ new, (sendStructFieldsToOSC env v w).oscOut = w.oscOut ++ new ∧
      (sendStructFieldsToOSC env v w).lastSentWS = w.lastSentWS ∧
      ∀ key,
        (lastSentTo key new = none →
          (sendStructFieldsToOSC env v w).lastSentOSC key = w.lastSentOSC key) ∧
        (∀ x, lastSentTo key new = some x →
          ∃ i y, w.clockReads ≤ i ∧ i < (sendStructFieldsToOSC env v w).clockReads ∧
            (sendStructFieldsToOSC env v w).lastSentOSC key = some ⟨env.clock i, y⟩ ∧
            oscConvert y = x)) ∧
    (∀ key value m,
      shouldSend env.Config (env.clock w.clockReads) key value w.lastSentWS = false →
        (gateWS env key value m w).lastSentWS = w.lastSentWS ∧
        (gateWS env key value m w).wsOut = w.wsOut) ∧
    (∀ entry value,
      shouldSend env.Config (env.clock w.clockReads) entry.Address value w.lastSentOSC = false →
        (gateOSC env entry value false w).lastSentOSC = w.lastSentOSC ∧
        (gateOSC env entry value false w).oscOut = w.oscOut) := by
  refine ⟨?_, ?_, ?_, ?_⟩
  · obtain ⟨ho, -, -, new, hn, hk⟩ := broadcastStructFieldsToWS_closure env (wsWalkEffect env)
      (wsWalkEffect_refl env) (wsWalkEffect_trans env) (wsWalkEffect_step env) v packetName w
    exact ⟨new, hn, ho, hk⟩
  · obtain ⟨ho, -, -, new, hn, hk⟩ := sendStructFieldsToOSC_closure env (oscWalkEffect env)
      (oscWalkEffect_refl env) (oscWalkEffect_trans env)
      (fun hen => oscWalkEffect_step env hen) v w
    exact ⟨new, hn, ho, hk⟩
  · intro key value m h
    simp [gateWS, h]
  · intro entry value h
    simp [gateOSC, h]

/-- Claim C10.  In every run of the gate protocol on one cache with
non-decreasing clock readings and a fixed configuration, any two admissions of
the same key are at least one broadcast interval apart (so no two identical
values of one key are admitted within one interval). -/
theorem gate_admissions_one_interval_apart (cfg : AppConfig) (reqs : List GateRequest)
    (c : Cache) (hclock : (clockReadings reqs).Pairwise (fun s t => s ≤ t)) :
    (gateRun cfg reqs c).Pairwise
      (fun a b => a.key = b.key → getBroadcastInterval cfg ≤ b.t - a.t) := by
  induction reqs generalizing c with
  | nil => simp [gateRun]
  | cons r rs ih =>
    simp only [clockReadings, List.pairwise_cons, List.mem_cons] at hclock
    obtain ⟨h1, h2, h3⟩ := hclock
    simp only [gateRun]
    by_cases hs : shouldSend cfg r.tDecide r.key r.value c = true
    · rw [if_pos hs, List.pairwise_cons]
      refine ⟨fun b hb hk => ?_, ih _ h3⟩
      have hT : ∀ r2 ∈ rs, r.tDecide ≤ r2.tUpdate := fun r2 hr2 =>
        h1 _ (Or.inr (tUpdate_mem_clockReadings rs r2 hr2))
      exact gateRun_after_entry cfg r.key r.tDecide rs _ hT
        ⟨⟨r.tUpdate, r.value⟩, by simp [updateLastSent], h1 _ (Or.inl rfl)⟩ b hb hk.symm
    · rw [if_neg hs]
      exact ih c h3

/-- Instance of claim C10: three requests for key "k" at 0, 100 and 600 ms at
2 Hz; the first and the third are admitted, 600 ms apart. -/
theorem gate_admissions_one_interval_apart_witness :
    (clockReadings sampleRequests).Pairwise (fun s t => s ≤ t) ∧
    (gateRun ⟨true, 2⟩ sampleRequests (fun _ => none)).map (fun a => a.t) = [0, 600000000] ∧
    (gateRun ⟨true, 2⟩ sampleRequests (fun _ => none)).Pairwise
      (fun a b => a.key = b.key → getBroadcastInterval ⟨true, 2⟩ ≤ b.t - a.t) :=
  ⟨by decide, rfl,
    gate_admissions_one_interval_apart ⟨true, 2⟩ sampleRequests (fun _ => none) (by decide)⟩

theorem intercalate_go_snoc (s : String) (as : List String) (f : String) :
    ∀ acc, String.intercalate.go acc s (as ++ [f]) = String.intercalate.go acc s as ++ s ++ f := by
  induction as with
  | nil => intro acc; simp [String.intercalate.go]
  | cons a as ih => intro acc; simp [String.intercalate.go, ih]

theorem intercalate_snoc (s : String) (a : String) (as : List String) (f : String) :
    s.intercalate ((a :: as) ++ [f]) = s.intercalate (a :: as) ++ s ++ f := by
  simp only [String.intercalate, List.cons_append]
  exact intercalate_go_snoc s as f a

theorem wsArray_eq_foldl (env : Env) (packetName name : String) (elems : List GoValue) :
    ∀ j w, wsArray env packetName name elems j w
      = ((elems.enumFrom j).map
          (fun je => (packetName ++ "/" ++ name ++ "[" ++ toString je.1 ++ "]", je.2))).foldl
          (wsStep env) w := by
  induction elems with
  | nil => intro j w; rfl
  | cons e rest ih =>
    intro j w
    simp only [wsArray, List.enumFrom_cons, List.map_cons, List.foldl_cons, wsStep]
    exact ih _ _

theorem wsFields_eq_foldl (env : Env) (fs : List (String × GoValue)) :
    ∀ (a : String) (as : List String) (w : World),
      broadcastStructFieldsToWS.wsFields env fs ("/".intercalate (a :: as)) w
        = (wsLeaves fs (a :: as)).foldl (wsStep env) w := by
  induction fs using broadcastStructFieldsToWS.wsFields.induct env with
  | case1 => intro a as w; rw [broadcastStructFieldsToWS.wsFields.eq_1]; simp [wsLeaves]
  | case2 name n fs rest ihr ihf =>
    intro a as w
    rw [broadcastStructFieldsToWS.wsFields.eq_2]
    simp only [wsLeaves, wsFieldLeaves, List.foldl_append]
    rw [← intercalate_snoc, List.cons_append, ihf, ihr]
  | case3 name elems rest ihr =>
    intro a as w
    rw [broadcastStructFieldsToWS.wsFields.eq_3]
    simp only [wsLeaves, wsFieldLeaves, List.foldl_append]
    rw [wsArray_eq_foldl, ihr, intercalate_snoc, List.enum]
  | case4 name field rest h1 h2 ihr =>
    intro a as w
    rw [broadcastStructFieldsToWS.wsFields.eq_4 env name field rest h1 h2]
    have hl : wsLeaves ((name, field) :: rest) (a :: as)
        = ("/".intercalate ((a :: as) ++ [name]), field) :: wsLeaves rest (a :: as) := by
      cases field with
      | struct n fs => exact absurd rfl (h1 n fs)
      | array elems => exact absurd rfl (h2 elems)
      | _ => simp [wsLeaves, wsFieldLeaves]
    rw [hl, List.foldl_cons, intercalate_snoc]
    simp only [wsStep]
    exact ihr _ _ _

theorem wsStep_spec (env : Env) (w : World) (kv : String × GoValue) :
    (wsStep env w kv).lastSentOSC = w.lastSentOSC ∧ (wsStep env w kv).oscOut = w.oscOut ∧
    w.clockReads < (wsStep env w kv).clockReads ∧
    ((shouldSend env.Config (env.clock w.clockReads) kv.1 kv.2 w.lastSentWS = true ∧
        (wsStep env w kv).wsOut = w.wsOut ++ [keyedOf kv] ∧
        (wsStep env w kv).lastSentWS
          = updateLastSent (env.clock (w.clockReads + 1)) kv.1 kv.2 w.lastSentWS) ∨
     (shouldSend env.Config (env.clock w.clockReads) kv.1 kv.2 w.lastSentWS = false ∧
        (wsStep env w kv).wsOut = w.wsOut ∧ (wsStep env w kv).lastSentWS = w.lastSentWS)) := by
  unfold wsStep gateWS
  by_cases h : shouldSend env.Config (env.clock w.clockReads) kv.1 kv.2 w.lastSentWS = true
  · rw [if_pos h]
    refine ⟨rfl, rfl, ?_, Or.inl ⟨h, rfl, rfl⟩⟩
    simp only [broadcast]; omega
  · rw [if_neg h]
    refine ⟨rfl, rfl, ?_, Or.inr ⟨by simpa using h, rfl, rfl⟩⟩
    simp only; omega

theorem foldl_wsStep_out (env : Env) (L : List (String × GoValue)) :
    ∀ w, ∃ new, (L.foldl (wsStep env) w).wsOut = w.wsOut ++ new ∧
      new.Sublist (L.map keyedOf) ∧
      (L.foldl (wsStep env) w).lastSentOSC = w.lastSentOSC ∧
      (L.foldl (wsStep env) w).oscOut = w.oscOut ∧
      w.clockReads ≤ (L.foldl (wsStep env) w).clockReads := by
  induction L with
  | nil => intro w; exact ⟨[], by simp, by simp, rfl, rfl, le_refl _⟩
  | cons kv L ih =>
    intro w
    obtain ⟨new, h1, h2, h4, h5, h6⟩ := ih (wsStep env w kv)
    obtain ⟨s1, s2, s3, s4 | s4⟩ := wsStep_spec env w kv
    · refine ⟨keyedOf kv :: new, ?_, ?_, ?_, ?_, ?_⟩
      · simp only [List.foldl_cons, h1, s4.2.1, List.append_assoc, List.singleton_append]
      · simp only [List.map_cons]; exact h2.cons₂ _
      · simp only [List.foldl_cons, h4, s1]
      · simp only [List.foldl_cons, h5, s2]
      · simp only [List.foldl_cons]; omega
    · refine ⟨new, ?_, ?_, ?_, ?_, ?_⟩
      · simp only [List.foldl_cons, h1, s4.2.1]
      · simp only [List.map_cons]; exact h2.cons _
      · simp only [List.foldl_cons, h4, s1]
      · simp only [List.foldl_cons, h5, s2]
      · simp only [List.foldl_cons]; omega

theorem shouldSend_of_ignoredZero (cfg : AppConfig) (now : Int) (key : String)
    (value : GoValue) (c : Cache) (h : isIgnoredZero value = true) :
    shouldSend cfg now key value c = false := by
  simp [shouldSend, h]

theorem foldl_wsStep_nonzero (env : Env) (L : List (String × GoValue)) :
    ∀ w, ∃ new, (L.foldl (wsStep env) w).wsOut = w.wsOut ++ new ∧
      ∀ m ∈ new, ∃ kv ∈ L, m = keyedOf kv ∧ isIgnoredZero kv.2 = false := by
  induction L with
  | nil => intro w; exact ⟨[], by simp, by simp⟩
  | cons kv L ih =>
    intro w
    obtain ⟨new, h1, h2⟩ := ih (wsStep env w kv)
    have hrest : ∀ m ∈ new, ∃ kv2 ∈ kv :: L, m = keyedOf kv2 ∧ isIgnoredZero kv2.2 = false :=
      fun m hm => by
        obtain ⟨kv2, hk, he⟩ := h2 m hm
        exact ⟨kv2, List.mem_cons_of_mem _ hk, he⟩
    obtain ⟨-, -, -, s4 | s4⟩ := wsStep_spec env w kv
    · refine ⟨keyedOf kv :: new, ?_, ?_⟩
      · simp only [List.foldl_cons, h1, s4.2.1, List.append_assoc, List.singleton_append]
      · intro m hm
        rcases List.mem_cons.mp hm with rfl | hm
        · refine ⟨kv, List.mem_cons_self _ _, rfl, ?_⟩
          by_contra hz
          have hz2 : isIgnoredZero kv.2 = true := by simpa using hz
          have := shouldSend_of_ignoredZero env.Config (env.clock w.clockReads) kv.1 kv.2
            w.lastSentWS hz2
          rw [this] at s4
          exact absurd s4.1 (by simp)
        · exact hrest m hm
    · exact ⟨new, by simp only [List.foldl_cons, h1, s4.2.1], hrest⟩

/-- Claim C17.  The function `getBroadcastInterval` returns 500 ms, that is
500000000 ns, whenever the configured rate is zero or negative.  For a rate
`r > 0` it returns the integer quotient of 10^9 by `r`, the value `q` with
`q * r ≤ 10^9 < (q + 1) * r`.  At 2 Hz this is exactly 500 ms, and the interval
never increases when a positive rate increases. -/
theorem getBroadcastInterval_spec (cfg : AppConfig) :
    (cfg.BroadcastRateHz ≤ 0 → getBroadcastInterval cfg = 500000000) ∧
    (0 < cfg.BroadcastRateHz →
      getBroadcastInterval cfg * cfg.BroadcastRateHz ≤ 1000000000 ∧
      1000000000 < (getBroadcastInterval cfg + 1) * cfg.BroadcastRateHz) ∧
    (cfg.BroadcastRateHz = 2 → getBroadcastInterval cfg = 500000000) ∧
    (∀ cfg2 : AppConfig, 0 < cfg.BroadcastRateHz → cfg.BroadcastRateHz ≤ cfg2.BroadcastRateHz →
      getBroadcastInterval cfg2 ≤ getBroadcastInterval cfg) := by
  refine ⟨fun h => ?_, fun h => ?_, fun h => ?_, fun cfg2 h h2 => ?_⟩
  · simp [getBroadcastInterval, h]
  · have hn : ¬ cfg.BroadcastRateHz ≤ 0 := not_le.mpr h
    simp only [getBroadcastInterval, hn, if_false]
    constructor
    · exact Int.ediv_mul_le _ (ne_of_gt h)
    · exact Int.lt_ediv_add_one_mul_self _ h
  · simp [getBroadcastInterval, h]
  · have hn : ¬ cfg.BroadcastRateHz ≤ 0 := not_le.mpr h
    have hn2 : ¬ cfg2.BroadcastRateHz ≤ 0 := not_le.mpr (lt_of_lt_of_le h h2)
    simp only [getBroadcastInterval, hn, hn2, if_false]
    have hc : (0 : Int) < cfg2.BroadcastRateHz := lt_of_lt_of_le h h2
    have hq : (0 : Int) ≤ 1000000000 / cfg2.BroadcastRateHz :=
      Int.ediv_nonneg (by norm_num) (le_of_lt hc)
    rw [Int.le_ediv_iff_mul_le h]
    calc 1000000000 / cfg2.BroadcastRateHz * cfg.BroadcastRateHz
        ≤ 1000000000 / cfg2.BroadcastRateHz * cfg2.BroadcastRateHz :=
          mul_le_mul_of_nonneg_left h2 hq
      _ ≤ 1000000000 := Int.ediv_mul_le _ (ne_of_gt hc)

theorem decodeValue_struct (name : String) (fs : List (String × GoType)) (buf : List UInt8) :
    (decodeValue (.struct name fs) buf).1 = .struct name (decodeValue.decodeFields fs buf).1 := by
  simp [decodeValue]

theorem decodeN_length (f : List UInt8 → GoValue × List UInt8) (n : Nat) :
    ∀ buf, (decodeN f n buf).1.length = n := by
  induction n with
  | zero => intro buf; rfl
  | succ n ih => intro buf; simp [decodeN, ih]

theorem enum_map_keys (elems : List GoValue) (h : Nat → String) :
    (elems.enum.map (fun je => (h je.1, je.2))).map Prod.fst = (List.range elems.length).map h := by
  rw [List.map_map]
  apply List.ext_getElem
  · simp
  · intro n h1 h2
    simp

theorem decodeValue_PacketHeader (buf : List UInt8) :
    decodeValue PacketHeader buf = (headerOf buf, buf.drop 29) := by
  simp [decodeValue, decodeValue.decodeFields, PacketHeader, decodeInt, headerOf,
    IntKind.wireSize, IntKind.signed]

theorem decodeValue_array (n : Nat) (e : GoType) (buf : List UInt8) :
    (decodeValue (.array n e) buf).1 = .array (decodeN (decodeValue e) n buf).1 := by
  simp [decodeValue]

theorem carStatus_leaf_keys (buf : List UInt8) :
    (wsLeaves (decodeValue.decodeFields
      [("Header", PacketHeader), ("CarStatusData", GoType.array 22 CarStatusData)] buf).1
      ["CarStatus"]).map Prod.fst = carStatusKeys := by
  simp only [decodeValue.decodeFields, decodeValue_PacketHeader, decodeValue_array, headerOf,
    wsLeaves, wsFieldLeaves, List.map_append, List.map_cons, List.map_nil, List.append_nil, List.nil_append,
    List.cons_append]
  rw [enum_map_keys _
    (fun j => "/".intercalate ["CarStatus", "CarStatusData"] ++ "[" ++ toString j ++ "]"),
    decodeN_length]
  decide

theorem carStatusKeys_nodup : carStatusKeys.Nodup := by decide

theorem shouldSend_within_interval (cfg : AppConfig) (now : Int) (key : String)
    (value : GoValue) (c : Cache) (e : Entry) (he : c key = some e)
    (ht : now - e.t < getBroadcastInterval cfg) : shouldSend cfg now key value c = false := by
  unfold shouldSend
  rw [he]
  by_cases hz : isIgnoredZero value = true
  · simp [hz]
  · simp [hz, ht]

theorem shouldSend_no_entry (cfg : AppConfig) (now : Int) (key : String) (value : GoValue)
    (c : Cache) (hn : c key = none) :
    shouldSend cfg now key value c = !isIgnoredZero value := by
  by_cases hz : isIgnoredZero value = true
  · simp [shouldSend, hz]
  · simp [shouldSend, hz, hn]

theorem foldl_wsStep_entries (env : Env) (n0 : Nat) (L : List (String × GoValue)) :
    ∀ w : World,
      (∀ k e, w.lastSentWS k = some e →
        ∃ i, n0 ≤ i ∧ i < w.clockReads ∧ e.t = env.clock i) →
      n0 ≤ w.clockReads →
      (∀ k e, (L.foldl (wsStep env) w).lastSentWS k = some e →
        ∃ i, n0 ≤ i ∧ i < (L.foldl (wsStep env) w).clockReads ∧ e.t = env.clock i) ∧
      (∀ kv ∈ L, isIgnoredZero kv.2 = true ∨
        ∃ e, (L.foldl (wsStep env) w).lastSentWS kv.1 = some e) ∧
      (∀ k, (∃ e, w.lastSentWS k = some e) →
        ∃ e, (L.foldl (wsStep env) w).lastSentWS k = some e) := by
  induction L with
  | nil =>
    intro w hinv _
    exact ⟨hinv, by simp, fun k h => h⟩
  | cons kv L ih =>
    intro w hinv hn
    obtain ⟨-, -, s3, s4⟩ := wsStep_spec env w kv
    have hinv2 : ∀ k e, (wsStep env w kv).lastSentWS k = some e →
        ∃ i, n0 ≤ i ∧ i < (wsStep env w kv).clockReads ∧ e.t = env.clock i := by
      intro k e hk
      rcases s4 with s4 | s4
      · rw [s4.2.2] at hk
        unfold updateLastSent at hk
        by_cases hkk : k = kv.1
        · rw [if_pos hkk] at hk
          have : e = ⟨env.clock (w.clockReads + 1), kv.2⟩ := (Option.some.inj hk).symm
          subst this
          have hc : (wsStep env w kv).clockReads = w.clockReads + 1 + 1 := by
            simp [wsStep, gateWS, s4.1, broadcast]
          exact ⟨w.clockReads + 1, by omega, by omega, rfl⟩
        · rw [if_neg hkk] at hk
          obtain ⟨i, h1, h2, h3⟩ := hinv k e hk
          exact ⟨i, h1, by omega, h3⟩
      · rw [s4.2.2] at hk
        obtain ⟨i, h1, h2, h3⟩ := hinv k e hk
        exact ⟨i, h1, by omega, h3⟩
    have hkeep : ∀ k, (∃ e, w.lastSentWS k = some e) →
        ∃ e, (wsStep env w kv).lastSentWS k = some e := by
      intro k ⟨e, he⟩
      rcases s4 with s4 | s4
      · rw [s4.2.2]
        unfold updateLastSent
        by_cases hkk : k = kv.1
        · exact ⟨_, if_pos hkk⟩
        · exact ⟨e, by rw [if_neg hkk]; exact he⟩
      · exact ⟨e, by rw [s4.2.2]; exact he⟩
    have hhas : isIgnoredZero kv.2 = true ∨ ∃ e, (wsStep env w kv).lastSentWS kv.1 = some e := by
      rcases s4 with s4 | s4
      · right
        rw [s4.2.2]
        exact ⟨⟨env.clock (w.clockReads + 1), kv.2⟩, by simp [updateLastSent]⟩
      · by_cases hz : isIgnoredZero kv.2 = true
        · exact Or.inl hz
        · right
          cases hc : w.lastSentWS kv.1 with
          | none =>
            have := shouldSend_no_entry env.Config (env.clock w.clockReads) kv.1 kv.2
              w.lastSentWS hc
            rw [s4.1] at this
            simp at this
            exact absurd this hz
          | some e => exact ⟨e, by rw [s4.2.2]; exact hc⟩
    obtain ⟨i1, i2, i3⟩ := ih (wsStep env w kv) hinv2 (by omega)
    refine ⟨i1, ?_, fun k hk => i3 k (hkeep k hk)⟩
    intro kv2 hmem
    rcases List.mem_cons.mp hmem with rfl | hmem
    · rcases hhas with hz | hs
      · exact Or.inl hz
      · exact Or.inr (i3 _ hs)
    · exact i2 kv2 hmem

theorem foldl_wsStep_silent (env : Env) (n1 : Nat)
    (hrate : getBroadcastInterval env.Config = 500000000) (L : List (String × GoValue)) :
    ∀ w : World, n1 ≤ w.clockReads →
      (∀ kv ∈ L, isIgnoredZero kv.2 = true ∨
        ∃ e, w.lastSentWS kv.1 = some e ∧ ∀ j, n1 ≤ j → env.clock j - e.t < 500000000) →
      (L.foldl (wsStep env) w).wsOut = w.wsOut ∧
      (L.foldl (wsStep env) w).lastSentWS = w.lastSentWS := by
  induction L with
  | nil => intro w _ _; exact ⟨rfl, rfl⟩
  | cons kv L ih =>
    intro w hn hL
    have hfalse : shouldSend env.Config (env.clock w.clockReads) kv.1 kv.2 w.lastSentWS
        = false := by
      rcases hL kv (List.mem_cons_self _ _) with hz | ⟨e, he, ht⟩
      · exact shouldSend_of_ignoredZero _ _ _ _ _ hz
      · exact shouldSend_within_interval _ _ _ _ _ e he (by rw [hrate]; exact ht _ hn)
    obtain ⟨-, -, s3, s4⟩ := wsStep_spec env w kv
    rcases s4 with s4 | s4
    · rw [hfalse] at s4
      exact absurd s4.1 (by simp)
    · obtain ⟨h1, h2⟩ := ih (wsStep env w kv) (by omega) (by
        intro kv2 hmem
        rw [s4.2.2]
        exact hL kv2 (List.mem_cons_of_mem _ hmem))
      simp only [List.foldl_cons]
      exact ⟨h1.trans s4.2.1, h2.trans s4.2.2⟩

theorem intercalate_singleton (s a : String) : s.intercalate [a] = a := by
  simp [String.intercalate, String.intercalate.go]

theorem keyed_filter_le_one (L : List (String × GoValue)) (hnd : (L.map Prod.fst).Nodup)
    (new : List WSMessage) (hsub : new.Sublist (L.map keyedOf)) (key : String) :
    (new.filter (fun m => m.key? = some key)).length ≤ 1 := by
  have h1 : (new.filter (fun m => m.key? = some key)).length
      ≤ ((L.map keyedOf).filter (fun m => m.key? = some key)).length :=
    (hsub.filter _).length_le
  have h2 : ((L.map keyedOf).filter (fun m => m.key? = some key)).length
      = (L.map Prod.fst).count key := by
    rw [← List.countP_eq_length_filter, List.countP_map, List.count, List.countP_map]
    congr 1
    funext kv
    by_cases hk : kv.1 = key <;> simp [keyedOf, WSMessage.key?, hk]
  have h3 := List.nodup_iff_count_le_one.mp hnd key
  omega

theorem carStatus_walk (env : Env) (data : List UInt8) (hlen : data.length = 1239) (w : World) :
    decodeAndBroadcast env data decodeCarStatusPacket "CarStatus" w
      = sendStructFieldsToOSC env (decodeCarStatusPacket data).1
          ((wsLeaves (decodeValue.decodeFields
            [("Header", PacketHeader), ("CarStatusData", GoType.array 22 CarStatusData)]
            (data.take 1239)).1 ["CarStatus"]).foldl (wsStep env) w) := by
  have hd : decodeCarStatusPacket data
      = ((decodeValue PacketCarStatusData (data.take 1239)).1, none) := by
    unfold decodeCarStatusPacket
    rw [if_neg (by omega), binaryRead_enough _ _ sizeof_PacketCarStatusData data (by omega)]
  have hs : (decodeValue PacketCarStatusData (data.take 1239)).1
      = .struct "PacketCarStatusData" (decodeValue.decodeFields
          [("Header", PacketHeader), ("CarStatusData", GoType.array 22 CarStatusData)]
          (data.take 1239)).1 :=
    decodeValue_struct _ _ _
  unfold decodeAndBroadcast
  rw [hd]
  simp only [hs, broadcastStructFieldsToWS]
  have := wsFields_eq_foldl env (decodeValue.decodeFields
          [("Header", PacketHeader), ("CarStatusData", GoType.array 22 CarStatusData)]
          (data.take 1239)).1 "CarStatus" [] w
  rw [intercalate_singleton] at this
  rw [this]

theorem handleUDPPacket_carStatus (env : Env) (data : List UInt8) (hlen : data.length = 1239)
    (hid : data[6]? = some 7) (w : World) :
    handleUDPPacket env data w = some w ∨
    handleUDPPacket env data w
      = some (decodeAndBroadcast env data decodeCarStatusPacket "CarStatus" w) := by
  unfold handleUDPPacket
  rw [if_neg (by omega), hid]
  by_cases hen : (!(env.PacketForwardingConfig 7).getD false) = true
  · left; simp [hen]
  · right; simp [hen]

/-- Claim C13.  With the broadcast rate 2 Hz and an empty WebSocket cache,
handling a 1239-byte CarStatus frame returns a state, and the WebSocket messages
it emits contain at most one message per key.  If moreover every clock reading
taken from the second handling on is less than 500 ms after every clock reading
of the first handling, then handling the same frame a second time returns a
state and emits no WebSocket message. -/
theorem carStatus_frame_twice (env : Env) (data : List UInt8) (w0 : World)
    (hrate : env.Config.BroadcastRateHz = 2) (hlen : data.length = 1239)
    (hid : data[6]? = some 7) (hempty : ∀ k, w0.lastSentWS k = none) :
    ∃ w1 new, handleUDPPacket env data w0 = some w1 ∧ w1.wsOut = w0.wsOut ++ new ∧
      (∀ key, (new.filter (fun m => m.key? = some key)).length ≤ 1) ∧
      ((∀ i j, w0.clockReads ≤ i → i < w1.clockReads → w1.clockReads ≤ j →
          env.clock j - env.clock i < 500000000) →
        ∃ w2, handleUDPPacket env data w1 = some w2 ∧ w2.wsOut = w1.wsOut) := by
  have hint : getBroadcastInterval env.Config = 500000000 := by
    simp [getBroadcastInterval, hrate]
  rcases handleUDPPacket_carStatus env data hlen hid w0 with h1 | h1
  · refine ⟨w0, [], h1, by simp, by simp, fun _ => ⟨w0, h1, rfl⟩⟩
  · rw [carStatus_walk env data hlen w0] at h1
    generalize hL : wsLeaves (decodeValue.decodeFields
            [("Header", PacketHeader), ("CarStatusData", GoType.array 22 CarStatusData)]
            (data.take 1239)).1 ["CarStatus"] = L at h1
    have hnd : (L.map Prod.fst).Nodup := by
      rw [← hL, carStatus_leaf_keys]
      exact carStatusKeys_nodup
    obtain ⟨new, hn1, hn2, -, -, hn5⟩ := foldl_wsStep_out env L w0
    obtain ⟨e1, e2, -⟩ := foldl_wsStep_entries env w0.clockReads L w0
      (fun k e hk => by rw [hempty k] at hk; exact absurd hk (by simp)) (le_refl _)
    have hosc : ∀ w, oscWalkEffect env w (sendStructFieldsToOSC env (decodeCarStatusPacket data).1 w) :=
      fun w => sendStructFieldsToOSC_closure env (oscWalkEffect env) (oscWalkEffect_refl env)
        (oscWalkEffect_trans env) (fun hen => oscWalkEffect_step env hen) _ w
    obtain ⟨o1, o2, o3, -⟩ := hosc (L.foldl (wsStep env) w0)
    refine ⟨_, new, h1, by rw [o2, hn1], keyed_filter_le_one L hnd new hn2, fun hclock => ?_⟩
    rcases handleUDPPacket_carStatus env data hlen hid
      (sendStructFieldsToOSC env (decodeCarStatusPacket data).1 (L.foldl (wsStep env) w0))
      with h2 | h2
    · exact ⟨_, h2, rfl⟩
    · rw [carStatus_walk env data hlen, hL] at h2
      refine ⟨_, h2, ?_⟩
      obtain ⟨p1, p2, p3, -⟩ := hosc (L.foldl (wsStep env)
        (sendStructFieldsToOSC env (decodeCarStatusPacket data).1 (L.foldl (wsStep env) w0)))
      rw [p2]
      refine (foldl_wsStep_silent env _ hint L _ (le_refl _) ?_).1
      intro kv hkv
      rcases e2 kv hkv with hz | ⟨e, he⟩
      · exact Or.inl hz
      · right
        obtain ⟨i, hi1, hi2, hi3⟩ := e1 kv.1 e he
        refine ⟨e, by rw [o1]; exact he, fun j hj => ?_⟩
        rw [hi3]
        exact hclock i j hi1 (lt_of_lt_of_le hi2 o3) hj

theorem sendStructFieldsToOSC_wsOut (env : Env) (v : GoValue) (w : World) :
    (sendStructFieldsToOSC env v w).wsOut = w.wsOut ∧
    (sendStructFieldsToOSC env v w).lastSentWS = w.lastSentWS := by
  obtain ⟨o1, o2, -, -⟩ := sendStructFieldsToOSC_closure env (oscWalkEffect env)
    (oscWalkEffect_refl env) (oscWalkEffect_trans env)
    (fun hen => oscWalkEffect_step env hen) v w
  exact ⟨o2, o1⟩

theorem decodeAndBroadcast_ok (env : Env) (data : List UInt8)
    (d : List UInt8 → GoValue × Option DecodeError) (K n : String)
    (fs : List (String × GoValue)) (w : World) (h : d data = (.struct n fs, none)) :
    decodeAndBroadcast env data d K w
      = sendStructFieldsToOSC env (.struct n fs) ((wsLeaves fs [K]).foldl (wsStep env) w) := by
  unfold decodeAndBroadcast
  rw [h]
  simp only [broadcastStructFieldsToWS]
  have := wsFields_eq_foldl env fs K [] w
  rw [intercalate_singleton] at this
  rw [this]

set_option maxRecDepth 100000 in
/-- Claim C12, as stated, fails.  With an empty cache the WebSocket gate rejects
the float32 value 0 and the uint32 value 0: nothing is broadcast for the keys
`TimeTrial/Header/SessionTime` and `TimeTrial/Header/FrameIdentifier`.  Handling
the all-zero 101-byte TimeTrial frame from the empty state broadcasts messages
for the listed keys only, and these two keys are not among them. -/
theorem websocket_zero_counterexample :
    emptyWorld.lastSentWS "TimeTrial/Header/SessionTime" = none ∧
    (gateWS sampleEnv "TimeTrial/Header/SessionTime" (GoValue.float32 0)
      (WSMessage.keyed "TimeTrial/Header/SessionTime" (GoValue.float32 0)) emptyWorld).wsOut
      = [] ∧
    emptyWorld.lastSentWS "TimeTrial/Header/FrameIdentifier" = none ∧
    (gateWS sampleEnv "TimeTrial/Header/FrameIdentifier" (GoValue.int IntKind.uint32 0)
      (WSMessage.keyed "TimeTrial/Header/FrameIdentifier" (GoValue.int IntKind.uint32 0))
      emptyWorld).wsOut = [] ∧
    frameTimeTrial101.length = 101 ∧
    ∃ w, handleUDPPacket sampleEnv frameTimeTrial101 emptyWorld = some w ∧
      w.wsOut.filterMap WSMessage.key? = timeTrialZeroKeys ∧
      timeTrialZeroKeys.contains "TimeTrial/Header/SessionTime" = false ∧
      timeTrialZeroKeys.contains "TimeTrial/Header/FrameIdentifier" = false := by
  refine ⟨rfl, rfl, rfl, rfl, by decide, _, rfl, ?_, by decide, by decide⟩
  rw [decodeAndBroadcast_ok sampleEnv frameTimeTrial101 decodeTimeTrialPacket "TimeTrial"
    "PacketTimeTrialData" (decodeValue.decodeFields timeTrialFields
      (frameTimeTrial101.take 101)).1 emptyWorld rfl, (sendStructFieldsToOSC_wsOut _ _ _).1]
  decide

/-- Claim C12, amended.  The WebSocket gate applies the zero rule of
`shouldSend`: a value that is a zero of type float32, float64, int, int32,
int64, uint, uint32 or uint64 is not broadcast and leaves the cache unchanged;
a value the rule does not cover (in particular a zero of an 8-bit or 16-bit
integer type) whose key has no cache entry is admitted, broadcast, and recorded
in the cache.  Among the numeric zeros the rule covers exactly those eight
types, and no message sent by the WebSocket walk of a record carries a value the
rule covers. -/
theorem websocket_gate_zero_rule (env : Env) (key : String) (value : GoValue) (m : WSMessage)
    (w : World) :
    (isIgnoredZero value = true →
      (gateWS env key value m w).wsOut = w.wsOut ∧
      (gateWS env key value m w).lastSentWS = w.lastSentWS) ∧
    (isIgnoredZero value = false → w.lastSentWS key = none →
      (gateWS env key value m w).wsOut = w.wsOut ++ [m] ∧
      (gateWS env key value m w).lastSentWS key
        = some ⟨env.clock (w.clockReads + 1), value⟩) ∧
    (isIgnoredZero (GoValue.float32 0) = true ∧ isIgnoredZero (GoValue.float64 0) = true ∧
      ∀ k : IntKind, isIgnoredZero (GoValue.int k 0)
        = decide (k ∈ [IntKind.int, IntKind.int32, IntKind.int64, IntKind.uint, IntKind.uint32,
            IntKind.uint64])) ∧
    (∀ n fs K, ∃ new,
      (broadcastStructFieldsToWS env (GoValue.struct n fs) K w).wsOut = w.wsOut ++ new ∧
      ∀ msg ∈ new, ∃ kv, msg = keyedOf kv ∧ isIgnoredZero kv.2 = false) := by
  refine ⟨fun hz => ?_, fun hz hn => ?_, ⟨rfl, rfl, fun k => by cases k <;> rfl⟩,
    fun n fs K => ?_⟩
  · have := shouldSend_of_ignoredZero env.Config (env.clock w.clockReads) key value
      w.lastSentWS hz
    simp [gateWS, this]
  · have := shouldSend_no_entry env.Config (env.clock w.clockReads) key value w.lastSentWS hn
    rw [hz] at this
    simp [gateWS, this, broadcast, updateLastSent]
  · simp only [broadcastStructFieldsToWS]
    have h := wsFields_eq_foldl env fs K [] w
    rw [intercalate_singleton] at h
    rw [h]
    obtain ⟨new, h1, h2⟩ := foldl_wsStep_nonzero env (wsLeaves fs [K]) w
    exact ⟨new, h1, fun msg hm => by
      obtain ⟨kv, -, e1, e2⟩ := h2 msg hm
      exact ⟨kv, e1, e2⟩⟩

/-- The amended claim C12 at the uint8 value 0 offered under a key without a
cache entry: the message is broadcast. -/
theorem websocket_gate_zero_rule_witness :
    isIgnoredZero (GoValue.int IntKind.uint8 0) = false ∧
    emptyWorld.lastSentWS "TimeTrial/Header/GameYear" = none ∧
    (gateWS sampleEnv "TimeTrial/Header/GameYear" (GoValue.int IntKind.uint8 0)
      (WSMessage.keyed "TimeTrial/Header/GameYear" (GoValue.int IntKind.uint8 0))
      emptyWorld).wsOut
      = emptyWorld.wsOut
        ++ [WSMessage.keyed "TimeTrial/Header/GameYear" (GoValue.int IntKind.uint8 0)] :=
  ⟨rfl, rfl,
    ((websocket_gate_zero_rule sampleEnv "TimeTrial/Header/GameYear"
      (GoValue.int IntKind.uint8 0)
      (WSMessage.keyed "TimeTrial/Header/GameYear" (GoValue.int IntKind.uint8 0))
      emptyWorld).2.1 rfl rfl).1⟩

/-- Claim C20.  The walk of `broadcastStructFieldsToWS` over a record of kind `K`
is the left-to-right run of the WebSocket gate over the reference list of (key,
value) pairs, which follows the declaration order: a record field `F` contributes
the pairs of its own fields with `F` appended to the path, an array field `F`
contributes one pair per element with key `path/F[j]`, and any other field `F`
contributes the pair with key `path/F`, where the path starts as `K` and its
parts are joined by `/`.  The messages sent are, in order, a sublist of the
messages built from these pairs; each message renders as the key, one space, and
the text of the value; and each gate step consults `shouldSend` under the key of
the pair and, if it sends, updates the cache under that same key with that
value. -/
theorem websocket_walk_keys (env : Env) (K n : String) (fs : List (String × GoValue))
    (w : World) (fmtV : GoValue → String) :
    broadcastStructFieldsToWS env (GoValue.struct n fs) K w
      = (wsLeaves fs [K]).foldl (wsStep env) w ∧
    (∀ path, wsLeaves [] path = []) ∧
    (∀ F n2 fs2 rest path, wsLeaves ((F, GoValue.struct n2 fs2) :: rest) path
      = wsLeaves fs2 (path ++ [F]) ++ wsLeaves rest path) ∧
    (∀ F elems rest path, wsLeaves ((F, GoValue.array elems) :: rest) path
      = elems.enum.map
          (fun je => ("/".intercalate (path ++ [F]) ++ "[" ++ toString je.1 ++ "]", je.2))
        ++ wsLeaves rest path) ∧
    (∀ F v rest path, (∀ n2 fs2, v ≠ GoValue.struct n2 fs2) → (∀ elems, v ≠ GoValue.array elems) →
      wsLeaves ((F, v) :: rest) path = ("/".intercalate (path ++ [F]), v) :: wsLeaves rest path) ∧
    (∃ new, (broadcastStructFieldsToWS env (GoValue.struct n fs) K w).wsOut = w.wsOut ++ new ∧
      new.Sublist ((wsLeaves fs [K]).map keyedOf)) ∧
    (∀ kv : String × GoValue, (keyedOf kv).render fmtV = kv.1 ++ " " ++ fmtV kv.2) ∧
    (∀ (w0 : World) (kv : String × GoValue),
      (shouldSend env.Config (env.clock w0.clockReads) kv.1 kv.2 w0.lastSentWS = true ∧
        (wsStep env w0 kv).wsOut = w0.wsOut ++ [keyedOf kv] ∧
        (wsStep env w0 kv).lastSentWS
          = updateLastSent (env.clock (w0.clockReads + 1)) kv.1 kv.2 w0.lastSentWS) ∨
      (shouldSend env.Config (env.clock w0.clockReads) kv.1 kv.2 w0.lastSentWS = false ∧
        (wsStep env w0 kv).wsOut = w0.wsOut ∧
        (wsStep env w0 kv).lastSentWS = w0.lastSentWS)) := by
  have h : broadcastStructFieldsToWS env (GoValue.struct n fs) K w
      = (wsLeaves fs [K]).foldl (wsStep env) w := by
    simp only [broadcastStructFieldsToWS]
    have h := wsFields_eq_foldl env fs K [] w
    rw [intercalate_singleton] at h
    exact h
  refine ⟨h, fun _ => by simp [wsLeaves], fun F n2 fs2 rest path => by simp [wsLeaves, wsFieldLeaves],
    fun F elems rest path => by simp [wsLeaves, wsFieldLeaves],
    fun F v rest path h1 h2 => ?_, ?_, fun kv => rfl, fun w0 kv => (wsStep_spec env w0 kv).2.2.2⟩
  · cases v with
    | struct n2 fs2 => exact absurd rfl (h1 n2 fs2)
    | array elems => exact absurd rfl (h2 elems)
    | int k x => simp [wsLeaves, wsFieldLeaves]
    | float32 x => simp [wsLeaves, wsFieldLeaves]
    | float64 x => simp [wsLeaves, wsFieldLeaves]
    | str x => simp [wsLeaves, wsFieldLeaves]
  · rw [h]
    obtain ⟨new, h1, h2, -⟩ := foldl_wsStep_out env (wsLeaves fs [K]) w
    exact ⟨new, h1, h2⟩

set_option maxRecDepth 100000 in
/-- Claim C20 at a record with a nested header and an array of two floats: the
keys are `MotionEx/Header/PacketId`, `MotionEx/WheelSpeed[0]` and
`MotionEx/WheelSpeed[1]`, in this order. -/
theorem websocket_walk_keys_witness :
    (wsLeaves [("Header", GoValue.struct "PacketHeader" [("PacketId", GoValue.int IntKind.uint8 7)]),
        ("WheelSpeed", GoValue.array [GoValue.float32 1, GoValue.float32 2])] ["MotionEx"]).map
      Prod.fst = ["MotionEx/Header/PacketId", "MotionEx/WheelSpeed[0]", "MotionEx/WheelSpeed[1]"] ∧
    broadcastStructFieldsToWS sampleEnv (GoValue.struct "R"
        [("Header", GoValue.struct "PacketHeader" [("PacketId", GoValue.int IntKind.uint8 7)]),
         ("WheelSpeed", GoValue.array [GoValue.float32 1, GoValue.float32 2])]) "MotionEx"
        emptyWorld
      = (wsLeaves [("Header", GoValue.struct "PacketHeader" [("PacketId", GoValue.int IntKind.uint8 7)]),
        ("WheelSpeed", GoValue.array [GoValue.float32 1, GoValue.float32 2])] ["MotionEx"]).foldl
          (wsStep sampleEnv) emptyWorld :=
  ⟨by decide, (websocket_walk_keys sampleEnv "MotionEx" "R" _ emptyWorld (fun _ => "")).1⟩

set_option maxRecDepth 100000 in
/-- Claim C19 fails in the code for the WebSocket walk.  Handling the all-zero
1239-byte CarStatus frame from the empty state broadcasts 30 messages: the
first 8 carry single numbers (header fields of 8-bit and 16-bit integer type),
the other 22 carry a whole CarStatusData record each, under the keys
`CarStatus/CarStatusData[0]` to `CarStatus/CarStatusData[21]`; the records are
not entered field by field. -/
theorem carStatus_walk_sends_records :
    frameCarStatus1239.length = 1239 ∧ frameCarStatus1239[6]? = some 7 ∧
    ∃ w, handleUDPPacket sampleEnv frameCarStatus1239 emptyWorld = some w ∧
      w.wsOut.map WSMessage.carriesScalar = List.replicate 8 true ++ List.replicate 22 false ∧
      (w.wsOut.filterMap WSMessage.key?).drop 8 = carStatusKeys.drop 12 := by
  refine ⟨by decide, by decide, _, rfl, ?_⟩
  rw [carStatus_walk sampleEnv frameCarStatus1239 (by decide) emptyWorld,
    (sendStructFieldsToOSC_wsOut _ _ _).1]
  decide

set_option maxRecDepth 100000 in
/-- Claim C14 fails in the code for the MotionEx kind.  With a clock that stands
still, so that every reading is within one interval, handling the same 273-byte
MotionEx frame twice sends the WebSocket message for `MotionEx/WheelSpeedRL`
twice and the OSC message `/motion_ex/wheel_speed/rl` twice; neither gate cache
gets an entry and the clock is never read, since `broadcastMotionExFields` does
not call the gate. -/
theorem motionEx_bypasses_gate :
    frameMotionEx273.length = 273 ∧
    ∃ w1 w2, handleUDPPacket burstEnv frameMotionEx273 emptyWorld = some w1 ∧
      handleUDPPacket burstEnv frameMotionEx273 w1 = some w2 ∧
      w1.wsOut = [WSMessage.keyed "MotionEx/WheelSpeedRL" (GoValue.float32 0x3F800000)] ∧
      w2.wsOut = [WSMessage.keyed "MotionEx/WheelSpeedRL" (GoValue.float32 0x3F800000),
        WSMessage.keyed "MotionEx/WheelSpeedRL" (GoValue.float32 0x3F800000)] ∧
      w2.oscOut = [⟨"/motion_ex/wheel_speed/rl", GoValue.float32 0x3F800000⟩,
        ⟨"/motion_ex/wheel_speed/rl", GoValue.float32 0x3F800000⟩] ∧
      w2.lastSentWS "MotionEx/WheelSpeedRL" = none ∧
      w2.lastSentOSC "/motion_ex/wheel_speed/rl" = none ∧ w2.clockReads = 0 :=
  ⟨by decide, _, _, rfl, rfl, rfl, rfl, rfl, rfl, rfl, rfl⟩

theorem oscFields_eq_foldl (env : Env) (fs : List (String × GoValue)) :
    ∀ w, sendStructFieldsToOSC.oscFields env fs w = (oscLeaves env fs).foldl (oscStep env) w := by
  refine sendStructFieldsToOSC.oscFields.induct env
    (fun fs => ∀ w, sendStructFieldsToOSC.oscFields env fs w
      = (oscLeaves env fs).foldl (oscStep env) w)
    (fun name len elems j => ∀ w, sendStructFieldsToOSC.oscElems env name len elems j w
      = (oscElemLeaves env elems name len j).foldl (oscStep env) w)
    ?_ ?_ ?_ ?_ fs
  · intro w
    rw [sendStructFieldsToOSC.oscFields.eq_1]
    simp [oscLeaves]
  · intro name field rest ihr ih w
    rw [sendStructFieldsToOSC.oscFields.eq_2]
    cases field <;> cases hl : lookupOSC env name <;>
      simp only [oscLeaves, oscFieldLeaves, oscHead, hl, inZeroCase, ifaceEqZero,
        Bool.false_and, Bool.true_and, Bool.and_false, Bool.false_eq_true, if_false,
        List.foldl_append, List.foldl_cons, List.foldl_nil, List.nil_append, oscStep] at ih ⊢ <;>
      (try split) <;>
      simp only [List.foldl_append, List.foldl_cons, List.foldl_nil, List.nil_append, oscStep,
        ihr, ih]
  · intro name len j w
    rw [sendStructFieldsToOSC.oscElems.eq_1]
    simp [oscElemLeaves]
  · intro name len elem rest j ih w
    rw [sendStructFieldsToOSC.oscElems.eq_2]
    cases elem <;>
      cases hl : lookupOSC env
        (if len = 4 ∧ j < suffixes.length then name ++ suffixes.getD j "" else name) <;>
      simp only [oscElemLeaves, oscElemLeaf, oscElemHead, oscElemKey, hl,
        List.foldl_append, List.foldl_cons, List.foldl_nil, List.nil_append, List.append_nil,
        oscStep] at ih ⊢ <;>
      simp only [ih]

theorem sendStructFieldsToOSC_eq_foldl (env : Env) (n : String) (fs : List (String × GoValue))
    (w : World) :
    sendStructFieldsToOSC env (.struct n fs) w = (oscLeaves env fs).foldl (oscStep env) w := by
  simp only [sendStructFieldsToOSC]
  exact oscFields_eq_foldl env fs w

theorem drop_take_succ (l : List UInt8) (k n : Nat) (h : k < l.length) :
    (l.drop k).take (n + 1) = l.getD k 0 :: (l.drop (k + 1)).take n := by
  rw [List.drop_eq_getElem_cons h, List.take_succ_cons]
  simp [List.getD, List.getElem?_eq_getElem h]

theorem leNat_slice1 (l : List UInt8) (k : Nat) (h : k + 1 ≤ l.length) :
    leNat ((l.drop k).take 1) = (l.getD k 0).toNat := by
  rw [drop_take_succ l k 0 (by omega)]
  simp [leNat]

theorem leNat_slice2 (l : List UInt8) (k : Nat) (h : k + 2 ≤ l.length) :
    leNat ((l.drop k).take 2) = (l.getD k 0).toNat + 256 * (l.getD (k + 1) 0).toNat := by
  rw [drop_take_succ l k 1 (by omega), drop_take_succ l (k + 1) 0 (by omega)]
  simp [leNat]

theorem leNat_slice4 (l : List UInt8) (k : Nat) (h : k + 4 ≤ l.length) :
    leNat ((l.drop k).take 4) = (l.getD k 0).toNat + 256 * (l.getD (k + 1) 0).toNat
      + 256 ^ 2 * (l.getD (k + 2) 0).toNat + 256 ^ 3 * (l.getD (k + 3) 0).toNat := by
  rw [drop_take_succ l k 3 (by omega), drop_take_succ l (k + 1) 2 (by omega),
    drop_take_succ l (k + 2) 1 (by omega), drop_take_succ l (k + 3) 0 (by omega)]
  simp only [leNat, List.take_zero]
  ring

theorem leNat_slice8 (l : List UInt8) (k : Nat) (h : k + 8 ≤ l.length) :
    leNat ((l.drop k).take 8) = (l.getD k 0).toNat + 256 * (l.getD (k + 1) 0).toNat
      + 256 ^ 2 * (l.getD (k + 2) 0).toNat + 256 ^ 3 * (l.getD (k + 3) 0).toNat
      + 256 ^ 4 * (l.getD (k + 4) 0).toNat + 256 ^ 5 * (l.getD (k + 5) 0).toNat
      + 256 ^ 6 * (l.getD (k + 6) 0).toNat + 256 ^ 7 * (l.getD (k + 7) 0).toNat := by
  rw [drop_take_succ l k 7 (by omega), drop_take_succ l (k + 1) 6 (by omega),
    drop_take_succ l (k + 2) 5 (by omega), drop_take_succ l (k + 3) 4 (by omega),
    drop_take_succ l (k + 4) 3 (by omega), drop_take_succ l (k + 5) 2 (by omega),
    drop_take_succ l (k + 6) 1 (by omega), drop_take_succ l (k + 7) 0 (by omega)]
  simp only [leNat, List.take_zero]
  ring

theorem headerOf_eq_reference (buf : List UInt8) (h : 29 ≤ buf.length) :
    headerOf buf = headerReference buf := by
  have h0 : leNat (buf.take 2) = (buf.getD 0 0).toNat + 256 * (buf.getD 1 0).toNat := by
    have := leNat_slice2 buf 0 (by omega)
    simpa using this
  unfold headerOf headerReference
  simp only [h0, leNat_slice1 buf _ (show 2 + 1 ≤ buf.length by omega),
    leNat_slice1 buf _ (show 3 + 1 ≤ buf.length by omega),
    leNat_slice1 buf _ (show 4 + 1 ≤ buf.length by omega),
    leNat_slice1 buf _ (show 5 + 1 ≤ buf.length by omega),
    leNat_slice1 buf _ (show 6 + 1 ≤ buf.length by omega),
    leNat_slice8 buf _ (show 7 + 8 ≤ buf.length by omega),
    leNat_slice4 buf _ (show 15 + 4 ≤ buf.length by omega),
    leNat_slice4 buf _ (show 19 + 4 ≤ buf.length by omega),
    leNat_slice4 buf _ (show 23 + 4 ≤ buf.length by omega),
    leNat_slice1 buf _ (show 27 + 1 ≤ buf.length by omega),
    leNat_slice1 buf _ (show 28 + 1 ≤ buf.length by omega)]

theorem getD_take (l : List UInt8) (S k : Nat) (h : k < S) :
    (l.take S).getD k 0 = l.getD k 0 := by
  simp [List.getD, List.getElem?_take, h]

theorem headerReference_take (data : List UInt8) (S : Nat) (h : 29 ≤ S) :
    headerReference (data.take S) = headerReference data := by
  unfold headerReference
  simp (disch := omega) only [getD_take]

theorem decoderTable_header (id : UInt8) (d : List UInt8 → GoValue × Option DecodeError)
    (T : GoType) (L : Nat) (h : (id, d, T, L) ∈ decoderTable) :
    ∃ n rest, T = GoType.struct n (("Header", PacketHeader) :: rest) := by
  simp only [decoderTable, List.mem_cons, Prod.mk.injEq, List.mem_singleton, List.not_mem_nil,
    or_false] at h
  rcases h with h | h | h | h | h | h | h | h | h | h | h | h | h | h | h <;>
    obtain ⟨-, -, rfl, -⟩ := h <;> exact ⟨_, _, rfl⟩

theorem decoderTable_ok (id : UInt8) (d : List UInt8 → GoValue × Option DecodeError)
    (T : GoType) (L : Nat) (h : (id, d, T, L) ∈ decoderTable) (data : List UInt8)
    (hok : (d data).2 = none) :
    ∃ S, T.sizeof = some S ∧ S ≤ data.length ∧ (d data).1 = (decodeValue T (data.take S)).1 := by
  obtain ⟨S, hS, -, -, hd⟩ := decoderTable_spec id d T L h
  have hle : S ≤ data.length := by
    by_contra hlt
    have hlt2 : data.length < S := by omega
    rcases hd with hd | hd
    · rw [hd, binaryRead_short T S hS data hlt2] at hok
      exact absurd hok (by simp)
    · rw [hd] at hok
      by_cases hL : data.length < L
      · rw [if_pos hL] at hok; exact absurd hok (by simp)
      · rw [if_neg hL, binaryRead_short T S hS data hlt2] at hok
        exact absurd hok (by simp)
  refine ⟨S, hS, hle, ?_⟩
  rcases hd with hd | hd
  · rw [hd, binaryRead_enough T S hS data hle]
  · rw [hd] at hok ⊢
    by_cases hL : data.length < L
    · rw [if_pos hL] at hok; exact absurd hok (by simp)
    · rw [if_neg hL, binaryRead_enough T S hS data hle]

theorem sizeof_with_header (n : String) (rest : List (String × GoType)) (S : Nat)
    (h : (GoType.struct n (("Header", PacketHeader) :: rest)).sizeof = some S) : 29 ≤ S := by
  have hh : PacketHeader.sizeof = some 29 := by decide
  rw [GoType.sizeof, GoType.sizeof.sizeofFields, hh] at h
  cases hr : GoType.sizeof.sizeofFields rest with
  | none => rw [hr] at h; exact absurd h (by simp)
  | some b =>
    rw [hr] at h
    injection h with h
    omega

theorem decodeValue_with_header (n : String) (rest : List (String × GoType))
    (buf : List UInt8) :
    (decodeValue (GoType.struct n (("Header", PacketHeader) :: rest)) buf).1
      = GoValue.struct n (("Header", headerOf buf)
          :: (decodeValue.decodeFields rest (buf.drop 29)).1) := by
  rw [decodeValue_struct]
  simp only [decodeValue.decodeFields, decodeValue_PacketHeader]

theorem decoded_record_shape (id : UInt8) (d : List UInt8 → GoValue × Option DecodeError)
    (T : GoType) (L : Nat) (h : (id, d, T, L) ∈ decoderTable) (data : List UInt8)
    (hok : (d data).2 = none) :
    ∃ n rest S, T = GoType.struct n (("Header", PacketHeader) :: rest) ∧ T.sizeof = some S ∧
      29 ≤ S ∧ S ≤ data.length ∧
      (d data).1 = GoValue.struct n (("Header", headerReference data)
        :: (decodeValue.decodeFields rest ((data.take S).drop 29)).1) := by
  obtain ⟨n, rest, rfl⟩ := decoderTable_header id d T L h
  obtain ⟨S, hS, hle, hd⟩ := decoderTable_ok id d _ L h data hok
  have h29 := sizeof_with_header n rest S hS
  refine ⟨n, rest, S, rfl, hS, h29, hle, ?_⟩
  rw [hd, decodeValue_with_header,
    headerOf_eq_reference _ (by simp only [List.length_take]; omega),
    headerReference_take data S h29]

theorem sessionType_shape : ∃ rest, PacketSessionData = GoType.struct "PacketSessionData"
    (("Header", PacketHeader) :: ("Weather", GoType.int IntKind.uint8)
      :: ("TrackTemperature", GoType.int IntKind.int8) :: rest) := ⟨_, rfl⟩

theorem session_first_fields (data : List UInt8) (hok : (decodeSessionPacket data).2 = none) :
    31 ≤ data.length ∧
    (decodeSessionPacket data).1.field "Weather"
      = some (GoValue.int IntKind.uint8 ((data.getD 29 0).toNat : Int)) ∧
    (decodeSessionPacket data).1.field "TrackTemperature"
      = some (GoValue.int IntKind.int8
          (if (data.getD 30 0).toNat < 128 then ((data.getD 30 0).toNat : Int)
           else ((data.getD 30 0).toNat : Int) - 256)) := by
  have hmem : ((1 : UInt8), decodeSessionPacket, PacketSessionData, 753) ∈ decoderTable := by
    simp [decoderTable]
  obtain ⟨S, hS, hle, hd⟩ := decoderTable_ok _ _ _ _ hmem data hok
  have hS2 : PacketSessionData.sizeof = some 753 := by decide
  rw [hS2] at hS
  injection hS with hS
  subst hS
  obtain ⟨rest, hT⟩ := sessionType_shape
  rw [hd, hT, decodeValue_with_header]
  have h29 : 29 < (data.take 753).length := by simp only [List.length_take]; omega
  have h30 : 30 < (data.take 753).length := by simp only [List.length_take]; omega
  refine ⟨by omega, ?_, ?_⟩
  · simp only [decodeValue.decodeFields, decodeValue, decodeInt, IntKind.wireSize,
      IntKind.signed, GoValue.field, List.lookup]
    simp [leNat_slice1 _ 29 h29, getD_take]
  · simp only [decodeValue.decodeFields, decodeValue, decodeInt, IntKind.wireSize,
      IntKind.signed, GoValue.field, List.lookup]
    simp [List.drop_drop, leNat_slice1 _ 30 h30, getD_take, toSigned]
    generalize (data[30]?.getD 0).toNat = v
    split_ifs <;> omega

set_option maxRecDepth 100000 in
/-- Claim C15.  For every record that a struct decoder of the dispatch table
produces without error on a frame, the frame has at least 29 bytes and the
record's header is the one read little-endian from fixed offsets of the frame
(the reference header: PacketFormat from bytes 0..1, the four one-byte version
fields from bytes 2..5, PacketId from byte 6, SessionUID from bytes 7..14,
SessionTime as the bit pattern of bytes 15..18, the two frame identifiers from
bytes 19..22 and 23..26, the two car indices from bytes 27 and 28).  The
PacketId field is byte 6, the byte the dispatcher switches on.  Signed fields
are two's complement: the Session field TrackTemperature is byte 30 read as a
signed byte, and in the sample frame byte 30 = 0xFF decodes as -1 next to the
format 2025 read from the bytes 0xE9 0x07. -/
theorem decoded_header_fields (data : List UInt8) :
    (∀ id d T L, (id, d, T, L) ∈ decoderTable → (d data).2 = none →
      29 ≤ data.length ∧ (d data).1.field "Header" = some (headerReference data)) ∧
    (headerReference data).field "PacketId"
      = some (GoValue.int IntKind.uint8 ((data.getD 6 0).toNat : Int)) ∧
    ((decodeSessionPacket data).2 = none →
      (decodeSessionPacket data).1.field "TrackTemperature"
        = some (GoValue.int IntKind.int8
            (if (data.getD 30 0).toNat < 128 then ((data.getD 30 0).toNat : Int)
             else ((data.getD 30 0).toNat : Int) - 256))) ∧
    (decodeSessionPacket frameSessionCold).2 = none ∧
    (decodeSessionPacket frameSessionCold).1.field "TrackTemperature"
      = some (GoValue.int IntKind.int8 (-1)) ∧
    (headerReference frameSessionCold).field "PacketFormat"
      = some (GoValue.int IntKind.uint16 2025) := by
  refine ⟨?_, rfl, fun hok => (session_first_fields data hok).2.2, by decide, by rfl,
    by rfl⟩
  intro id d T L h hok
  obtain ⟨n, rest, S, -, -, h29, hle, hd⟩ := decoded_record_shape id d T L h data hok
  refine ⟨by omega, ?_⟩
  rw [hd]
  simp [GoValue.field, List.lookup]

set_option maxRecDepth 100000 in
/-- Claim C16, as stated, fails.  The header type is 29 bytes wide.  In the
753-byte Session sample frame byte 24 is 5 and byte 29 is 9: the decoder
succeeds, the first Session field (Weather) is 9, the byte at offset 29, and
byte 24 is part of the header field OverallFrameIdentifier, which reads
5 * 256 = 1280 from bytes 23..26. -/
theorem header_prefix_counterexample :
    frameSessionOffsets.length = 753 ∧
    frameSessionOffsets[24]? = some 5 ∧
    frameSessionOffsets[29]? = some 9 ∧
    PacketHeader.sizeof = some 29 ∧
    (decodeSessionPacket frameSessionOffsets).2 = none ∧
    (decodeSessionPacket frameSessionOffsets).1.field "Weather"
      = some (GoValue.int IntKind.uint8 9) ∧
    ((decodeSessionPacket frameSessionOffsets).1.field "Header").bind
        (fun hd => hd.field "OverallFrameIdentifier")
      = some (GoValue.int IntKind.uint32 1280) := by
  refine ⟨by decide, by decide, by decide, by decide, by decide, by rfl, by rfl⟩

/-- Claim C16, amended.  The header is a fixed 29-byte prefix: the header type
is 29 bytes wide, and every record that a struct decoder of the dispatch table
produces without error has the header decoded from the first 29 bytes of the
frame as its first field, followed by the kind-specific fields decoded from
byte offset 29 on (up to the width of the record type). -/
theorem header_is_29_byte_prefix (id : UInt8)
    (d : List UInt8 → GoValue × Option DecodeError) (T : GoType) (L : Nat)
    (h : (id, d, T, L) ∈ decoderTable) (data : List UInt8) (hok : (d data).2 = none) :
    PacketHeader.sizeof = some 29 ∧
    ∃ n rest S, T = GoType.struct n (("Header", PacketHeader) :: rest) ∧
      T.sizeof = some S ∧ 29 ≤ S ∧ S ≤ data.length ∧
      (d data).1 = GoValue.struct n
        (("Header", (decodeValue PacketHeader (data.take 29)).1)
          :: (decodeValue.decodeFields rest ((data.drop 29).take (S - 29))).1) := by
  refine ⟨by decide, ?_⟩
  obtain ⟨n, rest, S, hT, hS, h29, hle, hd⟩ := decoded_record_shape id d T L h data hok
  refine ⟨n, rest, S, hT, hS, h29, hle, ?_⟩
  rw [hd, decodeValue_PacketHeader, headerOf_eq_reference _ (by simp only [List.length_take]; omega),
    headerReference_take data 29 (le_refl _), List.drop_take]

set_option maxRecDepth 100000 in
/-- The amended claim C16 at the Session sample frame. -/
theorem header_is_29_byte_prefix_witness :
    ((1 : UInt8), decodeSessionPacket, PacketSessionData, 753) ∈ decoderTable ∧
    (decodeSessionPacket frameSessionOffsets).2 = none ∧
    PacketHeader.sizeof = some 29 ∧
    ∃ n rest S, PacketSessionData = GoType.struct n (("Header", PacketHeader) :: rest) ∧
      PacketSessionData.sizeof = some S ∧ 29 ≤ S ∧ S ≤ frameSessionOffsets.length ∧
      (decodeSessionPacket frameSessionOffsets).1 = GoValue.struct n
        (("Header", (decodeValue PacketHeader (frameSessionOffsets.take 29)).1)
          :: (decodeValue.decodeFields rest ((frameSessionOffsets.drop 29).take (S - 29))).1) :=
  ⟨by simp [decoderTable], by decide,
    header_is_29_byte_prefix 1 decodeSessionPacket PacketSessionData 753
      (by simp [decoderTable]) frameSessionOffsets (by decide)⟩

theorem lt_two_pow_bitLengthAux (fuel : Nat) : ∀ n, n ≤ fuel → n < 2 ^ bitLengthAux fuel n := by
  induction fuel with
  | zero => intro n h; simp [bitLengthAux]; omega
  | succ f ih =>
    intro n h
    by_cases h0 : n = 0
    · simp [bitLengthAux, h0]
    · have := ih (n / 2) (by omega)
      simp only [bitLengthAux, if_neg h0, pow_add, pow_one]
      omega

theorem lt_two_pow_bitLength (n : Nat) : n < 2 ^ bitLength n :=
  lt_two_pow_bitLengthAux n n (le_refl n)

theorem roundShift_le (a s t : Nat) (h : a < 2 ^ (s + t)) : roundShift a s ≤ 2 ^ (s + t) := by
  have hq : a / 2 ^ s < 2 ^ t := by
    rw [Nat.div_lt_iff_lt_mul (by positivity), ← pow_add, Nat.add_comm]
    exact h
  have hle : (if 2 * (a % 2 ^ s) > 2 ^ s ∨ (2 * (a % 2 ^ s) = 2 ^ s ∧ a / 2 ^ s % 2 = 1)
      then a / 2 ^ s + 1 else a / 2 ^ s) ≤ 2 ^ t := by
    split_ifs <;> omega
  calc roundShift a s ≤ 2 ^ t * 2 ^ s := Nat.mul_le_mul_right _ hle
    _ = 2 ^ (s + t) := by rw [← pow_add, Nat.add_comm]

theorem fRound_shape (F : FloatFormat) (A d : Nat) (h : fRound F A = some d) (n P Q : Nat)
    (hP : P = 2 ^ (n + 1)) (hQ : Q = 2 ^ (n + (F.mbits + 1))) :
    d ≤ Q ∨ ∃ k, d = k * P := by
  subst hP hQ
  unfold fRound at h
  simp only at h
  split_ifs at h
  injection h with h
  subst h
  by_cases hs : bitLength A - (F.mbits + 1) ≤ n
  · left
    have h1 := lt_two_pow_bitLength A
    have h2 : A < 2 ^ ((bitLength A - (F.mbits + 1)) + (F.mbits + 1)) :=
      lt_of_lt_of_le h1 (Nat.pow_le_pow_right (by norm_num) (by omega))
    exact le_trans (roundShift_le A _ _ h2) (Nat.pow_le_pow_right (by norm_num) (by omega))
  · right
    obtain ⟨e, he⟩ : ∃ e, bitLength A - (F.mbits + 1) = n + 1 + e :=
      ⟨bitLength A - (F.mbits + 1) - (n + 1), by omega⟩
    obtain ⟨k, hk⟩ : ∃ k, roundShift A (bitLength A - (F.mbits + 1))
        = k * 2 ^ (bitLength A - (F.mbits + 1)) := by
      unfold roundShift
      exact ⟨_, rfl⟩
    rw [hk, he]
    exact ⟨k * 2 ^ e, by rw [Nat.mul_assoc, ← pow_add, Nat.add_comm e]⟩

theorem fSubAbs_shape (F : FloatFormat) (a b d : Nat) (h : fSubAbs F a b = some d) (n P Q : Nat)
    (hP : P = 2 ^ (n + 1)) (hQ : Q = 2 ^ (n + (F.mbits + 1))) :
    d ≤ Q ∨ ∃ k, d = k * P := by
  unfold fSubAbs at h
  split_ifs at h
  exact fRound_shape F _ d h n P Q hP hQ

theorem threshold32 (a b d : Nat) (h : fSubAbs binary32 a b = some d) :
    d < 7378697629483821 * 2 ^ 83 ↔ d * 10000 < 2 ^ 149 := by
  rcases fSubAbs_shape binary32 a b d h 110 (2 ^ 111) (2 ^ 134) rfl rfl with h1 | ⟨k, rfl⟩
  · norm_num at h1 ⊢
    constructor <;> intro _ <;> omega
  · norm_num
    omega

theorem threshold64_aux (P d : Nat) (hP : 0 < P)
    (h : d ≤ 2 ^ 52 * P ∨ ∃ k, d = k * P) :
    (d < 7555786372591432 * P → d * 10000000 < 2 ^ 76 * P) ∧
    (d * 10000000 < 2 ^ 76 * P → d ≠ 7555786372591432 * P → d < 7555786372591432 * P) := by
  rcases h with h1 | ⟨k, rfl⟩
  · norm_num at h1 ⊢
    constructor <;> intros <;> omega
  · rw [Nat.mul_right_comm k P, Nat.mul_lt_mul_right hP, Nat.mul_lt_mul_right hP,
      Ne, Nat.mul_left_inj (Nat.pos_iff_ne_zero.mp hP)]
    norm_num
    constructor <;> intros <;> omega

theorem threshold64 (a b d : Nat) (h : fSubAbs binary64 a b = some d) :
    (d < 7555786372591432 * 2 ^ 998 → d * 10000000 < 2 ^ 1074) ∧
    (d * 10000000 < 2 ^ 1074 → d ≠ 7555786372591432 * 2 ^ 998 →
      d < 7555786372591432 * 2 ^ 998) := by
  have e1 : (2 : Nat) ^ 1074 = 2 ^ 76 * 2 ^ 998 := by rw [← pow_add]
  have e2 : 2 ^ 52 * 2 ^ 998 = (2 : Nat) ^ (997 + (binary64.mbits + 1)) := by
    rw [← pow_add]
    exact congrArg (fun n => 2 ^ n) (by decide : 52 + 998 = 997 + (binary64.mbits + 1))
  have e3 : 2 ^ 998 = (2 : Nat) ^ (997 + 1) :=
    congrArg (fun n => 2 ^ n) (by decide : 998 = 997 + 1)
  have hs := fSubAbs_shape binary64 a b d h 997 (2 ^ 998) (2 ^ 52 * 2 ^ 998) e3 e2
  rw [e1]
  exact threshold64_aux (2 ^ 998) d (by positivity) hs

theorem deepEqual_iff_eq (a : GoValue) :
    ∀ b, a.floatFree = true → (deepEqual a b = true ↔ a = b) := by
  refine @GoValue.rec
    (fun a => ∀ b, a.floatFree = true → (deepEqual a b = true ↔ a = b))
    (fun xs => ∀ ys, GoValue.floatFree.floatFreeList xs = true →
      (deepEqual.deepEqualList xs ys = true ↔ xs = ys))
    (fun fs => ∀ gs, GoValue.floatFree.floatFreeFields fs = true →
      (deepEqual.deepEqualFields fs gs = true ↔ fs = gs))
    (fun p => ∀ q, p.2.floatFree = true → (deepEqual p.2 q = true ↔ p.2 = q))
    ?_ ?_ ?_ ?_ ?_ ?_ ?_ ?_ ?_ ?_ ?_ a
  · intro k v b _
    cases b <;> simp [deepEqual]
  · intro bits b h
    simp [GoValue.floatFree] at h
  · intro bits b h
    simp [GoValue.floatFree] at h
  · intro s b _
    cases b <;> simp [deepEqual]
  · intro xs ih b h
    cases b <;> simp [deepEqual]
    exact ih _ (by simpa [GoValue.floatFree] using h)
  · intro n fs ih b h
    cases b <;> simp [deepEqual]
    intro _
    exact ih _ (by simpa [GoValue.floatFree] using h)
  · intro ys _
    cases ys <;> simp [deepEqual.deepEqualList]
  · intro x xs ihx ihxs ys h
    simp only [GoValue.floatFree.floatFreeList, Bool.and_eq_true] at h
    cases ys with
    | nil => simp [deepEqual.deepEqualList]
    | cons y ys =>
      simp only [deepEqual.deepEqualList, Bool.and_eq_true, List.cons.injEq]
      rw [ihx y h.1, ihxs ys h.2]
  · intro gs _
    cases gs <;> simp [deepEqual.deepEqualFields]
  · intro p fs ihp ihfs gs h
    obtain ⟨f, x⟩ := p
    simp only [GoValue.floatFree.floatFreeFields, Bool.and_eq_true] at h
    cases gs with
    | nil => simp [deepEqual.deepEqualFields]
    | cons q gs =>
      obtain ⟨g, y⟩ := q
      simp only [deepEqual.deepEqualFields, Bool.and_eq_true, List.cons.injEq, Prod.mk.injEq,
        beq_iff_eq]
      rw [ihp y h.1, ihfs gs h.2]
  · intro f x ih q h
    exact ih q h

theorem fIsZero_zero (F : FloatFormat) : fIsZero F 0 = true := by
  simp [fIsZero, fExp, fMant]

theorem fIsNaN_of_fIsZero (F : FloatFormat) (b : Nat) (h : fIsZero F b = true) :
    fIsNaN F b = false := by
  simp only [fIsZero, decide_eq_true_eq] at h
  simp [fIsNaN, h.2]

theorem fEq_iff (F : FloatFormat) (a b : Nat) :
    fEq F a b = true ↔ fIsNaN F a = false ∧ normZero F a = normZero F b := by
  unfold fEq normZero
  by_cases za : fIsZero F a = true
  · have na := fIsNaN_of_fIsZero F a za
    by_cases zb : fIsZero F b = true
    · have nb := fIsNaN_of_fIsZero F b zb
      simp [za, zb, na, nb]
    · have hne : a ≠ b := fun h => zb (h ▸ za)
      have hb0 : ¬ (0 = b) := fun h => zb (h ▸ fIsZero_zero F)
      simp [za, zb, na, hne, hb0]
  · by_cases zb : fIsZero F b = true
    · have hne : a ≠ b := fun h => za (h ▸ zb)
      have ha0 : ¬ (a = 0) := fun h => za (h ▸ fIsZero_zero F)
      simp [za, zb, hne, ha0]
    · simp only [za, zb, Bool.false_eq_true, if_false, Bool.and_false, Bool.or_false,
        Bool.and_eq_true, Bool.not_eq_true', beq_iff_eq]
      constructor
      · rintro ⟨⟨h1, -⟩, h3⟩
        exact ⟨h1, h3⟩
      · rintro ⟨h1, h3⟩
        exact ⟨⟨h1, h3 ▸ h1⟩, h3⟩

theorem deepEqual_iff_normalize (a : GoValue) :
    ∀ b, deepEqual a b = true ↔ a.nanFree = true ∧ a.normalizeZero = b.normalizeZero := by
  refine @GoValue.rec
    (fun a => ∀ b, deepEqual a b = true ↔
      a.nanFree = true ∧ a.normalizeZero = b.normalizeZero)
    (fun xs => ∀ ys, deepEqual.deepEqualList xs ys = true ↔
      GoValue.nanFree.nanFreeList xs = true ∧
        GoValue.normalizeZero.normalizeList xs = GoValue.normalizeZero.normalizeList ys)
    (fun fs => ∀ gs, deepEqual.deepEqualFields fs gs = true ↔
      GoValue.nanFree.nanFreeFields fs = true ∧
        GoValue.normalizeZero.normalizeFields fs = GoValue.normalizeZero.normalizeFields gs)
    (fun p => ∀ q, deepEqual p.2 q = true ↔
      p.2.nanFree = true ∧ p.2.normalizeZero = q.normalizeZero)
    ?_ ?_ ?_ ?_ ?_ ?_ ?_ ?_ ?_ ?_ ?_ a
  · intro k v b
    cases b <;> simp [deepEqual, GoValue.nanFree, GoValue.normalizeZero]
  · intro bits b
    cases b <;> simp [deepEqual, GoValue.nanFree, GoValue.normalizeZero, fEq_iff]
  · intro bits b
    cases b <;> simp [deepEqual, GoValue.nanFree, GoValue.normalizeZero, fEq_iff]
  · intro s b
    cases b <;> simp [deepEqual, GoValue.nanFree, GoValue.normalizeZero]
  · intro xs ih b
    cases b <;> simp [deepEqual, GoValue.nanFree, GoValue.normalizeZero]
    exact ih _
  · intro n fs ih b
    cases b <;> simp [deepEqual, GoValue.nanFree, GoValue.normalizeZero]
    rename_i n2 fs2
    rw [ih fs2]
    tauto
  · intro ys
    cases ys <;> simp [deepEqual.deepEqualList, GoValue.nanFree.nanFreeList,
      GoValue.normalizeZero.normalizeList]
  · intro x xs ihx ihxs ys
    cases ys with
    | nil => simp [deepEqual.deepEqualList, GoValue.normalizeZero.normalizeList]
    | cons y ys =>
      simp only [deepEqual.deepEqualList, Bool.and_eq_true, GoValue.nanFree.nanFreeList,
        GoValue.normalizeZero.normalizeList, List.cons.injEq]
      rw [ihx y, ihxs ys]
      tauto
  · intro gs
    cases gs <;> simp [deepEqual.deepEqualFields, GoValue.nanFree.nanFreeFields,
      GoValue.normalizeZero.normalizeFields]
  · intro p fs ihp ihfs gs
    obtain ⟨f, x⟩ := p
    cases gs with
    | nil => simp [deepEqual.deepEqualFields, GoValue.normalizeZero.normalizeFields]
    | cons q gs =>
      obtain ⟨g, y⟩ := q
      simp only [deepEqual.deepEqualFields, Bool.and_eq_true, GoValue.nanFree.nanFreeFields,
        GoValue.normalizeZero.normalizeFields, List.cons.injEq, Prod.mk.injEq, beq_iff_eq]
      rw [ihp y, ihfs gs]
      tauto
  · intro f x ih q
    exact ih q

theorem floatFree_nanFree_normalize (a : GoValue) :
    a.floatFree = true → a.nanFree = true ∧ a.normalizeZero = a := by
  refine @GoValue.rec
    (fun a => a.floatFree = true → a.nanFree = true ∧ a.normalizeZero = a)
    (fun xs => GoValue.floatFree.floatFreeList xs = true →
      GoValue.nanFree.nanFreeList xs = true ∧ GoValue.normalizeZero.normalizeList xs = xs)
    (fun fs => GoValue.floatFree.floatFreeFields fs = true →
      GoValue.nanFree.nanFreeFields fs = true ∧ GoValue.normalizeZero.normalizeFields fs = fs)
    (fun p => p.2.floatFree = true → p.2.nanFree = true ∧ p.2.normalizeZero = p.2)
    ?_ ?_ ?_ ?_ ?_ ?_ ?_ ?_ ?_ ?_ ?_ a
  · intro k v _
    simp [GoValue.nanFree, GoValue.normalizeZero]
  · intro bits h
    simp [GoValue.floatFree] at h
  · intro bits h
    simp [GoValue.floatFree] at h
  · intro s _
    simp [GoValue.nanFree, GoValue.normalizeZero]
  · intro xs ih h
    simp only [GoValue.floatFree] at h
    simp only [GoValue.nanFree, GoValue.normalizeZero, GoValue.array.injEq]
    exact ih h
  · intro n fs ih h
    simp only [GoValue.floatFree] at h
    simp only [GoValue.nanFree, GoValue.normalizeZero, GoValue.struct.injEq, true_and]
    exact ih h
  · intro _
    simp [GoValue.nanFree.nanFreeList, GoValue.normalizeZero.normalizeList]
  · intro x xs ihx ihxs h
    simp only [GoValue.floatFree.floatFreeList, Bool.and_eq_true] at h
    simp only [GoValue.nanFree.nanFreeList, GoValue.normalizeZero.normalizeList,
      Bool.and_eq_true, List.cons.injEq]
    exact ⟨⟨(ihx h.1).1, (ihxs h.2).1⟩, (ihx h.1).2, (ihxs h.2).2⟩
  · intro _
    simp [GoValue.nanFree.nanFreeFields, GoValue.normalizeZero.normalizeFields]
  · intro p fs ihp ihfs h
    obtain ⟨f, x⟩ := p
    simp only [GoValue.floatFree.floatFreeFields, Bool.and_eq_true] at h
    simp only [GoValue.nanFree.nanFreeFields, GoValue.normalizeZero.normalizeFields,
      Bool.and_eq_true, List.cons.injEq, Prod.mk.injEq, true_and]
    exact ⟨⟨(ihp h.1).1, (ihfs h.2).1⟩, (ihp h.1).2, (ihfs h.2).2⟩
  · intro f x ih h
    exact ih h

/-- Claim C18 fails for composite values that hold floats.  An array (or a
record) holding a NaN is not equal to itself for `valuesEqual`, although the two
operands are the same value of the same dynamic type; and the one-element
float32 arrays `[+0]` and `[-0]`, which are different values, are equal for
`valuesEqual`.  The same holds inside a record (`FuelInTank` of a car-status
record) and for float64 elements. -/
theorem valuesEqual_composite_counterexample :
    fIsNaN binary32 2143289344 = true ∧
    valuesEqual (GoValue.array [GoValue.float32 2143289344])
      (GoValue.array [GoValue.float32 2143289344]) = false ∧
    valuesEqual (GoValue.struct "CarStatusData" [("FuelInTank", GoValue.float32 2143289344)])
      (GoValue.struct "CarStatusData" [("FuelInTank", GoValue.float32 2143289344)]) = false ∧
    GoValue.array [GoValue.float32 0] ≠ GoValue.array [GoValue.float32 2147483648] ∧
    valuesEqual (GoValue.array [GoValue.float32 0])
      (GoValue.array [GoValue.float32 2147483648]) = true ∧
    GoValue.array [GoValue.float64 0] ≠ GoValue.array [GoValue.float64 9223372036854775808] ∧
    valuesEqual (GoValue.array [GoValue.float64 0])
      (GoValue.array [GoValue.float64 9223372036854775808]) = true := by
  refine ⟨by decide, by decide, by decide, by simp, by decide, by simp, by decide⟩

set_option maxRecDepth 100000 in
set_option exponentiation.threshold 4096 in
/-- Claim C18, amended.  Two float32 values are equal for `valuesEqual` exactly
when their difference, computed in float32, is finite and its absolute value is
below 10^-4 (the magnitude `d` counts units of 2^-149, so this reads
`d * 10^4 < 2^149`; the float64 constant the code compares with admits the
same differences).  Two float64 values are equal exactly when their difference
is finite and its absolute value is below the float64 constant `1e-7`,
7555786372591432 * 2^-76 (in units of 2^-1074); every such difference is below
10^-7, and a difference below 10^-7 other than the constant itself is below the
constant.  A float and a value of another type are never equal, in either
order.  A value without floats is equal to another value exactly when the two
are the same value of the same dynamic type.  Every value that is not itself a
float (integers, strings, arrays and records, with or without floats inside) is
equal to another value exactly when it holds no NaN at any depth and the two
values are the same once -0 is replaced by +0 in every float they hold: floats
inside arrays and records are compared with `==`, without tolerance; for a value
without floats this is the plain equality of the previous sentence.  Sample
values: 1.0 and 1.00005 are equal as float32, 1.0 and 1.0002 are not, 1000.0
and 1000.0001 are not (their float32 difference is 2^-13), a NaN is not equal
to itself; 2.0 and 2.00000001 are equal as float64, 0.0 and the constant 1e-7
are not; uint8 0 and int8 0 are not equal, uint8 3 and uint8 3 are; the arrays
`[1.0]` and `[1.00005]` of float32 are not equal, `[1.0]` and `[1.0]` are,
`[NaN]` is not equal to itself, `[+0]` and `[-0]` are equal. -/
theorem valuesEqual_spec :
    (∀ va vb, valuesEqual (GoValue.float32 va) (GoValue.float32 vb) = true ↔
      ∃ d, fSubAbs binary32 va vb = some d ∧ d * 10000 < 2 ^ 149) ∧
    (∀ va vb, valuesEqual (GoValue.float64 va) (GoValue.float64 vb) = true ↔
      ∃ d, fSubAbs binary64 va vb = some d ∧ d < 7555786372591432 * 2 ^ 998) ∧
    (∀ va vb d, fSubAbs binary64 va vb = some d →
      (d < 7555786372591432 * 2 ^ 998 → d * 10000000 < 2 ^ 1074) ∧
      (d * 10000000 < 2 ^ 1074 → d ≠ 7555786372591432 * 2 ^ 998 →
        d < 7555786372591432 * 2 ^ 998)) ∧
    (∀ va b, (∀ vb, b ≠ GoValue.float32 vb) → valuesEqual (GoValue.float32 va) b = false) ∧
    (∀ va b, (∀ vb, b ≠ GoValue.float64 vb) → valuesEqual (GoValue.float64 va) b = false) ∧
    (∀ a vb, (∀ va, a ≠ GoValue.float32 va) → valuesEqual a (GoValue.float32 vb) = false) ∧
    (∀ a vb, (∀ va, a ≠ GoValue.float64 va) → valuesEqual a (GoValue.float64 vb) = false) ∧
    (∀ a b, a.floatFree = true → (valuesEqual a b = true ↔ a = b)) ∧
    (∀ a b, (∀ va, a ≠ GoValue.float32 va) → (∀ va, a ≠ GoValue.float64 va) →
      (valuesEqual a b = true ↔ a.nanFree = true ∧ a.normalizeZero = b.normalizeZero)) ∧
    (∀ a : GoValue, a.floatFree = true → a.nanFree = true ∧ a.normalizeZero = a) ∧
    (∀ v, (GoValue.float32 v).nanFree = !fIsNaN binary32 v ∧
      (GoValue.float64 v).nanFree = !fIsNaN binary64 v ∧
      (GoValue.float32 v).normalizeZero
        = GoValue.float32 (if fIsZero binary32 v then 0 else v) ∧
      (GoValue.float64 v).normalizeZero
        = GoValue.float64 (if fIsZero binary64 v then 0 else v)) ∧
    valuesEqual (GoValue.float32 1065353216) (GoValue.float32 1065353635) = true ∧
    valuesEqual (GoValue.float32 1065353216) (GoValue.float32 1065354894) = false ∧
    valuesEqual (GoValue.float32 1148846080) (GoValue.float32 1148846082) = false ∧
    valuesEqual (GoValue.float32 2143289344) (GoValue.float32 2143289344) = false ∧
    valuesEqual (GoValue.float64 4611686018427387904) (GoValue.float64 4611686018449905902)
      = true ∧
    valuesEqual (GoValue.float64 0) (GoValue.float64 4502148214488346440) = false ∧
    valuesEqual (GoValue.int IntKind.uint8 0) (GoValue.int IntKind.int8 0) = false ∧
    valuesEqual (GoValue.int IntKind.uint8 3) (GoValue.int IntKind.uint8 3) = true ∧
    valuesEqual (GoValue.array [GoValue.float32 1065353216])
      (GoValue.array [GoValue.float32 1065353635]) = false ∧
    valuesEqual (GoValue.array [GoValue.float32 1065353216])
      (GoValue.array [GoValue.float32 1065353216]) = true ∧
    valuesEqual (GoValue.array [GoValue.float32 2143289344])
      (GoValue.array [GoValue.float32 2143289344]) = false ∧
    valuesEqual (GoValue.array [GoValue.float32 0])
      (GoValue.array [GoValue.float32 2147483648]) = true := by
  refine ⟨?_, ?_, fun va vb d h => threshold64 va vb d h, ?_, ?_, ?_, ?_, ?_, ?_,
    floatFree_nanFree_normalize, fun v => ⟨rfl, rfl, rfl, rfl⟩,
    by decide, by decide, by decide, by decide, by decide, by decide, by decide, by decide,
    by decide, by decide, by decide, by decide⟩
  · intro va vb
    have e : valuesEqual (GoValue.float32 va) (GoValue.float32 vb) = close32 va vb := rfl
    rw [e]
    unfold close32
    cases h : fSubAbs binary32 va vb with
    | none => simp
    | some d =>
      simp only [decide_eq_true_eq, Option.some.injEq, exists_eq_left']
      exact threshold32 va vb d h
  · intro va vb
    have e : valuesEqual (GoValue.float64 va) (GoValue.float64 vb) = close64 va vb := rfl
    rw [e]
    unfold close64
    cases h : fSubAbs binary64 va vb with
    | none => simp
    | some d => simp only [decide_eq_true_eq, Option.some.injEq, exists_eq_left']
  · intro va b hb
    cases b <;> simp_all [valuesEqual]
  · intro va b hb
    cases b <;> simp_all [valuesEqual]
  · intro a vb ha
    cases a <;> simp_all [valuesEqual, deepEqual]
  · intro a vb ha
    cases a <;> simp_all [valuesEqual, deepEqual]
  · intro a b ha
    have e : valuesEqual a b = deepEqual a b := by
      cases a <;> simp_all [valuesEqual, GoValue.floatFree]
    rw [e]
    exact deepEqual_iff_eq a b ha
  · intro a b h32 h64
    have e : valuesEqual a b = deepEqual a b := by
      cases a <;> simp_all [valuesEqual]
    rw [e]
    exact deepEqual_iff_normalize a b

/-- The amended C18 at concrete values: the arrays `[-0, 3]` and `[+0, 3]` (a
float32 and a uint8) hold no NaN and are the same once -0 is replaced by +0, so
the characterisation of non-float operands makes them equal. -/
theorem valuesEqual_spec_witness :
    (GoValue.array [GoValue.float32 2147483648, GoValue.int IntKind.uint8 3]).nanFree = true ∧
    (GoValue.array [GoValue.float32 2147483648, GoValue.int IntKind.uint8 3]).normalizeZero
      = (GoValue.array [GoValue.float32 0, GoValue.int IntKind.uint8 3]).normalizeZero ∧
    valuesEqual (GoValue.array [GoValue.float32 2147483648, GoValue.int IntKind.uint8 3])
      (GoValue.array [GoValue.float32 0, GoValue.int IntKind.uint8 3]) = true :=
  ⟨rfl, rfl,
    (valuesEqual_spec.2.2.2.2.2.2.2.2.1 _ _ (by simp) (by simp)).mpr ⟨rfl, rfl⟩⟩

set_option maxRecDepth 100000 in
/-- Claim C11 fails in the code.  In the environment whose address table has
`Gear` and `TractionControl` enabled with allow-zero false, with both gate caches
empty: the 1349-byte CarTelemetry frame whose player car has gear 0 makes
`handleUDPPacket` send the OSC message `/car/gear 0`, and the all-zero 101-byte
TimeTrial frame, walked by `sendStructFieldsToOSC`, makes it send
`/status/traction_control 0`.  Both zeros are 8-bit integers, which neither the
zero test of the OSC walk nor the zero rule of `shouldSend` covers. -/
theorem zero_gear_sent_to_osc :
    frameTelemetryNeutral.length = 1349 ∧
    (burstAddresses "Gear").map (fun e => e.AllowZero) = some false ∧
    (∃ t w, decodeCarTelemetryPacket frameTelemetryNeutral = some t ∧ t.Gear = 0 ∧
      handleUDPPacket burstEnv frameTelemetryNeutral emptyWorld = some w ∧
      w.oscOut = [⟨"/car/gear", GoValue.int IntKind.int32 0⟩]) ∧
    frameTimeTrial101.length = 101 ∧
    (burstAddresses "TractionControl").map (fun e => e.AllowZero) = some false ∧
    (∃ w, handleUDPPacket burstEnv frameTimeTrial101 emptyWorld = some w ∧
      w.oscOut = [⟨"/status/traction_control", GoValue.int IntKind.int32 0⟩]) := by
  refine ⟨by decide, rfl, ⟨_, _, rfl, rfl, rfl, rfl⟩, by decide, rfl, _, rfl, ?_⟩
  rw [decodeAndBroadcast_ok burstEnv frameTimeTrial101 decodeTimeTrialPacket "TimeTrial"
    "PacketTimeTrialData" (decodeValue.decodeFields timeTrialFields
      (frameTimeTrial101.take 101)).1 emptyWorld rfl, sendStructFieldsToOSC_eq_foldl]
  rfl

set_option maxRecDepth 100000 in
/-- Claim C13 at the all-zero CarStatus frame, from the empty state, with a clock
that stands still. -/
theorem carStatus_frame_twice_witness :
    burstEnv.Config.BroadcastRateHz = 2 ∧ frameCarStatus1239.length = 1239 ∧
    frameCarStatus1239[6]? = some 7 ∧ (∀ k, emptyWorld.lastSentWS k = none) ∧
    ∃ w1 new, handleUDPPacket burstEnv frameCarStatus1239 emptyWorld = some w1 ∧
      w1.wsOut = emptyWorld.wsOut ++ new ∧
      (∀ key, (new.filter (fun m => m.key? = some key)).length ≤ 1) ∧
      ∃ w2, handleUDPPacket burstEnv frameCarStatus1239 w1 = some w2 ∧ w2.wsOut = w1.wsOut := by
  refine ⟨rfl, by decide, by decide, fun _ => rfl, ?_⟩
  obtain ⟨w1, new, h1, h2, h3, h4⟩ := carStatus_frame_twice burstEnv frameCarStatus1239
    emptyWorld rfl (by decide) (by decide) (fun _ => rfl)
  exact ⟨w1, new, h1, h2, h3, h4 (fun i j _ _ _ => by simp [burstEnv])⟩
/-- Claim C17 at the rates 2, 0, -5 and 3: the intervals are 500 ms, 500 ms,
500 ms and 333333333 ns. -/
theorem getBroadcastInterval_spec_witness :
    getBroadcastInterval ⟨true, 2⟩ = 500000000 ∧
    getBroadcastInterval ⟨true, 0⟩ = 500000000 ∧
    getBroadcastInterval ⟨true, -5⟩ = 500000000 ∧
    (getBroadcastInterval ⟨true, 3⟩ * 3 ≤ 1000000000 ∧
      1000000000 < (getBroadcastInterval ⟨true, 3⟩ + 1) * 3) ∧
    getBroadcastInterval ⟨true, 3⟩ = 333333333 :=
  ⟨(getBroadcastInterval_spec ⟨true, 2⟩).2.2.1 rfl,
    (getBroadcastInterval_spec ⟨true, 0⟩).1 (by decide),
    (getBroadcastInterval_spec ⟨true, -5⟩).1 (by decide),
    (getBroadcastInterval_spec ⟨true, 3⟩).2.1 (by decide), by decide⟩

set_option maxRecDepth 100000 in
/-- Claim C15 at the Session sample frame: the decoder succeeds and the header of
the record is the reference header of the frame. -/
theorem decoded_header_fields_witness :
    ((1 : UInt8), decodeSessionPacket, PacketSessionData, 753) ∈ decoderTable ∧
    (decodeSessionPacket frameSessionCold).2 = none ∧
    29 ≤ frameSessionCold.length ∧
    (decodeSessionPacket frameSessionCold).1.field "Header"
      = some (headerReference frameSessionCold) :=
  ⟨by simp [decoderTable], by decide,
    (decoded_header_fields frameSessionCold).1 1 decodeSessionPacket PacketSessionData 753
      (by simp [decoderTable]) (by decide)⟩

theorem gateOSC_ws (env : Env) (entry : OSCAddressEntry) (value : GoValue) (sendZero : Bool)
    (w : World) :
    (gateOSC env entry value sendZero w).wsOut = w.wsOut ∧
    (gateOSC env entry value sendZero w).lastSentWS = w.lastSentWS := by
  unfold gateOSC sendOSC
  split <;> (try split) <;> simp

theorem gateOSC_rejected (env : Env) (entry : OSCAddressEntry) (value : GoValue) (w : World)
    (h : shouldSend env.Config (env.clock w.clockReads) entry.Address value w.lastSentOSC
      = false) :
    gateOSC env entry value false w = { w with clockReads := w.clockReads + 1 } := by
  simp [gateOSC, h]

theorem gateWS_rejected (env : Env) (key : String) (value : GoValue) (m : WSMessage) (w : World)
    (h : shouldSend env.Config (env.clock w.clockReads) key value w.lastSentWS = false) :
    gateWS env key value m w = { w with clockReads := w.clockReads + 1 } := by
  simp [gateWS, h]

set_option maxRecDepth 100000 in
set_option exponentiation.threshold 4096 in
/-- Claim C25.  With OSC enabled `sendOSC` hands the client the address and the
converted value, and with OSC disabled it sends nothing.  The conversion turns
a uint8, uint16, int8 or int16 into the int32 with the same numeric value, a
uint32 `n` (with `0 ≤ n < 2^32`) into the int32 `n` when `n < 2^31` and
`n - 2^32` otherwise (a value of the int32 range), and a float64 into the
float32 nearest to it; values of type int, int32, int64, uint, uint64, float32,
strings, arrays and records are passed on unchanged.  Sample conversions of
float64 bit patterns: 1.0, 0.1 and -2.5 give the float32 patterns of 1.0,
0.1 (rounded) and -2.5, 16777217 rounds to 16777216, 1e39 overflows to +Inf,
1e-40 gives a subnormal, 1e-50 gives 0. -/
theorem sendOSC_conversion (env : Env) (address : String) (w : World) :
    (∀ v, env.Config.EnableOSC = true →
      sendOSC env address v w = { w with oscOut := w.oscOut ++ [⟨address, oscConvert v⟩] }) ∧
    (∀ v, env.Config.EnableOSC = false → sendOSC env address v w = w) ∧
    (∀ n : Int, oscConvert (GoValue.int IntKind.uint8 n) = GoValue.int IntKind.int32 n ∧
      oscConvert (GoValue.int IntKind.uint16 n) = GoValue.int IntKind.int32 n ∧
      oscConvert (GoValue.int IntKind.int8 n) = GoValue.int IntKind.int32 n ∧
      oscConvert (GoValue.int IntKind.int16 n) = GoValue.int IntKind.int32 n) ∧
    (∀ n : Int, 0 ≤ n → n < 2 ^ 32 →
      oscConvert (GoValue.int IntKind.uint32 n)
        = GoValue.int IntKind.int32 (if n < 2 ^ 31 then n else n - 2 ^ 32) ∧
      -(2 : Int) ^ 31 ≤ (if n < 2 ^ 31 then n else n - 2 ^ 32) ∧
      (if n < 2 ^ 31 then n else n - 2 ^ 32) < 2 ^ 31) ∧
    (∀ b, oscConvert (GoValue.float64 b) = GoValue.float32 (f64to32 b)) ∧
    (∀ n : Int, oscConvert (GoValue.int IntKind.int n) = GoValue.int IntKind.int n ∧
      oscConvert (GoValue.int IntKind.int32 n) = GoValue.int IntKind.int32 n ∧
      oscConvert (GoValue.int IntKind.int64 n) = GoValue.int IntKind.int64 n ∧
      oscConvert (GoValue.int IntKind.uint n) = GoValue.int IntKind.uint n ∧
      oscConvert (GoValue.int IntKind.uint64 n) = GoValue.int IntKind.uint64 n) ∧
    (∀ b, oscConvert (GoValue.float32 b) = GoValue.float32 b) ∧
    (∀ s, oscConvert (GoValue.str s) = GoValue.str s) ∧
    (∀ xs, oscConvert (GoValue.array xs) = GoValue.array xs) ∧
    (∀ n fs, oscConvert (GoValue.struct n fs) = GoValue.struct n fs) ∧
    f64to32 4607182418800017408 = 1065353216 ∧
    f64to32 4591870180066957722 = 1036831949 ∧
    f64to32 13836183955189006336 = 3223322624 ∧
    f64to32 4715268810125344768 = 1266679808 ∧
    f64to32 5190260616003865117 = 2139095040 ∧
    f64to32 4008604054463141788 = 71362 ∧
    f64to32 3859002664735258655 = 0 := by
  refine ⟨fun v h => by simp [sendOSC, h], fun v h => by simp [sendOSC, h],
    fun n => ⟨rfl, rfl, rfl, rfl⟩, fun n h0 h1 => ?_, fun b => rfl,
    fun n => ⟨rfl, rfl, rfl, rfl, rfl⟩, fun b => rfl, fun s => rfl, fun xs => rfl,
    fun n fs => rfl, by decide, by decide, by decide, by decide, by decide, by decide,
    by decide⟩
  have e : n % 2 ^ 32 = n := Int.emod_eq_of_lt h0 h1
  refine ⟨by simp only [oscConvert, e], ?_, ?_⟩ <;> split_ifs <;> omega

/-- Claim C26.  The Event record type is 57 bytes wide (29 + 4 + 24), and
`decodeEventPacket` returns a record without error exactly when the frame has at
least 57 bytes.  On every shorter frame it returns the all-zero record; on a
frame of 45 to 56 bytes, which passes the 45-byte guard, the error is
`ErrUnexpectedEOF`.  Hence `handleUDPPacket` leaves the state unchanged, and
sends nothing, on every Event frame shorter than 57 bytes, in particular on
every Event frame of 45 bytes. -/
theorem decodeEventPacket_needs_57_bytes (data : List UInt8) :
    PacketEventData.sizeof = some 57 ∧ PacketHeader.sizeof = some 29 ∧
    ((decodeEventPacket data).2 = none ↔ 57 ≤ data.length) ∧
    (data.length < 57 → (decodeEventPacket data).1 = zeroValue PacketEventData) ∧
    (45 ≤ data.length → data.length < 57 →
      (decodeEventPacket data).2 = some DecodeError.ErrUnexpectedEOF) ∧
    (∀ env w, data.length < 57 → data[6]? = some 3 → handleUDPPacket env data w = some w) ∧
    (∀ env w, data.length = 45 → data[6]? = some 3 → handleUDPPacket env data w = some w) := by
  have hiff : (decodeEventPacket data).2 = none ↔ 57 ≤ data.length := by
    unfold decodeEventPacket
    by_cases h45 : data.length < 45
    · rw [if_pos h45]
      constructor
      · intro h; exact absurd h (by simp)
      · intro h; omega
    · rw [if_neg h45]
      by_cases h57 : data.length < 57
      · rw [binaryRead_short _ 57 sizeof_PacketEventData data h57]
        constructor
        · intro h; exact absurd h (by simp)
        · intro h; omega
      · rw [binaryRead_enough _ 57 sizeof_PacketEventData data (Nat.not_lt.mp h57)]
        exact ⟨fun _ => Nat.not_lt.mp h57, fun _ => rfl⟩
  have hmem : ((3 : UInt8), decodeEventPacket, PacketEventData, 45) ∈ decoderTable := by
    simp [decoderTable]
  have herr : data.length < 57 → (decodeEventPacket data).2 ≠ none := fun h hn => by
    have := hiff.mp hn
    omega
  refine ⟨sizeof_PacketEventData, by decide, hiff, fun h => ?_, fun h45 h57 => ?_,
    fun env w h h6 => ?_, fun env w h h6 => ?_⟩
  · exact decoderTable_error_zero 3 _ _ 45 hmem data (herr h)
  · unfold decodeEventPacket
    rw [if_neg (by omega), binaryRead_short _ 57 sizeof_PacketEventData data h57,
      if_neg (by omega)]
  · exact handleUDPPacket_of_error env w 3 _ _ 45 hmem data (herr h) h6
  · exact handleUDPPacket_of_error env w 3 _ _ 45 hmem data (herr (by omega)) h6

theorem foldl_telemetryStep_ws (env : Env) (t : CarTelemetryData) (L : List String) :
    ∀ w, (L.foldl (telemetryStep env t) w).wsOut = w.wsOut ∧
      (L.foldl (telemetryStep env t) w).lastSentWS = w.lastSentWS := by
  induction L with
  | nil => intro w; exact ⟨rfl, rfl⟩
  | cons k L ih =>
    intro w
    have hs : (telemetryStep env t w k).wsOut = w.wsOut ∧
        (telemetryStep env t w k).lastSentWS = w.lastSentWS := by
      unfold telemetryStep
      split
      · split
        · exact gateOSC_ws env _ _ _ w
        · exact ⟨rfl, rfl⟩
      · exact ⟨rfl, rfl⟩
    simp only [List.foldl_cons]
    rw [(ih _).1, (ih _).2]
    exact hs

theorem telemetryReference_RPM (data : List UInt8) : (telemetryReference data).RPM = 0 := by
  unfold telemetryReference
  split <;> rfl

/-- Claim C28.  For every configuration, clock reading, key and cache (so for
the cache of either sink) `shouldSend` returns false for a zero of type int,
int32, int64, uint, uint32 or uint64 and for a float32 or float64 that is +0 or
-0.  A zero of type uint8, uint16, int8 or int16 is not covered by the rule: it
is admitted when its key has no cache entry.  Hence a float32 zero offered to
the WebSocket gate or to the OSC gate is not sent, and the CarTelemetry path
sends no OSC message for a zero Throttle. -/
theorem shouldSend_zero_rule (cfg : AppConfig) (now : Int) (key : String) (cache : Cache) :
    (∀ k ∈ [IntKind.int, IntKind.int32, IntKind.int64, IntKind.uint, IntKind.uint32,
        IntKind.uint64], shouldSend cfg now key (GoValue.int k 0) cache = false) ∧
    (∀ b, fIsZero binary32 b = true → shouldSend cfg now key (GoValue.float32 b) cache = false) ∧
    (∀ b, fIsZero binary64 b = true → shouldSend cfg now key (GoValue.float64 b) cache = false) ∧
    (fIsZero binary32 0 = true ∧ fIsZero binary32 (2 ^ 31) = true ∧
      fIsZero binary64 0 = true ∧ fIsZero binary64 (2 ^ 63) = true) ∧
    (∀ k ∈ [IntKind.uint8, IntKind.uint16, IntKind.int8, IntKind.int16],
      cache key = none → shouldSend cfg now key (GoValue.int k 0) cache = true) ∧
    (∀ (env : Env) (m : WSMessage) (w : World) b, fIsZero binary32 b = true →
      (gateWS env key (GoValue.float32 b) m w).wsOut = w.wsOut) ∧
    (∀ (env : Env) (entry : OSCAddressEntry) (w : World) b, fIsZero binary32 b = true →
      (gateOSC env entry (GoValue.float32 b) false w).oscOut = w.oscOut) ∧
    (∀ (env : Env) (t : CarTelemetryData) (w : World), fIsZero binary32 t.Throttle = true →
      (telemetryStep env t w "Throttle").oscOut = w.oscOut) := by
  refine ⟨fun k hk => ?_, fun b hb => shouldSend_of_ignoredZero _ _ _ _ _ hb,
    fun b hb => shouldSend_of_ignoredZero _ _ _ _ _ hb, by decide, fun k hk hn => ?_,
    fun env m w b hb => ?_, fun env entry w b hb => ?_, fun env t w hb => ?_⟩
  · apply shouldSend_of_ignoredZero
    simp only [List.mem_cons, List.mem_singleton, List.not_mem_nil, or_false] at hk
    rcases hk with rfl | rfl | rfl | rfl | rfl | rfl <;> rfl
  · rw [shouldSend_no_entry _ _ _ _ _ hn]
    simp only [List.mem_cons, List.mem_singleton, List.not_mem_nil, or_false] at hk
    rcases hk with rfl | rfl | rfl | rfl <;> rfl
  · rw [gateWS_rejected env key _ m w
      (shouldSend_of_ignoredZero _ _ _ (GoValue.float32 b) _ hb)]
  · rw [gateOSC_rejected env entry _ w
      (shouldSend_of_ignoredZero _ _ _ (GoValue.float32 b) _ hb)]
  · have hl : (telemetryFields t).lookup "Throttle" = some (GoValue.float32 t.Throttle) := by
      simp [telemetryFields, List.lookup]
    unfold telemetryStep
    rw [hl]
    simp only
    split
    · rename_i entry _
      rw [gateOSC_rejected env entry _ w
        (shouldSend_of_ignoredZero _ _ _ (GoValue.float32 t.Throttle) _ hb)]
    · rfl

/-- Claim C30.  On every frame whose packet id is 6 `handleUDPPacket` returns a
state.  The record `decodeCarTelemetryPacket` returns has RPM 0, so the summary
text ends in `| RPM 0`.  Either no WebSocket message is sent and the WebSocket
cache is unchanged, or `shouldSend` admitted the summary text under the key
`CarTelemetry/summary`, exactly one WebSocket message, the summary text, is
sent, and the cache is updated under that key only. -/
theorem telemetry_single_summary (env : Env) (data : List UInt8) (w : World)
    (h6 : data[6]? = some 6) :
    decodeCarTelemetryPacket data = some (telemetryReference data) ∧
    (telemetryReference data).RPM = 0 ∧
    telemetrySummary (telemetryReference data)
      = "CarTelemetry/Speed " ++ toString (telemetryReference data).Speed
        ++ " | Throttle " ++ fmtF2 (telemetryReference data).Throttle
        ++ " | Steer " ++ fmtF2 (telemetryReference data).Steer
        ++ " | Brake " ++ fmtF2 (telemetryReference data).Brake
        ++ " | Clutch " ++ toString (telemetryReference data).Clutch
        ++ " | Gear " ++ toString (telemetryReference data).Gear ++ " | RPM " ++ "0" ∧
    ∃ w1, handleUDPPacket env data w = some w1 ∧
      ((w1.wsOut = w.wsOut ∧ w1.lastSentWS = w.lastSentWS) ∨
       (shouldSend env.Config (env.clock w.clockReads) "CarTelemetry/summary"
          (GoValue.str (telemetrySummary (telemetryReference data))) w.lastSentWS = true ∧
        w1.wsOut = w.wsOut ++ [WSMessage.text (telemetrySummary (telemetryReference data))] ∧
        w1.lastSentWS = updateLastSent (env.clock (w.clockReads + 1)) "CarTelemetry/summary"
          (GoValue.str (telemetrySummary (telemetryReference data))) w.lastSentWS)) := by
  refine ⟨decodeCarTelemetryPacket_eq data, telemetryReference_RPM data, ?_, ?_⟩
  · have e0 : toString (0 : Nat) = "0" := by decide
    unfold telemetrySummary
    rw [telemetryReference_RPM, e0]
  · unfold handleUDPPacket
    by_cases h24 : data.length < 24
    · rw [if_pos h24]
      exact ⟨w, rfl, Or.inl ⟨rfl, rfl⟩⟩
    rw [if_neg h24, h6]
    by_cases hen : (!(env.PacketForwardingConfig 6).getD false) = true
    · simp only [hen, if_true]
      exact ⟨w, rfl, Or.inl ⟨rfl, rfl⟩⟩
    simp only [hen]
    have e6 : (6 : UInt8).toNat = 6 := rfl
    simp only [e6, decodeCarTelemetryPacket_eq, Option.map_some']
    refine ⟨broadcastTelemetryFields env (telemetryReference data) w, by simp, ?_⟩
    unfold broadcastTelemetryFields
    simp only
    rw [(foldl_telemetryStep_ws env _ _ _).1, (foldl_telemetryStep_ws env _ _ _).2]
    by_cases hs : shouldSend env.Config (env.clock w.clockReads) "CarTelemetry/summary"
        (GoValue.str (telemetrySummary (telemetryReference data))) w.lastSentWS = true
    · right
      refine ⟨hs, ?_, ?_⟩ <;> simp [gateWS, hs, broadcast]
    · left
      simp [gateWS, hs]

set_option maxRecDepth 100000 in
/-- Claim C30 at the 1381-byte sample frame of car 3, from the empty state: the
one WebSocket message is the summary with speed 4660, throttle 1.00 and gear
-1. -/
theorem telemetry_single_summary_witness :
    frameTelemetryCar3[6]? = some 6 ∧
    decodeCarTelemetryPacket frameTelemetryCar3 = some (telemetryReference frameTelemetryCar3) ∧
    (telemetryReference frameTelemetryCar3).RPM = 0 ∧
    (∃ w1, handleUDPPacket sampleEnv frameTelemetryCar3 emptyWorld = some w1 ∧
      w1.wsOut = [WSMessage.text
        "CarTelemetry/Speed 4660 | Throttle 1.00 | Steer 0.00 | Brake 0.00 | Clutch 7 | Gear -1 | RPM 0"]) :=
  ⟨by decide,
    (telemetry_single_summary sampleEnv frameTelemetryCar3 emptyWorld (by decide)).1,
    (telemetry_single_summary sampleEnv frameTelemetryCar3 emptyWorld (by decide)).2.1,
    _, rfl, rfl⟩

theorem oscElems_cons (env : Env) (name : String) (len : Nat) (elem : GoValue)
    (rest : List GoValue) (j : Nat) (w : World) :
    sendStructFieldsToOSC.oscElems env name len (elem :: rest) j w
      = sendStructFieldsToOSC.oscElems env name len rest (j + 1)
          (sendStructFieldsToOSC env elem (oscLookupSend env (oscElemKey name len j) elem w)) := by
  rw [sendStructFieldsToOSC.oscElems]
  cases elem <;> cases h : lookupOSC env (oscElemKey name len j) <;>
    simp_all [oscLookupSend, oscElemKey, sendStructFieldsToOSC]

theorem oscElems_nil (env : Env) (name : String) (len j : Nat) (w : World) :
    sendStructFieldsToOSC.oscElems env name len [] j w = w := by
  rw [sendStructFieldsToOSC.oscElems]

theorem oscFields_array (env : Env) (name : String) (elems : List GoValue)
    (rest : List (String × GoValue)) (w : World) :
    sendStructFieldsToOSC.oscFields env ((name, GoValue.array elems) :: rest) w
      = sendStructFieldsToOSC.oscFields env rest
          (sendStructFieldsToOSC.oscElems env name elems.length elems 0
            (oscLookupSend env name (GoValue.array elems) w)) := by
  rw [sendStructFieldsToOSC.oscFields]
  cases h : lookupOSC env name <;> simp [oscLookupSend, h, inZeroCase]

theorem oscLookupSend_spec (env : Env) (key : String) (value : GoValue) (w : World) :
    ((oscLookupSend env key value w).oscOut = w.oscOut ∧
      (oscLookupSend env key value w).lastSentOSC = w.lastSentOSC) ∨
    ∃ entry, env.OSCAddresses key = some entry ∧ entry.Enabled = true ∧
      env.Config.EnableOSC = true ∧
      shouldSend env.Config (env.clock w.clockReads) entry.Address value w.lastSentOSC = true ∧
      (oscLookupSend env key value w).oscOut
        = w.oscOut ++ [⟨entry.Address, oscConvert value⟩] ∧
      (oscLookupSend env key value w).lastSentOSC
        = updateLastSent (env.clock (w.clockReads + 1)) entry.Address value w.lastSentOSC := by
  unfold oscLookupSend
  cases h : lookupOSC env key with
  | none => exact Or.inl ⟨rfl, rfl⟩
  | some entry =>
    have hen := lookupOSC_enabled env key entry h
    simp only
    by_cases hs : shouldSend env.Config (env.clock w.clockReads) entry.Address value
        w.lastSentOSC = true
    · right
      refine ⟨entry, ?_, ?_, hen, hs, by simp [gateOSC, hs, sendOSC, hen],
        by simp [gateOSC, hs, sendOSC, hen]⟩
      · unfold lookupOSC at h
        split at h
        · split at h
          · simp_all
          · exact absurd h (by simp)
        · exact absurd h (by simp)
      · unfold lookupOSC at h
        split at h
        · split at h
          · simp_all
          · exact absurd h (by simp)
        · exact absurd h (by simp)
    · left
      simp [gateOSC, hs]

theorem sendStructFieldsToOSC_scalar (env : Env) (v : GoValue) (w : World)
    (h : ∀ n fs, v ≠ GoValue.struct n fs) : sendStructFieldsToOSC env v w = w := by
  cases v with
  | struct n fs => exact absurd rfl (h n fs)
  | _ => rfl

set_option maxRecDepth 100000 in
/-- Claim C21.  In the OSC walk the element loop over a 4-element array field
`F` looks element 0 up under `F ++ "RL"`, element 1 under `F ++ "RR"`, element 2
under `F ++ "FL"` and element 3 under `F ++ "FR"`, in this order, entering an
element that is a record after its lookup; the loop runs after the lookup of the
whole field under `F`.  A lookup either changes neither the OSC output nor the
OSC cache, or it found an enabled entry with OSC on, the gate admitted the value
under the entry's address, and the converted value is sent to that address.
In the sample environment the array `WheelSpeed = [1.0, 2.0, 3.0, 4.0]` is sent
to the four wheel addresses rl, rr, fl, fr. -/
theorem osc_wheel_keys (env : Env) (F : String) (e0 e1 e2 e3 : GoValue) (w : World) :
    sendStructFieldsToOSC.oscElems env F 4 [e0, e1, e2, e3] 0 w
      = sendStructFieldsToOSC env e3 (oscLookupSend env (F ++ "FR") e3
          (sendStructFieldsToOSC env e2 (oscLookupSend env (F ++ "FL") e2
            (sendStructFieldsToOSC env e1 (oscLookupSend env (F ++ "RR") e1
              (sendStructFieldsToOSC env e0 (oscLookupSend env (F ++ "RL") e0 w))))))) ∧
    (∀ rest,
      sendStructFieldsToOSC.oscFields env ((F, GoValue.array [e0, e1, e2, e3]) :: rest) w
        = sendStructFieldsToOSC.oscFields env rest
            (sendStructFieldsToOSC.oscElems env F 4 [e0, e1, e2, e3] 0
              (oscLookupSend env F (GoValue.array [e0, e1, e2, e3]) w))) ∧
    (∀ key value w0,
      ((oscLookupSend env key value w0).oscOut = w0.oscOut ∧
        (oscLookupSend env key value w0).lastSentOSC = w0.lastSentOSC) ∨
      ∃ entry, env.OSCAddresses key = some entry ∧ entry.Enabled = true ∧
        env.Config.EnableOSC = true ∧
        shouldSend env.Config (env.clock w0.clockReads) entry.Address value w0.lastSentOSC
          = true ∧
        (oscLookupSend env key value w0).oscOut
          = w0.oscOut ++ [⟨entry.Address, oscConvert value⟩] ∧
        (oscLookupSend env key value w0).lastSentOSC
          = updateLastSent (env.clock (w0.clockReads + 1)) entry.Address value
              w0.lastSentOSC) ∧
    (sendStructFieldsToOSC slowEnv (GoValue.struct "PacketMotionExData"
        [("WheelSpeed", GoValue.array [GoValue.float32 0x3F800000, GoValue.float32 0x40000000,
          GoValue.float32 0x40400000, GoValue.float32 0x40800000])]) emptyWorld).oscOut
      = [⟨"/motion_ex/wheel_speed/rl", GoValue.float32 0x3F800000⟩,
         ⟨"/motion_ex/wheel_speed/rr", GoValue.float32 0x40000000⟩,
         ⟨"/motion_ex/wheel_speed/fl", GoValue.float32 0x40400000⟩,
         ⟨"/motion_ex/wheel_speed/fr", GoValue.float32 0x40800000⟩] := by
  refine ⟨?_, fun rest => oscFields_array env F _ rest w,
    fun key value w0 => oscLookupSend_spec env key value w0, ?_⟩
  · rw [oscElems_cons, oscElems_cons, oscElems_cons, oscElems_cons, oscElems_nil]
    rfl
  · rw [sendStructFieldsToOSC_eq_foldl]
    rfl

set_option maxRecDepth 100000 in
/-- Claim C22, as stated, fails.  The sample table has an entry under the bare
key `EventDetails` and entries under the indexed spellings `EventDetails0`,
`EventDetails[0]` and `EventDetails_0`, all enabled.  Walking a record whose
field `EventDetails` is the 3-element array `[5, 6, 7]`, with a clock that never
throttles, sends the whole array and then each of the three elements to the
address of the bare key; nothing is sent to the address of an indexed key. -/
theorem osc_index_key_counterexample :
    (wheelAddresses "EventDetails").map (fun e => e.Address) = some "/event/details" ∧
    (wheelAddresses "EventDetails0").map (fun e => e.Address) = some "/event/details/0" ∧
    (wheelAddresses "EventDetails[0]").map (fun e => e.Address) = some "/event/details/0" ∧
    (wheelAddresses "EventDetails_0").map (fun e => e.Address) = some "/event/details/0" ∧
    (sendStructFieldsToOSC slowEnv (GoValue.struct "PacketEventData"
        [("EventDetails", GoValue.array [GoValue.int IntKind.uint8 5,
          GoValue.int IntKind.uint8 6, GoValue.int IntKind.uint8 7])]) emptyWorld).oscOut
      = [⟨"/event/details", GoValue.array [GoValue.int IntKind.uint8 5,
           GoValue.int IntKind.uint8 6, GoValue.int IntKind.uint8 7]⟩,
         ⟨"/event/details", GoValue.int IntKind.int32 5⟩,
         ⟨"/event/details", GoValue.int IntKind.int32 6⟩,
         ⟨"/event/details", GoValue.int IntKind.int32 7⟩] := by
  refine ⟨rfl, rfl, rfl, rfl, ?_⟩
  rw [sendStructFieldsToOSC_eq_foldl]
  rfl

/-- Claim C22, amended.  In the OSC walk every element of an array field `F`
whose length is not 4 is looked up under the bare field name `F`: the element
loop offers the elements in index order, each under the key `F`, entering an
element that is a record after its lookup; all elements of the array share one
key. -/
theorem osc_array_bare_key (env : Env) (F : String) (len : Nat) (h : len ≠ 4)
    (elems : List GoValue) :
    (∀ j, oscElemKey F len j = F) ∧
    ∀ j w, sendStructFieldsToOSC.oscElems env F len elems j w
      = elems.foldl (fun w0 e => sendStructFieldsToOSC env e (oscLookupSend env F e w0)) w := by
  have hk : ∀ j, oscElemKey F len j = F := fun j => by simp [oscElemKey, h]
  refine ⟨hk, ?_⟩
  induction elems with
  | nil => intro j w; rw [oscElems_nil]; rfl
  | cons e rest ih =>
    intro j w
    rw [oscElems_cons, hk, ih, List.foldl_cons]

/-- The amended claim C22 at a 3-element array: the key of elements 0, 1 and 2
is the bare name, and the loop is the run of the three lookups under it. -/
theorem osc_array_bare_key_witness :
    (3 : Nat) ≠ 4 ∧
    oscElemKey "EventDetails" 3 0 = "EventDetails" ∧
    oscElemKey "EventDetails" 3 1 = "EventDetails" ∧
    oscElemKey "EventDetails" 3 2 = "EventDetails" ∧
    sendStructFieldsToOSC.oscElems slowEnv "EventDetails" 3
        [GoValue.int IntKind.uint8 5, GoValue.int IntKind.uint8 6, GoValue.int IntKind.uint8 7]
        0 emptyWorld
      = [GoValue.int IntKind.uint8 5, GoValue.int IntKind.uint8 6,
          GoValue.int IntKind.uint8 7].foldl
          (fun w0 e => sendStructFieldsToOSC slowEnv e
            (oscLookupSend slowEnv "EventDetails" e w0)) emptyWorld :=
  ⟨by decide,
    (osc_array_bare_key slowEnv "EventDetails" 3 (by decide) []).1 0,
    (osc_array_bare_key slowEnv "EventDetails" 3 (by decide) []).1 1,
    (osc_array_bare_key slowEnv "EventDetails" 3 (by decide) []).1 2,
    (osc_array_bare_key slowEnv "EventDetails" 3 (by decide) _).2 0 emptyWorld⟩

theorem lookupOSC_spec (env : Env) (key : String) (entry : OSCAddressEntry)
    (h : lookupOSC env key = some entry) :
    env.OSCAddresses key = some entry ∧ entry.Enabled = true ∧
      env.Config.EnableOSC = true := by
  unfold lookupOSC at h
  split at h
  · split at h
    · rename_i e he hc
      simp only [Bool.and_eq_true] at hc
      injection h with h
      subst h
      exact ⟨he, hc.1, hc.2⟩
    · exact absurd h (by simp)
  · exact absurd h (by simp)

theorem lookupOSC_eq_none (env : Env) (key : String)
    (h : env.OSCAddresses key = none ∨ env.Config.EnableOSC = false ∨
      ∃ entry, env.OSCAddresses key = some entry ∧ entry.Enabled = false) :
    lookupOSC env key = none := by
  unfold lookupOSC
  rcases h with h | h | ⟨entry, h1, h2⟩
  · rw [h]
  · cases env.OSCAddresses key <;> simp [h]
  · rw [h1]; simp [h2]

theorem oscHead_viaTable (env : Env) (name : String) (field : GoValue)
    (h : List OSCRequest) (hh : oscHead env name field = some h) :
    ∀ r ∈ h, ∃ key, lookupOSC env key = some r.1 := by
  unfold oscHead at hh
  split at hh
  · rename_i entry he
    split at hh
    · exact absurd hh (by simp)
    · injection hh with hh
      subst hh
      intro r hr
      simp only [List.mem_singleton] at hr
      subst hr
      exact ⟨name, he⟩
  · injection hh with hh
    subst hh
    intro r hr
    exact absurd hr (by simp)

theorem oscElemHead_viaTable (env : Env) (key : String) (elem : GoValue) :
    ∀ r ∈ oscElemHead env key elem, ∃ key, lookupOSC env key = some r.1 := by
  unfold oscElemHead
  split
  · rename_i entry he
    intro r hr
    simp only [List.mem_singleton] at hr
    subst hr
    exact ⟨key, he⟩
  · intro r hr
    exact absurd hr (by simp)

theorem oscLeaves_viaTable (env : Env) (fs : List (String × GoValue)) :
    ∀ r ∈ oscLeaves env fs, ∃ key, lookupOSC env key = some r.1 := by
  refine oscLeaves.induct env
    (fun v => ∀ name, ∀ r ∈ oscFieldLeaves env v name, ∃ key, lookupOSC env key = some r.1)
    (fun elems => ∀ name len j, ∀ r ∈ oscElemLeaves env elems name len j,
      ∃ key, lookupOSC env key = some r.1)
    (fun v => ∀ r ∈ oscElemLeaf env v, ∃ key, lookupOSC env key = some r.1)
    (fun fs => ∀ r ∈ oscLeaves env fs, ∃ key, lookupOSC env key = some r.1)
    ?_ ?_ ?_ ?_ ?_ ?_ ?_ ?_ ?_ fs
  · intro n fs ih name r hr
    simp only [oscFieldLeaves] at hr
    cases hh : oscHead env name (GoValue.struct n fs) with
    | none => rw [hh] at hr; exact absurd hr (by simp)
    | some h =>
      rw [hh] at hr
      simp only [List.mem_append] at hr
      rcases hr with hr | hr
      · exact oscHead_viaTable env name _ h hh r hr
      · exact ih r hr
  · intro elems ih name r hr
    simp only [oscFieldLeaves] at hr
    cases hh : oscHead env name (GoValue.array elems) with
    | none => rw [hh] at hr; exact absurd hr (by simp)
    | some h =>
      rw [hh] at hr
      simp only [List.mem_append] at hr
      rcases hr with hr | hr
      · exact oscHead_viaTable env name _ h hh r hr
      · exact ih name _ 0 r hr
  · intro t h1 h2 name r hr
    cases t with
    | struct n fs => exact absurd rfl (h1 n fs)
    | array elems => exact absurd rfl (h2 elems)
    | _ =>
      simp only [oscFieldLeaves] at hr
      split at hr
      · exact absurd hr (by simp)
      · rename_i h hh
        exact oscHead_viaTable env name _ h hh r hr
  · intro n fs ih r hr
    simp only [oscElemLeaf] at hr
    exact ih r hr
  · intro t h1 r hr
    have e : oscElemLeaf env t = [] := by
      cases t with
      | struct n fs => exact absurd rfl (h1 n fs)
      | _ => simp only [oscElemLeaf]
    rw [e] at hr
    exact absurd hr (by simp)
  · intro name len j r hr
    simp only [oscElemLeaves] at hr
    exact absurd hr (by simp)
  · intro elem rest ih1 ih2 name len j r hr
    simp only [oscElemLeaves, List.mem_append] at hr
    rcases hr with (hr | hr) | hr
    · exact oscElemHead_viaTable env _ elem r hr
    · exact ih1 r hr
    · exact ih2 name len (j + 1) r hr
  · intro r hr
    simp only [oscLeaves] at hr
    exact absurd hr (by simp)
  · intro name field rest ih1 ih2 r hr
    simp only [oscLeaves, List.mem_append] at hr
    rcases hr with hr | hr
    · exact ih1 name r hr
    · exact ih2 r hr

theorem oscTableEffect_refl (env : Env) (w : World) : oscTableEffect env w w :=
  ⟨[], by simp, by simp, fun k hk => absurd rfl hk⟩

theorem oscTableEffect_trans (env : Env) (a b c : World) (h1 : oscTableEffect env a b)
    (h2 : oscTableEffect env b c) : oscTableEffect env a c := by
  obtain ⟨n1, e1, m1, c1⟩ := h1
  obtain ⟨n2, e2, m2, c2⟩ := h2
  refine ⟨n1 ++ n2, by rw [e2, e1, List.append_assoc], ?_, ?_⟩
  · intro m hm
    rcases List.mem_append.mp hm with hm | hm
    · exact m1 m hm
    · exact m2 m hm
  · intro k hk
    by_cases hb : b.lastSentOSC k = a.lastSentOSC k
    · exact c2 k (by rw [hb]; exact hk)
    · exact c1 k hb

theorem oscTableEffect_of_same (env : Env) (w w2 : World) (h1 : w2.oscOut = w.oscOut)
    (h2 : w2.lastSentOSC = w.lastSentOSC) : oscTableEffect env w w2 :=
  ⟨[], by simp [h1], by simp, fun k hk => absurd (by rw [h2]) hk⟩

theorem oscTableEffect_gate (env : Env) (entry : OSCAddressEntry) (value : GoValue)
    (sendZero : Bool) (w : World) (h : enabledAddress env entry.Address) :
    oscTableEffect env w (gateOSC env entry value sendZero w) := by
  unfold gateOSC
  split
  · by_cases hen : env.Config.EnableOSC = true
    · refine ⟨[⟨entry.Address, oscConvert value⟩], by simp [sendOSC, hen], ?_, ?_⟩
      · intro m hm
        simp only [List.mem_singleton] at hm
        subst hm
        exact h
      · intro k hk
        by_cases hka : k = entry.Address
        · subst hka; exact h
        · exact absurd (by simp [sendOSC, hen, updateLastSent, hka]) hk
    · obtain ⟨_, _, _, _, h3, _⟩ := h
      exact absurd h3 hen
  · exact oscTableEffect_of_same env _ _ rfl rfl

theorem oscTableEffect_foldl (env : Env) (L : List OSCRequest)
    (h : ∀ r ∈ L, ∃ key, lookupOSC env key = some r.1) :
    ∀ w, oscTableEffect env w (L.foldl (oscStep env) w) := by
  induction L with
  | nil => intro w; exact oscTableEffect_refl env w
  | cons r L ih =>
    intro w
    simp only [List.foldl_cons]
    refine oscTableEffect_trans env _ _ _ ?_ (ih (fun r hr => h r (List.mem_cons_of_mem _ hr)) _)
    obtain ⟨key, hk⟩ := h r (List.mem_cons_self _ _)
    obtain ⟨h1, h2, h3⟩ := lookupOSC_spec env key _ hk
    exact oscTableEffect_gate env _ _ _ w ⟨key, r.1, h1, h2, h3, rfl⟩

theorem oscTableEffect_walk (env : Env) (v : GoValue) (w : World) :
    oscTableEffect env w (sendStructFieldsToOSC env v w) := by
  cases v with
  | struct n fs =>
    rw [sendStructFieldsToOSC_eq_foldl]
    exact oscTableEffect_foldl env _ (oscLeaves_viaTable env fs) w
  | _ => exact oscTableEffect_refl env w

theorem handleUDPPacket_shape (data : List UInt8) :
    (∀ env w, handleUDPPacket env data w = some w) ∨
    ∃ id, data[6]? = some id ∧ 24 ≤ data.length ∧
      ((∃ d T L K, (id, d, T, L) ∈ decoderTable ∧ id ≠ 13 ∧
          ∀ env w, handleUDPPacket env data w
            = some (if (env.PacketForwardingConfig id).getD false = true
                then decodeAndBroadcast env data d K w else w)) ∨
       (id = 6 ∧ ∀ env w, handleUDPPacket env data w
            = some (if (env.PacketForwardingConfig id).getD false = true
                then broadcastTelemetryFields env (telemetryReference data) w else w)) ∨
       (id = 13 ∧ ∀ env w, handleUDPPacket env data w
            = some (if (env.PacketForwardingConfig id).getD false = true
                  ∧ (decodeMotionExPacket data).2 = none
                then broadcastMotionExFields env (decodeMotionExPacket data).1 w else w))) := by
  by_cases h24 : data.length < 24
  · exact Or.inl fun env w => handleUDPPacket_drops env w data (Or.inl h24)
  have h6' : 6 < data.length := by omega
  have h6 : data[6]? = some (data.getD 6 0) := by
    simp [List.getD, List.getElem?_eq_getElem h6']
  generalize data.getD 6 0 = id at h6
  have hcase : 16 ≤ id.toNat ∨ id.toNat = 0 ∨ id.toNat = 1 ∨ id.toNat = 2 ∨ id.toNat = 3 ∨ id.toNat = 4 ∨ id.toNat = 5 ∨ id.toNat = 6 ∨ id.toNat = 7 ∨ id.toNat = 8 ∨ id.toNat = 9 ∨ id.toNat = 10 ∨ id.toNat = 11 ∨ id.toNat = 12 ∨ id.toNat = 13 ∨ id.toNat = 14 ∨ id.toNat = 15 := by
    omega
  rcases hcase with hk | hk | hk | hk | hk | hk | hk | hk | hk | hk | hk | hk | hk | hk | hk | hk | hk
  · exact Or.inl fun env w => handleUDPPacket_drops env w data (Or.inr ⟨id, h6, Or.inr hk⟩)
  · have hid : id = 0 := UInt8.ext hk
    subst hid
    refine Or.inr ⟨0, h6, by omega, Or.inl ⟨decodeMotionPacket, PacketMotionData, 1349, "Motion",
      by simp [decoderTable], by decide, fun env w => ?_⟩⟩
    unfold handleUDPPacket
    rw [if_neg h24, h6]
    by_cases hen : (env.PacketForwardingConfig 0).getD false = true <;> simp [hen]
  · have hid : id = 1 := UInt8.ext hk
    subst hid
    refine Or.inr ⟨1, h6, by omega, Or.inl ⟨decodeSessionPacket, PacketSessionData, 753, "Session",
      by simp [decoderTable], by decide, fun env w => ?_⟩⟩
    unfold handleUDPPacket
    rw [if_neg h24, h6]
    by_cases hen : (env.PacketForwardingConfig 1).getD false = true <;> simp [hen]
  · have hid : id = 2 := UInt8.ext hk
    subst hid
    refine Or.inr ⟨2, h6, by omega, Or.inl ⟨decodeLapDataPacket, LapDataPacket, 1285, "LapData",
      by simp [decoderTable], by decide, fun env w => ?_⟩⟩
    unfold handleUDPPacket
    rw [if_neg h24, h6]
    by_cases hen : (env.PacketForwardingConfig 2).getD false = true <;> simp [hen]
  · have hid : id = 3 := UInt8.ext hk
    subst hid
    refine Or.inr ⟨3, h6, by omega, Or.inl ⟨decodeEventPacket, PacketEventData, 45, "Event",
      by simp [decoderTable], by decide, fun env w => ?_⟩⟩
    unfold handleUDPPacket
    rw [if_neg h24, h6]
    by_cases hen : (env.PacketForwardingConfig 3).getD false = true <;> simp [hen]
  · have hid : id = 4 := UInt8.ext hk
    subst hid
    refine Or.inr ⟨4, h6, by omega, Or.inl ⟨decodeParticipantsPacket, PacketParticipantsData, 1284, "Participants",
      by simp [decoderTable], by decide, fun env w => ?_⟩⟩
    unfold handleUDPPacket
    rw [if_neg h24, h6]
    by_cases hen : (env.PacketForwardingConfig 4).getD false = true <;> simp [hen]
  · have hid : id = 5 := UInt8.ext hk
    subst hid
    refine Or.inr ⟨5, h6, by omega, Or.inl ⟨decodeCarSetupsPacket, PacketCarSetupData, 1133, "CarSetups",
      by simp [decoderTable], by decide, fun env w => ?_⟩⟩
    unfold handleUDPPacket
    rw [if_neg h24, h6]
    by_cases hen : (env.PacketForwardingConfig 5).getD false = true <;> simp [hen]
  · have hid : id = 6 := UInt8.ext hk
    subst hid
    refine Or.inr ⟨6, h6, by omega, Or.inr (Or.inl ⟨rfl, fun env w => ?_⟩)⟩
    unfold handleUDPPacket
    rw [if_neg h24, h6]
    by_cases hen : (env.PacketForwardingConfig 6).getD false = true <;>
      simp [hen, decodeCarTelemetryPacket_eq]
  · have hid : id = 7 := UInt8.ext hk
    subst hid
    refine Or.inr ⟨7, h6, by omega, Or.inl ⟨decodeCarStatusPacket, PacketCarStatusData, 1239, "CarStatus",
      by simp [decoderTable], by decide, fun env w => ?_⟩⟩
    unfold handleUDPPacket
    rw [if_neg h24, h6]
    by_cases hen : (env.PacketForwardingConfig 7).getD false = true <;> simp [hen]
  · have hid : id = 8 := UInt8.ext hk
    subst hid
    refine Or.inr ⟨8, h6, by omega, Or.inl ⟨decodeFinalClassificationPacket, PacketFinalClassificationData, 1042, "FinalClassification",
      by simp [decoderTable], by decide, fun env w => ?_⟩⟩
    unfold handleUDPPacket
    rw [if_neg h24, h6]
    by_cases hen : (env.PacketForwardingConfig 8).getD false = true <;> simp [hen]
  · have hid : id = 9 := UInt8.ext hk
    subst hid
    refine Or.inr ⟨9, h6, by omega, Or.inl ⟨decodeLobbyInfoPacket, PacketLobbyInfoData, 954, "LobbyInfo",
      by simp [decoderTable], by decide, fun env w => ?_⟩⟩
    unfold handleUDPPacket
    rw [if_neg h24, h6]
    by_cases hen : (env.PacketForwardingConfig 9).getD false = true <;> simp [hen]
  · have hid : id = 10 := UInt8.ext hk
    subst hid
    refine Or.inr ⟨10, h6, by omega, Or.inl ⟨decodeCarDamagePacket, PacketCarDamageData, 1041, "CarDamage",
      by simp [decoderTable], by decide, fun env w => ?_⟩⟩
    unfold handleUDPPacket
    rw [if_neg h24, h6]
    by_cases hen : (env.PacketForwardingConfig 10).getD false = true <;> simp [hen]
  · have hid : id = 11 := UInt8.ext hk
    subst hid
    refine Or.inr ⟨11, h6, by omega, Or.inl ⟨decodeSessionHistoryPacket, PacketSessionHistoryData, 1460, "SessionHistory",
      by simp [decoderTable], by decide, fun env w => ?_⟩⟩
    unfold handleUDPPacket
    rw [if_neg h24, h6]
    by_cases hen : (env.PacketForwardingConfig 11).getD false = true <;> simp [hen]
  · have hid : id = 12 := UInt8.ext hk
    subst hid
    refine Or.inr ⟨12, h6, by omega, Or.inl ⟨decodeTyreSetsPacket, PacketTyreSetsData, 231, "TyreSets",
      by simp [decoderTable], by decide, fun env w => ?_⟩⟩
    unfold handleUDPPacket
    rw [if_neg h24, h6]
    by_cases hen : (env.PacketForwardingConfig 12).getD false = true <;> simp [hen]
  · have hid : id = 13 := UInt8.ext hk
    subst hid
    refine Or.inr ⟨13, h6, by omega, Or.inr (Or.inr ⟨rfl, fun env w => ?_⟩)⟩
    unfold handleUDPPacket
    rw [if_neg h24, h6]
    by_cases hen : (env.PacketForwardingConfig 13).getD false = true <;>
      cases he : (decodeMotionExPacket data).2 <;> simp [hen, he]
  · have hid : id = 14 := UInt8.ext hk
    subst hid
    refine Or.inr ⟨14, h6, by omega, Or.inl ⟨decodeTimeTrialPacket, PacketTimeTrialData, 101, "TimeTrial",
      by simp [decoderTable], by decide, fun env w => ?_⟩⟩
    unfold handleUDPPacket
    rw [if_neg h24, h6]
    by_cases hen : (env.PacketForwardingConfig 14).getD false = true <;> simp [hen]
  · have hid : id = 15 := UInt8.ext hk
    subst hid
    refine Or.inr ⟨15, h6, by omega, Or.inl ⟨decodeLapPositionsPacket, PacketLapPositionsData, 1131, "LapPositions",
      by simp [decoderTable], by decide, fun env w => ?_⟩⟩
    unfold handleUDPPacket
    rw [if_neg h24, h6]
    by_cases hen : (env.PacketForwardingConfig 15).getD false = true <;> simp [hen]

theorem gateWS_osc (env : Env) (key : String) (value : GoValue) (m : WSMessage) (w : World) :
    (gateWS env key value m w).oscOut = w.oscOut ∧
    (gateWS env key value m w).lastSentOSC = w.lastSentOSC := by
  unfold gateWS broadcast
  split <;> simp

theorem broadcastStructFieldsToWS_osc (env : Env) (v : GoValue) (K : String) (w : World) :
    (broadcastStructFieldsToWS env v K w).oscOut = w.oscOut ∧
    (broadcastStructFieldsToWS env v K w).lastSentOSC = w.lastSentOSC :=
  broadcastStructFieldsToWS_closure env
    (fun a b => b.oscOut = a.oscOut ∧ b.lastSentOSC = a.lastSentOSC)
    (fun _ => ⟨rfl, rfl⟩) (fun _ _ _ h1 h2 => ⟨h2.1.trans h1.1, h2.2.trans h1.2⟩)
    (fun key value w => gateWS_osc env key value _ w) v K w

theorem oscTableEffect_decodeAndBroadcast (env : Env) (data : List UInt8)
    (d : List UInt8 → GoValue × Option DecodeError) (K : String) (w : World) :
    oscTableEffect env w (decodeAndBroadcast env data d K w) := by
  unfold decodeAndBroadcast
  split
  · exact oscTableEffect_refl env w
  · exact oscTableEffect_trans env _ _ _
      (oscTableEffect_of_same env _ _ (broadcastStructFieldsToWS_osc env _ K w).1
        (broadcastStructFieldsToWS_osc env _ K w).2)
      (oscTableEffect_walk env _ _)

theorem oscTableEffect_telemetry (env : Env) (t : CarTelemetryData) (w : World) :
    oscTableEffect env w (broadcastTelemetryFields env t w) := by
  unfold broadcastTelemetryFields
  simp only
  refine oscTableEffect_trans env w
    (gateWS env "CarTelemetry/summary" (GoValue.str (telemetrySummary t))
      (WSMessage.text (telemetrySummary t)) w) _
    (oscTableEffect_of_same env _ _ (gateWS_osc env _ _ _ w).1 (gateWS_osc env _ _ _ w).2) ?_
  generalize gateWS env "CarTelemetry/summary" _ _ w = w1
  induction env.telemetryOrder generalizing w1 with
  | nil => exact oscTableEffect_refl env w1
  | cons k L ih =>
    simp only [List.foldl_cons]
    refine oscTableEffect_trans env _ _ _ ?_ (ih _)
    unfold telemetryStep
    split
    · split
      · rename_i entry he
        obtain ⟨h1, h2, h3⟩ := lookupOSC_spec env k entry he
        exact oscTableEffect_gate env _ _ _ w1 ⟨k, entry, h1, h2, h3, rfl⟩
      · exact oscTableEffect_refl env w1
    · exact oscTableEffect_refl env w1

theorem oscTableEffect_motionExStep (env : Env) (name : String) (w : World)
    (wv : String × GoValue) : oscTableEffect env w (motionExStep env name w wv) := by
  unfold motionExStep
  simp only
  split
  · exact oscTableEffect_refl env w
  · rename_i entry he
    split
    · rename_i hc
      simp only [Bool.and_eq_true] at hc
      refine ⟨[⟨entry.Address, oscConvert wv.2⟩], by simp [sendOSC, hc.1, broadcast], ?_, ?_⟩
      · intro m hm
        simp only [List.mem_singleton] at hm
        subst hm
        exact ⟨_, entry, he, hc.2, hc.1, rfl⟩
      · intro k hk
        exact absurd (by simp [sendOSC, hc.1, broadcast]) hk
    · exact oscTableEffect_of_same env _ _ rfl rfl

theorem oscTableEffect_motionEx (env : Env) (pkt : GoValue) (w : World) :
    oscTableEffect env w (broadcastMotionExFields env pkt w) := by
  unfold broadcastMotionExFields
  induction motionExFieldNames generalizing w with
  | nil => exact oscTableEffect_refl env w
  | cons name L ih =>
    simp only [List.foldl_cons]
    refine oscTableEffect_trans env _ _ _ ?_ (ih _)
    generalize suffixes.zip (arrayField pkt name) = Z
    induction Z generalizing w with
    | nil => exact oscTableEffect_refl env w
    | cons wv Z ih2 =>
      simp only [List.foldl_cons]
      exact oscTableEffect_trans env _ _ _ (oscTableEffect_motionExStep env name w wv) (ih2 _)

theorem oscTableEffect_handle (env : Env) (data : List UInt8) (w : World) :
    ∃ w2, handleUDPPacket env data w = some w2 ∧ oscTableEffect env w w2 := by
  rcases handleUDPPacket_shape data with h | ⟨id, -, -, h | h | h⟩
  · exact ⟨w, h env w, oscTableEffect_refl env w⟩
  · obtain ⟨d, T, L, K, -, -, h⟩ := h
    refine ⟨_, h env w, ?_⟩
    split
    · exact oscTableEffect_decodeAndBroadcast env data d K w
    · exact oscTableEffect_refl env w
  · refine ⟨_, h.2 env w, ?_⟩
    split
    · exact oscTableEffect_telemetry env _ w
    · exact oscTableEffect_refl env w
  · refine ⟨_, h.2 env w, ?_⟩
    split
    · exact oscTableEffect_motionEx env _ w
    · exact oscTableEffect_refl env w

theorem gateOSC_sentUnderKey (env : Env) (key : String) (entry : OSCAddressEntry)
    (value : GoValue) (sendZero : Bool) (w : World) (h : lookupOSC env key = some entry) :
    sentUnderKey env key value w (gateOSC env entry value sendZero w) := by
  obtain ⟨h1, h2, h3⟩ := lookupOSC_spec env key entry h
  unfold gateOSC
  split
  · exact Or.inr ⟨entry, h1, h2, h3, by simp [sendOSC, h3], by simp [sendOSC, h3]⟩
  · exact Or.inl ⟨rfl, rfl⟩

theorem oscFields_step (env : Env) (key : String) (v : GoValue)
    (rest : List (String × GoValue)) (w : World) :
    ∃ w1, sentUnderKey env key v w w1 ∧ (lookupOSC env key = none → w1 = w) ∧
      (∀ n fs, v = GoValue.struct n fs →
        sendStructFieldsToOSC.oscFields env ((key, v) :: rest) w
          = sendStructFieldsToOSC.oscFields env rest
              (sendStructFieldsToOSC.oscFields env fs w1)) ∧
      (∀ elems, v = GoValue.array elems →
        sendStructFieldsToOSC.oscFields env ((key, v) :: rest) w
          = sendStructFieldsToOSC.oscFields env rest
              (sendStructFieldsToOSC.oscElems env key elems.length elems 0 w1)) ∧
      ((∀ n fs, v ≠ GoValue.struct n fs) → (∀ elems, v ≠ GoValue.array elems) →
        sendStructFieldsToOSC.oscFields env ((key, v) :: rest) w
          = sendStructFieldsToOSC.oscFields env rest w1) := by
  rw [sendStructFieldsToOSC.oscFields]
  cases hl : lookupOSC env key with
  | none =>
    refine ⟨w, Or.inl ⟨rfl, rfl⟩, fun _ => rfl, ?_, ?_, ?_⟩
    · intro n fs hv
      subst hv
      rfl
    · intro elems hv
      subst hv
      rfl
    · intro h1 h2
      cases v with
      | struct n fs => exact absurd rfl (h1 n fs)
      | array elems => exact absurd rfl (h2 elems)
      | _ => rfl
  | some entry =>
    by_cases hz : (inZeroCase v && ifaceEqZero v && !entry.AllowZero) = true
    · refine ⟨w, Or.inl ⟨rfl, rfl⟩, fun _ => rfl, ?_, ?_, ?_⟩
      · intro n fs hv
        subst hv
        simp [inZeroCase] at hz
      · intro elems hv
        subst hv
        simp [inZeroCase] at hz
      · intro _ _
        simp only [hz, if_true]
    · refine ⟨gateOSC env entry v (inZeroCase v && ifaceEqZero v && entry.AllowZero) w,
        gateOSC_sentUnderKey env key entry v _ w hl, fun h => absurd h (by simp), ?_, ?_, ?_⟩
      · intro n fs hv
        subst hv
        simp [inZeroCase]
      · intro elems hv
        subst hv
        simp [inZeroCase]
      · intro h1 h2
        cases v with
        | struct n fs => exact absurd rfl (h1 n fs)
        | array elems => exact absurd rfl (h2 elems)
        | _ => simp only [hz]; rfl

theorem oscElems_step (env : Env) (name : String) (len : Nat) (elem : GoValue)
    (rest : List GoValue) (j : Nat) (w : World) :
    ∃ w1, sentUnderKey env (oscElemKey name len j) elem w w1 ∧
      (lookupOSC env (oscElemKey name len j) = none → w1 = w) ∧
      sendStructFieldsToOSC.oscElems env name len (elem :: rest) j w
        = sendStructFieldsToOSC.oscElems env name len rest (j + 1)
            (sendStructFieldsToOSC env elem w1) := by
  refine ⟨oscLookupSend env (oscElemKey name len j) elem w, ?_, ?_,
    oscElems_cons env name len elem rest j w⟩
  · unfold oscLookupSend
    cases hl : lookupOSC env (oscElemKey name len j) with
    | none => exact Or.inl ⟨rfl, rfl⟩
    | some entry => exact gateOSC_sentUnderKey env _ entry elem false w hl
  · intro hl
    simp [oscLookupSend, hl]

theorem telemetryStep_spec (env : Env) (t : CarTelemetryData) (w : World) (k : String) :
    ((telemetryFields t).lookup k = none → telemetryStep env t w k = w) ∧
    (∀ v, (telemetryFields t).lookup k = some v →
      sentUnderKey env k v w (telemetryStep env t w k) ∧
      (lookupOSC env k = none → telemetryStep env t w k = w)) := by
  unfold telemetryStep
  constructor
  · intro h
    rw [h]
  · intro v h
    rw [h]
    cases hl : lookupOSC env k with
    | none => exact ⟨Or.inl ⟨rfl, rfl⟩, fun _ => rfl⟩
    | some entry =>
      exact ⟨gateOSC_sentUnderKey env k entry v false w hl, fun h => absurd h (by simp)⟩

theorem motionExStep_spec (env : Env) (name wheel : String) (v : GoValue) (w : World) :
    (motionExStep env name w (wheel, v)).lastSentOSC = w.lastSentOSC ∧
    ((motionExStep env name w (wheel, v)).oscOut = w.oscOut ∨
      ∃ entry, env.OSCAddresses (name ++ wheel) = some entry ∧ entry.Enabled = true ∧
        env.Config.EnableOSC = true ∧
        (motionExStep env name w (wheel, v)).oscOut
          = w.oscOut ++ [⟨entry.Address, oscConvert v⟩]) := by
  unfold motionExStep
  simp only
  cases he : env.OSCAddresses (name ++ wheel) with
  | none => exact ⟨rfl, Or.inl rfl⟩
  | some entry =>
    simp only
    by_cases hc : (env.Config.EnableOSC && entry.Enabled) = true
    · rw [if_pos hc]
      simp only [Bool.and_eq_true] at hc
      exact ⟨by simp [sendOSC, hc.1, broadcast],
        Or.inr ⟨entry, rfl, hc.2, hc.1, by simp [sendOSC, hc.1, broadcast]⟩⟩
    · rw [if_neg hc]
      exact ⟨rfl, Or.inl rfl⟩

/-- Claim C23.  For every frame `handleUDPPacket` returns a state, and every OSC
message it sends is addressed to the address of an entry of the OSC address
table that is enabled, with OSC enabled in the configuration; the OSC gate cache
changes only under such addresses.  In particular nothing is sent and the OSC
cache is unchanged when OSC is disabled or no entry is enabled.  For a key with
no entry, a disabled entry, or with OSC disabled, the lookup fails, and then the
field step of the generic walk (for a field that is neither a record nor an
array), the element step, and the CarTelemetry step leave the state unchanged,
and the MotionEx step sends no OSC message and leaves the OSC cache unchanged.
When the lookup of a key succeeds, its entry is in the table and enabled, OSC is
on, and what the gate then sends goes to the address of that entry.

Each of the three paths is a sequence of rounds, one per field, and every round
is tied to the key of its own field.  Generic walk: `sendStructFieldsToOSC` on a
record runs the field loop; the round for the field with key `key` and value `v`
first either leaves the OSC side unchanged (this is what happens when the lookup
of `key` fails) or sends exactly one message, addressed to the address of the
table entry under `key`, which is enabled with OSC on, carrying the converted
`v`, and updates the OSC cache under that address; it then walks the fields of
`v` when `v` is a record, the elements of `v` (under the element keys built from
`key`) when `v` is an array, and goes on with the remaining fields.  The round
for element `j` of an array does the same under the element key, then walks the
element.  CarTelemetry: `broadcastTelemetryFields` is the summary broadcast,
which never touches the OSC side, followed by the rounds `telemetryStep` over
the keys; the round for `k` does nothing when `k` is not a telemetry field, and
for the field `k` with value `v` it either leaves the OSC side unchanged (always
so when the lookup of `k` fails) or sends one message to the address of the
entry under `k`.  MotionEx: `broadcastMotionExFields` is the rounds
`motionExStep` over the eight field names and the wheels; the round for
`name` and `wheel` never changes the OSC cache and either sends nothing or sends
one message, with the converted value, to the address of the enabled entry
under `name ++ wheel`, with OSC on. -/
theorem osc_only_via_enabled_entries (env : Env) (data : List UInt8) (w : World) :
    (∃ w2, handleUDPPacket env data w = some w2 ∧
      ∃ new, w2.oscOut = w.oscOut ++ new ∧
        (∀ m ∈ new, ∃ key entry, env.OSCAddresses key = some entry ∧ entry.Enabled = true ∧
          env.Config.EnableOSC = true ∧ m.address = entry.Address) ∧
        (∀ k, w2.lastSentOSC k ≠ w.lastSentOSC k →
          ∃ key entry, env.OSCAddresses key = some entry ∧ entry.Enabled = true ∧
            env.Config.EnableOSC = true ∧ k = entry.Address) ∧
        ((env.Config.EnableOSC = false ∨
            ∀ key entry, env.OSCAddresses key = some entry → entry.Enabled = false) →
          new = [] ∧ w2.lastSentOSC = w.lastSentOSC)) ∧
    (∀ key, (env.OSCAddresses key = none ∨ env.Config.EnableOSC = false ∨
        ∃ entry, env.OSCAddresses key = some entry ∧ entry.Enabled = false) →
      lookupOSC env key = none ∧
      (∀ v rest w0, (∀ n fs, v ≠ GoValue.struct n fs) → (∀ elems, v ≠ GoValue.array elems) →
        sendStructFieldsToOSC.oscFields env ((key, v) :: rest) w0
          = sendStructFieldsToOSC.oscFields env rest w0) ∧
      (∀ v w0, oscLookupSend env key v w0 = w0) ∧
      (∀ t w0, telemetryStep env t w0 key = w0) ∧
      (∀ name wheel v w0, name ++ wheel = key →
        (motionExStep env name w0 (wheel, v)).oscOut = w0.oscOut ∧
        (motionExStep env name w0 (wheel, v)).lastSentOSC = w0.lastSentOSC)) ∧
    (∀ key entry, lookupOSC env key = some entry →
      env.OSCAddresses key = some entry ∧ entry.Enabled = true ∧
      env.Config.EnableOSC = true ∧
      ∀ v w0, (oscLookupSend env key v w0).oscOut = w0.oscOut ∨
        (oscLookupSend env key v w0).oscOut
          = w0.oscOut ++ [⟨entry.Address, oscConvert v⟩]) ∧
    (∀ key v w0 w1, sentUnderKey env key v w0 w1 ↔
      ((w1.oscOut = w0.oscOut ∧ w1.lastSentOSC = w0.lastSentOSC) ∨
        ∃ entry, env.OSCAddresses key = some entry ∧ entry.Enabled = true ∧
          env.Config.EnableOSC = true ∧
          w1.oscOut = w0.oscOut ++ [⟨entry.Address, oscConvert v⟩] ∧
          w1.lastSentOSC
            = updateLastSent (env.clock (w0.clockReads + 1)) entry.Address v
                w0.lastSentOSC)) ∧
    (∀ n fs w0, sendStructFieldsToOSC env (GoValue.struct n fs) w0
      = sendStructFieldsToOSC.oscFields env fs w0) ∧
    (∀ w0, sendStructFieldsToOSC.oscFields env [] w0 = w0) ∧
    (∀ key v rest w0, ∃ w1, sentUnderKey env key v w0 w1 ∧
      (lookupOSC env key = none → w1 = w0) ∧
      (∀ n fs, v = GoValue.struct n fs →
        sendStructFieldsToOSC.oscFields env ((key, v) :: rest) w0
          = sendStructFieldsToOSC.oscFields env rest
              (sendStructFieldsToOSC.oscFields env fs w1)) ∧
      (∀ elems, v = GoValue.array elems →
        sendStructFieldsToOSC.oscFields env ((key, v) :: rest) w0
          = sendStructFieldsToOSC.oscFields env rest
              (sendStructFieldsToOSC.oscElems env key elems.length elems 0 w1)) ∧
      ((∀ n fs, v ≠ GoValue.struct n fs) → (∀ elems, v ≠ GoValue.array elems) →
        sendStructFieldsToOSC.oscFields env ((key, v) :: rest) w0
          = sendStructFieldsToOSC.oscFields env rest w1)) ∧
    (∀ name len j w0, sendStructFieldsToOSC.oscElems env name len [] j w0 = w0) ∧
    (∀ name len elem rest j w0, ∃ w1,
      sentUnderKey env (oscElemKey name len j) elem w0 w1 ∧
      (lookupOSC env (oscElemKey name len j) = none → w1 = w0) ∧
      sendStructFieldsToOSC.oscElems env name len (elem :: rest) j w0
        = sendStructFieldsToOSC.oscElems env name len rest (j + 1)
            (sendStructFieldsToOSC env elem w1)) ∧
    (∀ t w0, broadcastTelemetryFields env t w0
      = env.telemetryOrder.foldl (telemetryStep env t)
          (gateWS env "CarTelemetry/summary" (GoValue.str (telemetrySummary t))
            (WSMessage.text (telemetrySummary t)) w0)) ∧
    (∀ key v m w0, (gateWS env key v m w0).oscOut = w0.oscOut ∧
      (gateWS env key v m w0).lastSentOSC = w0.lastSentOSC) ∧
    (∀ t w0 k,
      ((telemetryFields t).lookup k = none → telemetryStep env t w0 k = w0) ∧
      (∀ v, (telemetryFields t).lookup k = some v →
        sentUnderKey env k v w0 (telemetryStep env t w0 k) ∧
        (lookupOSC env k = none → telemetryStep env t w0 k = w0))) ∧
    (∀ pkt w0, broadcastMotionExFields env pkt w0
      = motionExFieldNames.foldl
          (fun w1 name => (suffixes.zip (arrayField pkt name)).foldl (motionExStep env name) w1)
          w0) ∧
    (∀ name wheel v w0,
      (motionExStep env name w0 (wheel, v)).lastSentOSC = w0.lastSentOSC ∧
      ((motionExStep env name w0 (wheel, v)).oscOut = w0.oscOut ∨
        ∃ entry, env.OSCAddresses (name ++ wheel) = some entry ∧ entry.Enabled = true ∧
          env.Config.EnableOSC = true ∧
          (motionExStep env name w0 (wheel, v)).oscOut
            = w0.oscOut ++ [⟨entry.Address, oscConvert v⟩])) := by
  refine ⟨?_, ?_, fun key entry hl => ?_, fun key v w0 w1 => Iff.rfl, fun n fs w0 => rfl,
    fun w0 => by rw [sendStructFieldsToOSC.oscFields],
    fun key v rest w0 => oscFields_step env key v rest w0,
    fun name len j w0 => oscElems_nil env name len j w0,
    fun name len elem rest j w0 => oscElems_step env name len elem rest j w0,
    fun t w0 => rfl, fun key v m w0 => gateWS_osc env key v m w0,
    fun t w0 k => telemetryStep_spec env t w0 k, fun pkt w0 => rfl,
    fun name wheel v w0 => motionExStep_spec env name wheel v w0⟩
  rotate_left 2
  · obtain ⟨h1, h2, h3⟩ := lookupOSC_spec env key entry hl
    refine ⟨h1, h2, h3, fun v w0 => ?_⟩
    rcases oscLookupSend_spec env key v w0 with h | ⟨e, he, -, -, -, ho, -⟩
    · exact Or.inl h.1
    · rw [h1] at he
      injection he with he
      subst he
      exact Or.inr ho
  · obtain ⟨w2, h, new, h1, h2, h3⟩ := oscTableEffect_handle env data w
    refine ⟨w2, h, new, h1, ?_, ?_, ?_⟩
    · intro m hm
      obtain ⟨key, entry, a, b, c, d⟩ := h2 m hm
      exact ⟨key, entry, a, b, c, d.symm⟩
    · intro k hk
      obtain ⟨key, entry, a, b, c, d⟩ := h3 k hk
      exact ⟨key, entry, a, b, c, d.symm⟩
    · intro hoff
      have hno : ∀ a, ¬ enabledAddress env a := by
        rintro a ⟨key, entry, e1, e2, e3, -⟩
        rcases hoff with hoff | hoff
        · rw [hoff] at e3; exact absurd e3 (by simp)
        · rw [hoff key entry e1] at e2; exact absurd e2 (by simp)
      constructor
      · cases new with
        | nil => rfl
        | cons m rest => exact absurd (h2 m (List.mem_cons_self _ _)) (hno _)
      · funext k
        by_contra hk
        exact hno k (h3 k hk)
  · intro key hkey
    have hl := lookupOSC_eq_none env key hkey
    refine ⟨hl, fun v rest w0 h1 h2 => ?_, fun v w0 => by simp [oscLookupSend, hl],
      fun t w0 => ?_, fun name wheel v w0 hk => ?_⟩
    · rw [sendStructFieldsToOSC.oscFields]
      cases v with
      | struct n fs => exact absurd rfl (h1 n fs)
      | array elems => exact absurd rfl (h2 elems)
      | _ => simp [hl]
    · unfold telemetryStep
      split
      · simp [hl]
      · rfl
    · unfold motionExStep
      simp only [hk]
      rcases hkey with h | h | ⟨entry, h, hd⟩
      · simp [h]
      · cases env.OSCAddresses key <;> simp [h, broadcast]
      · simp [h, hd, broadcast]

theorem broadcastStructFieldsToWS_withTable (env : Env)
    (table : String → Option OSCAddressEntry) (v : GoValue) (K : String) (w : World) :
    broadcastStructFieldsToWS (env.withTable table) v K w
      = broadcastStructFieldsToWS env v K w := by
  cases v with
  | struct n fs =>
    simp only [broadcastStructFieldsToWS]
    have h1 := wsFields_eq_foldl env fs K [] w
    have h2 := wsFields_eq_foldl (env.withTable table) fs K [] w
    rw [intercalate_singleton] at h1 h2
    rw [h1, h2]
    rfl
  | _ => rfl

theorem decodeAndBroadcast_ws (env : Env) (data : List UInt8)
    (d : List UInt8 → GoValue × Option DecodeError) (K : String) (w : World) :
    (decodeAndBroadcast env data d K w).wsOut
      = (match (d data).2 with
         | some _ => w
         | none => broadcastStructFieldsToWS env (d data).1 K w).wsOut ∧
    (decodeAndBroadcast env data d K w).lastSentWS
      = (match (d data).2 with
         | some _ => w
         | none => broadcastStructFieldsToWS env (d data).1 K w).lastSentWS := by
  unfold decodeAndBroadcast
  cases (d data).2 with
  | some e => exact ⟨rfl, rfl⟩
  | none => exact sendStructFieldsToOSC_wsOut env _ _

theorem decodeAndBroadcast_ws_withTable (env : Env) (table : String → Option OSCAddressEntry)
    (data : List UInt8) (d : List UInt8 → GoValue × Option DecodeError) (K : String)
    (w : World) :
    (decodeAndBroadcast (env.withTable table) data d K w).wsOut
      = (decodeAndBroadcast env data d K w).wsOut ∧
    (decodeAndBroadcast (env.withTable table) data d K w).lastSentWS
      = (decodeAndBroadcast env data d K w).lastSentWS := by
  rw [(decodeAndBroadcast_ws env data d K w).1, (decodeAndBroadcast_ws env data d K w).2,
    (decodeAndBroadcast_ws (env.withTable table) data d K w).1,
    (decodeAndBroadcast_ws (env.withTable table) data d K w).2,
    broadcastStructFieldsToWS_withTable]
  exact ⟨rfl, rfl⟩

theorem broadcastTelemetryFields_ws_withTable (env : Env)
    (table : String → Option OSCAddressEntry) (t : CarTelemetryData) (w : World) :
    (broadcastTelemetryFields (env.withTable table) t w).wsOut
      = (broadcastTelemetryFields env t w).wsOut ∧
    (broadcastTelemetryFields (env.withTable table) t w).lastSentWS
      = (broadcastTelemetryFields env t w).lastSentWS := by
  unfold broadcastTelemetryFields
  simp only
  rw [(foldl_telemetryStep_ws env t _ _).1, (foldl_telemetryStep_ws env t _ _).2,
    (foldl_telemetryStep_ws (env.withTable table) t _ _).1,
    (foldl_telemetryStep_ws (env.withTable table) t _ _).2]
  exact ⟨rfl, rfl⟩

set_option maxRecDepth 100000 in
/-- Claim C24 fails in the code for the MotionEx kind.  Handling the 273-byte
MotionEx sample frame from the empty state broadcasts the WebSocket message for
`MotionEx/WheelSpeedRL` when the OSC address table has the entry `WheelSpeedRL`,
and broadcasts nothing when the table is empty: `broadcastMotionExFields` skips a
wheel value without a table entry before it broadcasts.  For every frame whose
packet id is not 13 the claim holds: replacing the address table changes neither
the WebSocket messages sent nor the WebSocket cache. -/
theorem websocket_depends_on_table_for_motionEx :
    frameMotionEx273.length = 273 ∧ frameMotionEx273[6]? = some 13 ∧
    (∃ w1 w2, handleUDPPacket burstEnv frameMotionEx273 emptyWorld = some w1 ∧
      handleUDPPacket (burstEnv.withTable (fun _ => none)) frameMotionEx273 emptyWorld
        = some w2 ∧
      w1.wsOut = [WSMessage.keyed "MotionEx/WheelSpeedRL" (GoValue.float32 0x3F800000)] ∧
      w2.wsOut = []) ∧
    (∀ (env : Env) (table : String → Option OSCAddressEntry) (data : List UInt8) (w : World),
      data[6]? ≠ some 13 →
      ∃ w1 w2, handleUDPPacket env data w = some w1 ∧
        handleUDPPacket (env.withTable table) data w = some w2 ∧
        w2.wsOut = w1.wsOut ∧ w2.lastSentWS = w1.lastSentWS) := by
  refine ⟨by decide, by decide, ⟨_, _, rfl, rfl, rfl, rfl⟩, fun env table data w h13 => ?_⟩
  rcases handleUDPPacket_shape data with h | ⟨id, h6, -, h | h | h⟩
  · exact ⟨w, w, h env w, h _ w, rfl, rfl⟩
  · obtain ⟨d, T, L, K, -, -, h⟩ := h
    refine ⟨_, _, h env w, h _ w, ?_⟩
    have e : (env.withTable table).PacketForwardingConfig = env.PacketForwardingConfig := rfl
    rw [e]
    split
    · exact decodeAndBroadcast_ws_withTable env table data d K w
    · exact ⟨rfl, rfl⟩
  · refine ⟨_, _, h.2 env w, h.2 _ w, ?_⟩
    have e : (env.withTable table).PacketForwardingConfig = env.PacketForwardingConfig := rfl
    rw [e]
    split
    · exact broadcastTelemetryFields_ws_withTable env table _ w
    · exact ⟨rfl, rfl⟩
  · rw [h6, h.1] at h13
    exact absurd rfl h13

theorem decodeN_noGoInt (f : List UInt8 → GoValue × List UInt8)
    (hf : ∀ buf, (f buf).1.noGoInt = true) (n : Nat) :
    ∀ buf, GoValue.noGoInt.noGoIntList (decodeN f n buf).1 = true := by
  induction n with
  | zero => intro buf; rfl
  | succ n ih =>
    intro buf
    simp only [decodeN, GoValue.noGoInt.noGoIntList, Bool.and_eq_true]
    exact ⟨hf buf, ih _⟩

theorem decodeValue_noGoInt (T : GoType) :
    ∀ S buf, T.sizeof = some S → (decodeValue T buf).1.noGoInt = true := by
  refine @GoType.rec
    (fun T => ∀ S buf, T.sizeof = some S → (decodeValue T buf).1.noGoInt = true)
    (fun fs => ∀ S buf, GoType.sizeof.sizeofFields fs = some S →
      GoValue.noGoInt.noGoIntFields (decodeValue.decodeFields fs buf).1 = true)
    (fun p => ∀ S buf, p.2.sizeof = some S → (decodeValue p.2 buf).1.noGoInt = true)
    ?_ ?_ ?_ ?_ ?_ ?_ ?_ ?_ T
  · intro k S buf h
    cases k <;> simp_all [GoType.sizeof, IntKind.wireSize, decodeValue, decodeInt,
      GoValue.noGoInt]
  · intro S buf _
    simp [decodeValue, GoValue.noGoInt]
  · intro S buf _
    simp [decodeValue, GoValue.noGoInt]
  · intro n e ih S buf h
    rw [GoType.sizeof] at h
    cases he : e.sizeof with
    | none => rw [he] at h; exact absurd h (by simp)
    | some s =>
      simp only [decodeValue, GoValue.noGoInt]
      exact decodeN_noGoInt _ (fun b => ih s b he) n buf
  · intro name fs ih S buf h
    rw [GoType.sizeof] at h
    simp only [decodeValue, GoValue.noGoInt]
    exact ih S buf h
  · intro S buf _
    simp [decodeValue.decodeFields, GoValue.noGoInt.noGoIntFields]
  · intro p rest ihp ihr S buf h
    obtain ⟨f, t⟩ := p
    rw [GoType.sizeof.sizeofFields] at h
    cases ht : t.sizeof with
    | none => rw [ht] at h; exact absurd h (by simp)
    | some a =>
      cases hr : GoType.sizeof.sizeofFields rest with
      | none => rw [ht, hr] at h; exact absurd h (by simp)
      | some b =>
        simp only [decodeValue.decodeFields, GoValue.noGoInt.noGoIntFields, Bool.and_eq_true]
        exact ⟨ihp a buf ht, ihr b _ hr⟩
  · intro f t ih S buf h
    exact ih S buf h

theorem decoded_noGoInt (id : UInt8) (d : List UInt8 → GoValue × Option DecodeError)
    (T : GoType) (L : Nat) (h : (id, d, T, L) ∈ decoderTable) (data : List UInt8)
    (hok : (d data).2 = none) : (d data).1.noGoInt = true := by
  obtain ⟨S, hS, -, hd⟩ := decoderTable_ok id d T L h data hok
  rw [hd]
  exact decodeValue_noGoInt T S _ hS

theorem ifaceEqZero_of_noGoInt (v : GoValue) (h : v.noGoInt = true) :
    ifaceEqZero v = false := by
  cases v with
  | int k n => cases k <;> simp_all [GoValue.noGoInt, ifaceEqZero]
  | _ => rfl

theorem eraseAllowZero_fields (e1 e2 : OSCAddressEntry)
    (h : eraseAllowZero e1 = eraseAllowZero e2) :
    e1.Address = e2.Address ∧ e1.Enabled = e2.Enabled := by
  cases e1; cases e2
  simp only [eraseAllowZero, OSCAddressEntry.mk.injEq] at h
  exact ⟨h.1, h.2.2.1⟩

theorem lookupOSC_withTable (env : Env) (table : String → Option OSCAddressEntry)
    (h : ∀ k, (table k).map eraseAllowZero = (env.OSCAddresses k).map eraseAllowZero)
    (key : String) :
    (lookupOSC (env.withTable table) key).map eraseAllowZero
      = (lookupOSC env key).map eraseAllowZero := by
  have hk := h key
  unfold lookupOSC
  have e1 : (env.withTable table).OSCAddresses = table := rfl
  have e2 : (env.withTable table).Config = env.Config := rfl
  rw [e1, e2]
  cases h1 : table key with
  | none =>
    cases h2 : env.OSCAddresses key with
    | none => rfl
    | some b => rw [h1, h2] at hk; exact absurd hk (by simp)
  | some a =>
    cases h2 : env.OSCAddresses key with
    | none => rw [h1, h2] at hk; exact absurd hk (by simp)
    | some b =>
      rw [h1, h2] at hk
      simp only [Option.map_some', Option.some.injEq] at hk
      have hf := eraseAllowZero_fields a b hk
      simp only [hf.2]
      split
      · simp [hk]
      · rfl

theorem gateOSC_withTable (env : Env) (table : String → Option OSCAddressEntry)
    (e1 e2 : OSCAddressEntry) (h : e1.Address = e2.Address) (v : GoValue) (z : Bool)
    (w : World) :
    gateOSC (env.withTable table) e1 v z w = gateOSC env e2 v z w := by
  unfold gateOSC sendOSC
  rw [h]
  rfl

theorem oscStep_withTable (env : Env) (table : String → Option OSCAddressEntry)
    (r1 r2 : OSCRequest) (h : eraseRequest r1 = eraseRequest r2) (w : World) :
    oscStep (env.withTable table) w r1 = oscStep env w r2 := by
  obtain ⟨e1, v1, z1⟩ := r1
  obtain ⟨e2, v2, z2⟩ := r2
  simp only [eraseRequest, Prod.mk.injEq] at h
  obtain ⟨h1, rfl, rfl⟩ := h
  exact gateOSC_withTable env table e1 e2 (eraseAllowZero_fields e1 e2 h1).1 _ _ w

theorem foldl_oscStep_withTable (env : Env) (table : String → Option OSCAddressEntry)
    (L2 : List OSCRequest) :
    ∀ (L1 : List OSCRequest) (w : World), L1.map eraseRequest = L2.map eraseRequest →
      L1.foldl (oscStep (env.withTable table)) w = L2.foldl (oscStep env) w := by
  induction L2 with
  | nil =>
    intro L1 w h
    cases L1 with
    | nil => rfl
    | cons a L1 => exact absurd h (by simp)
  | cons b L2 ih =>
    intro L1 w h
    cases L1 with
    | nil => exact absurd h (by simp)
    | cons a L1 =>
      simp only [List.map_cons, List.cons.injEq] at h
      simp only [List.foldl_cons]
      rw [oscStep_withTable env table a b h.1 w]
      exact ih L1 _ h.2

theorem oscHead_withTable (env : Env) (table : String → Option OSCAddressEntry)
    (h : ∀ k, (table k).map eraseAllowZero = (env.OSCAddresses k).map eraseAllowZero)
    (name : String) (field : GoValue) (hf : ifaceEqZero field = false) :
    (oscHead (env.withTable table) name field).map (List.map eraseRequest)
      = (oscHead env name field).map (List.map eraseRequest) ∧
    oscHead env name field ≠ none := by
  have hl := lookupOSC_withTable env table h name
  unfold oscHead
  simp only [hf, Bool.and_false, Bool.false_and, Bool.false_eq_true, if_false]
  cases h1 : lookupOSC (env.withTable table) name with
  | none =>
    cases h2 : lookupOSC env name with
    | none => exact ⟨rfl, by simp⟩
    | some b => rw [h1, h2] at hl; exact absurd hl (by simp)
  | some a =>
    cases h2 : lookupOSC env name with
    | none => rw [h1, h2] at hl; exact absurd hl (by simp)
    | some b =>
      rw [h1, h2] at hl
      simp only [Option.map_some', Option.some.injEq] at hl
      exact ⟨by simp [eraseRequest, hl], by simp⟩

theorem oscElemHead_withTable (env : Env) (table : String → Option OSCAddressEntry)
    (h : ∀ k, (table k).map eraseAllowZero = (env.OSCAddresses k).map eraseAllowZero)
    (key : String) (elem : GoValue) :
    (oscElemHead (env.withTable table) key elem).map eraseRequest
      = (oscElemHead env key elem).map eraseRequest := by
  have hl := lookupOSC_withTable env table h key
  unfold oscElemHead
  cases h1 : lookupOSC (env.withTable table) key with
  | none =>
    cases h2 : lookupOSC env key with
    | none => rfl
    | some b => rw [h1, h2] at hl; exact absurd hl (by simp)
  | some a =>
    cases h2 : lookupOSC env key with
    | none => rw [h1, h2] at hl; exact absurd hl (by simp)
    | some b =>
      rw [h1, h2] at hl
      simp only [Option.map_some', Option.some.injEq] at hl
      simp [eraseRequest, hl]

theorem oscLeaves_withTable (env : Env) (table : String → Option OSCAddressEntry)
    (h : ∀ k, (table k).map eraseAllowZero = (env.OSCAddresses k).map eraseAllowZero)
    (fs : List (String × GoValue)) :
    GoValue.noGoInt.noGoIntFields fs = true →
      (oscLeaves (env.withTable table) fs).map eraseRequest
        = (oscLeaves env fs).map eraseRequest := by
  refine oscLeaves.induct env
    (fun v => v.noGoInt = true → ∀ name,
      (oscFieldLeaves (env.withTable table) v name).map eraseRequest
        = (oscFieldLeaves env v name).map eraseRequest)
    (fun elems => GoValue.noGoInt.noGoIntList elems = true → ∀ name len j,
      (oscElemLeaves (env.withTable table) elems name len j).map eraseRequest
        = (oscElemLeaves env elems name len j).map eraseRequest)
    (fun v => v.noGoInt = true →
      (oscElemLeaf (env.withTable table) v).map eraseRequest
        = (oscElemLeaf env v).map eraseRequest)
    (fun fs => GoValue.noGoInt.noGoIntFields fs = true →
      (oscLeaves (env.withTable table) fs).map eraseRequest
        = (oscLeaves env fs).map eraseRequest)
    ?_ ?_ ?_ ?_ ?_ ?_ ?_ ?_ ?_ fs
  · intro n fs ih hn name
    have hh := (oscHead_withTable env table h name (GoValue.struct n fs) rfl).1
    simp only [GoValue.noGoInt] at hn
    simp only [oscFieldLeaves]
    cases h1 : oscHead (env.withTable table) name (GoValue.struct n fs) <;>
      cases h2 : oscHead env name (GoValue.struct n fs) <;> rw [h1, h2] at hh <;>
      simp_all
  · intro elems ih hn name
    have hh := (oscHead_withTable env table h name (GoValue.array elems) rfl).1
    simp only [GoValue.noGoInt] at hn
    simp only [oscFieldLeaves]
    cases h1 : oscHead (env.withTable table) name (GoValue.array elems) <;>
      cases h2 : oscHead env name (GoValue.array elems) <;> rw [h1, h2] at hh <;>
      simp_all
  · intro t h1 h2 hn name
    have hh := (oscHead_withTable env table h name t (ifaceEqZero_of_noGoInt t hn)).1
    cases t with
    | struct n fs => exact absurd rfl (h1 n fs)
    | array elems => exact absurd rfl (h2 elems)
    | _ =>
      simp only [oscFieldLeaves]
      split <;> split <;> simp_all
  · intro n fs ih hn
    simp only [GoValue.noGoInt] at hn
    simp only [oscElemLeaf]
    exact ih hn
  · intro t h1 _
    cases t with
    | struct n fs => exact absurd rfl (h1 n fs)
    | _ => simp only [oscElemLeaf]
  · intro _ name len j
    simp only [oscElemLeaves]
  · intro elem rest ih1 ih2 hn name len j
    simp only [GoValue.noGoInt.noGoIntList, Bool.and_eq_true] at hn
    simp only [oscElemLeaves, List.map_append]
    rw [oscElemHead_withTable env table h, ih1 hn.1, ih2 hn.2]
  · intro _
    simp only [oscLeaves]
  · intro name field rest ih1 ih2 hn
    simp only [GoValue.noGoInt.noGoIntFields, Bool.and_eq_true] at hn
    simp only [oscLeaves, List.map_append]
    rw [ih1 hn.1, ih2 hn.2]

theorem sendStructFieldsToOSC_withTable (env : Env) (table : String → Option OSCAddressEntry)
    (h : ∀ k, (table k).map eraseAllowZero = (env.OSCAddresses k).map eraseAllowZero)
    (v : GoValue) (hn : v.noGoInt = true) (w : World) :
    sendStructFieldsToOSC (env.withTable table) v w = sendStructFieldsToOSC env v w := by
  cases v with
  | struct n fs =>
    rw [sendStructFieldsToOSC_eq_foldl, sendStructFieldsToOSC_eq_foldl]
    simp only [GoValue.noGoInt] at hn
    exact foldl_oscStep_withTable env table _ _ w (oscLeaves_withTable env table h fs hn)
  | _ => rfl

theorem telemetryStep_withTable (env : Env) (table : String → Option OSCAddressEntry)
    (h : ∀ k, (table k).map eraseAllowZero = (env.OSCAddresses k).map eraseAllowZero)
    (t : CarTelemetryData) (w : World) (k : String) :
    telemetryStep (env.withTable table) t w k = telemetryStep env t w k := by
  have hl := lookupOSC_withTable env table h k
  unfold telemetryStep
  cases (telemetryFields t).lookup k with
  | none => rfl
  | some v =>
    simp only
    cases h1 : lookupOSC (env.withTable table) k with
    | none =>
      cases h2 : lookupOSC env k with
      | none => rfl
      | some b => rw [h1, h2] at hl; exact absurd hl (by simp)
    | some a =>
      cases h2 : lookupOSC env k with
      | none => rw [h1, h2] at hl; exact absurd hl (by simp)
      | some b =>
        rw [h1, h2] at hl
        simp only [Option.map_some', Option.some.injEq] at hl
        exact gateOSC_withTable env table a b (eraseAllowZero_fields a b hl).1 _ _ w

theorem motionExStep_withTable (env : Env) (table : String → Option OSCAddressEntry)
    (h : ∀ k, (table k).map eraseAllowZero = (env.OSCAddresses k).map eraseAllowZero)
    (name : String) (w : World) (wv : String × GoValue) :
    motionExStep (env.withTable table) name w wv = motionExStep env name w wv := by
  have hk := h (name ++ wv.1)
  unfold motionExStep
  have e1 : (env.withTable table).OSCAddresses = table := rfl
  have e2 : (env.withTable table).Config = env.Config := rfl
  simp only [e1, e2]
  cases h1 : table (name ++ wv.1) with
  | none =>
    cases h2 : env.OSCAddresses (name ++ wv.1) with
    | none => rfl
    | some b => rw [h1, h2] at hk; exact absurd hk (by simp)
  | some a =>
    cases h2 : env.OSCAddresses (name ++ wv.1) with
    | none => rw [h1, h2] at hk; exact absurd hk (by simp)
    | some b =>
      rw [h1, h2] at hk
      simp only [Option.map_some', Option.some.injEq] at hk
      have hf := eraseAllowZero_fields a b hk
      simp only [hf.1, hf.2]
      rfl

theorem decodeAndBroadcast_withTable (env : Env) (table : String → Option OSCAddressEntry)
    (h : ∀ k, (table k).map eraseAllowZero = (env.OSCAddresses k).map eraseAllowZero)
    (id : UInt8) (d : List UInt8 → GoValue × Option DecodeError) (T : GoType) (L : Nat)
    (hmem : (id, d, T, L) ∈ decoderTable) (data : List UInt8) (K : String) (w : World) :
    decodeAndBroadcast (env.withTable table) data d K w = decodeAndBroadcast env data d K w := by
  unfold decodeAndBroadcast
  cases hok : (d data).2 with
  | some e => rfl
  | none =>
    simp only
    rw [broadcastStructFieldsToWS_withTable,
      sendStructFieldsToOSC_withTable env table h _ (decoded_noGoInt id d T L hmem data hok)]

theorem broadcastTelemetryFields_withTable (env : Env)
    (table : String → Option OSCAddressEntry)
    (h : ∀ k, (table k).map eraseAllowZero = (env.OSCAddresses k).map eraseAllowZero)
    (t : CarTelemetryData) (w : World) :
    broadcastTelemetryFields (env.withTable table) t w = broadcastTelemetryFields env t w := by
  unfold broadcastTelemetryFields
  have e : telemetryStep (env.withTable table) t = telemetryStep env t := by
    funext w k
    exact telemetryStep_withTable env table h t w k
  rw [e]
  rfl

theorem broadcastMotionExFields_withTable (env : Env)
    (table : String → Option OSCAddressEntry)
    (h : ∀ k, (table k).map eraseAllowZero = (env.OSCAddresses k).map eraseAllowZero)
    (pkt : GoValue) (w : World) :
    broadcastMotionExFields (env.withTable table) pkt w = broadcastMotionExFields env pkt w := by
  unfold broadcastMotionExFields
  have e : motionExStep (env.withTable table) = motionExStep env := by
    funext name w wv
    exact motionExStep_withTable env table h name w wv
  rw [e]

/-- Claim C27.  If two OSC address tables differ only in the allow-zero flags
of their entries (they agree at every key once the flags are cleared), then for
every frame, with the same configuration, clock and initial state, handling the
frame with either table gives the same result: the same WebSocket and OSC
messages and the same caches.  The flag is read only under the comparison of an
interface value with the constant 0, which holds only for a value of Go type
`int` that is 0, and no record returned without error by a struct decoder
contains a value of type `int`. -/
theorem allowZero_has_no_effect (env : Env) (table : String → Option OSCAddressEntry)
    (h : ∀ k, (table k).map eraseAllowZero = (env.OSCAddresses k).map eraseAllowZero)
    (data : List UInt8) (w : World) :
    handleUDPPacket (env.withTable table) data w = handleUDPPacket env data w ∧
    (∀ v, ifaceEqZero v = true → v = GoValue.int IntKind.int 0) ∧
    (∀ id d T L, (id, d, T, L) ∈ decoderTable → (d data).2 = none →
      (d data).1.noGoInt = true) := by
  refine ⟨?_, fun v hv => ?_, fun id d T L hmem hok => decoded_noGoInt id d T L hmem data hok⟩
  · have e : (env.withTable table).PacketForwardingConfig = env.PacketForwardingConfig := rfl
    rcases handleUDPPacket_shape data with hs | ⟨id, -, -, hs | hs | hs⟩
    · rw [hs, hs]
    · obtain ⟨d, T, L, K, hmem, -, hs⟩ := hs
      rw [hs, hs, e, decodeAndBroadcast_withTable env table h id d T L hmem]
    · rw [hs.2, hs.2, e, broadcastTelemetryFields_withTable env table h]
    · rw [hs.2, hs.2, e, broadcastMotionExFields_withTable env table h]
  · cases v with
    | int k n =>
      cases k <;> simp_all [ifaceEqZero]
    | _ => simp [ifaceEqZero] at hv

set_option maxRecDepth 100000 in
/-- Claim C27 at the all-zero TimeTrial frame: with every allow-zero flag of the
sample table set, the result is the same as with every flag cleared, and the
zero traction control is sent in both cases. -/
theorem allowZero_has_no_effect_witness :
    (∀ k, (burstAddressesAllowZero k).map eraseAllowZero
      = (burstEnv.OSCAddresses k).map eraseAllowZero) ∧
    (burstAddressesAllowZero "TractionControl").map (fun e => e.AllowZero) = some true ∧
    (burstEnv.OSCAddresses "TractionControl").map (fun e => e.AllowZero) = some false ∧
    handleUDPPacket (burstEnv.withTable burstAddressesAllowZero) frameTimeTrial101 emptyWorld
      = handleUDPPacket burstEnv frameTimeTrial101 emptyWorld := by
  have h : ∀ k, (burstAddressesAllowZero k).map eraseAllowZero
      = (burstEnv.OSCAddresses k).map eraseAllowZero := by
    intro k
    simp only [burstAddressesAllowZero, burstEnv, burstAddresses]
    split_ifs <;> rfl
  exact ⟨h, rfl, rfl,
    (allowZero_has_no_effect burstEnv burstAddressesAllowZero h frameTimeTrial101
      emptyWorld).1⟩

theorem oscStep_spec (env : Env) (hosc : env.Config.EnableOSC = true) (w : World)
    (r : OSCRequest) (hflag : r.2.2 = false) :
    (oscStep env w r).clockReads ≤ w.clockReads + 2 ∧
    w.clockReads < (oscStep env w r).clockReads ∧
    ((shouldSend env.Config (env.clock w.clockReads) r.1.Address r.2.1 w.lastSentOSC = true ∧
        (oscStep env w r).oscOut = w.oscOut ++ [⟨r.1.Address, oscConvert r.2.1⟩] ∧
        (oscStep env w r).lastSentOSC
          = updateLastSent (env.clock (w.clockReads + 1)) r.1.Address r.2.1 w.lastSentOSC) ∨
     (shouldSend env.Config (env.clock w.clockReads) r.1.Address r.2.1 w.lastSentOSC = false ∧
        (oscStep env w r).oscOut = w.oscOut ∧
        (oscStep env w r).lastSentOSC = w.lastSentOSC)) := by
  unfold oscStep gateOSC
  rw [hflag, Bool.or_false]
  by_cases h : shouldSend env.Config (env.clock w.clockReads) r.1.Address r.2.1 w.lastSentOSC
      = true
  · rw [if_pos h]
    refine ⟨by simp [sendOSC, hosc], ?_,
      Or.inl ⟨h, by simp [sendOSC, hosc], by simp [sendOSC, hosc]⟩⟩
    simp only [sendOSC, hosc]
    simp only [Bool.not_true, Bool.false_eq_true, if_false]
    omega
  · rw [if_neg h]
    refine ⟨?_, ?_, Or.inr ⟨by simpa using h, rfl, rfl⟩⟩ <;> simp

theorem foldl_oscStep_first (env : Env) (hosc : env.Config.EnableOSC = true) (n0 : Nat)
    (hclock : ∀ i j, n0 ≤ i → n0 ≤ j →
      env.clock j - env.clock i < getBroadcastInterval env.Config)
    (L : List OSCRequest) :
    ∀ w : World, (∀ r ∈ L, r.2.2 = false) → n0 ≤ w.clockReads →
      (∀ k e, w.lastSentOSC k = some e → ∃ i, n0 ≤ i ∧ e.t = env.clock i) →
      ∃ new, (L.foldl (oscStep env) w).oscOut = w.oscOut ++ new ∧
        ∀ a, new.filter (fun m => decide (m.address = a))
          = if (w.lastSentOSC a).isSome then []
            else ((L.filter (OSCRequest.admissibleAt a)).head?).toList.map
              (fun r => (⟨a, oscConvert r.2.1⟩ : OSCMessage)) := by
  induction L with
  | nil =>
    intro w _ _ _
    exact ⟨[], by simp, fun a => by simp⟩
  | cons r L ih =>
    intro w hflag hn hinv
    obtain ⟨s1, s2, s3⟩ := oscStep_spec env hosc w r (hflag r (List.mem_cons_self _ _))
    have hflag2 : ∀ r ∈ L, r.2.2 = false := fun x hx => hflag x (List.mem_cons_of_mem _ hx)
    rcases s3 with ⟨hs, ho, hc⟩ | ⟨hs, ho, hc⟩
    · -- admitted: no entry yet, value not suppressed
      have hnz : isIgnoredZero r.2.1 = false := by
        by_contra hz
        rw [shouldSend_of_ignoredZero _ _ _ _ _ (by simpa using hz)] at hs
        exact absurd hs (by simp)
      have hnone : w.lastSentOSC r.1.Address = none := by
        cases he : w.lastSentOSC r.1.Address with
        | none => rfl
        | some e =>
          obtain ⟨i, hi, ht⟩ := hinv _ e he
          rw [shouldSend_within_interval _ _ _ _ _ e he
            (by rw [ht]; exact hclock i _ hi hn)] at hs
          exact absurd hs (by simp)
      obtain ⟨new, h1, h2⟩ := ih (oscStep env w r) hflag2 (by omega) (by
        intro k e hk
        rw [hc] at hk
        unfold updateLastSent at hk
        split at hk
        · injection hk with hk
          subst hk
          exact ⟨w.clockReads + 1, by omega, rfl⟩
        · exact hinv k e hk)
      refine ⟨⟨r.1.Address, oscConvert r.2.1⟩ :: new, ?_, fun a => ?_⟩
      · simp only [List.foldl_cons, h1, ho, List.append_assoc, List.singleton_append]
      · have h2a := h2 a
        rw [hc] at h2a
        by_cases ha : r.1.Address = a
        · subst ha
          simp only [List.filter_cons, decide_True, if_true, h2a, updateLastSent, hnone,
            OSCRequest.admissibleAt, hnz, Bool.not_false, Bool.and_self, Option.isSome_some,
            Option.isSome_none, Bool.false_eq_true, if_false, List.head?_cons,
            Option.toList_some, List.map_cons, List.map_nil]
        · have ha2 : ¬ a = r.1.Address := fun h => ha h.symm
          simp only [List.filter_cons, ha, decide_False, Bool.false_eq_true, if_false, h2a,
            updateLastSent, ha2, OSCRequest.admissibleAt, Bool.false_and]
    · obtain ⟨new, h1, h2⟩ := ih (oscStep env w r) hflag2 (by omega) (by
        intro k e hk
        rw [hc] at hk
        exact hinv k e hk)
      refine ⟨new, ?_, fun a => ?_⟩
      · simp only [List.foldl_cons, h1, ho]
      · have h2a := h2 a
        rw [hc] at h2a
        rw [h2a]
        by_cases hsome : (w.lastSentOSC a).isSome = true
        · simp [hsome]
        · simp only [hsome, Bool.false_eq_true, if_false]
          have hp : OSCRequest.admissibleAt a r = false := by
            by_contra hp
            simp only [OSCRequest.admissibleAt, Bool.not_eq_false, Bool.and_eq_true,
              decide_eq_true_eq, Bool.not_eq_true'] at hp
            obtain ⟨ha, hz⟩ := hp
            subst ha
            have hnone : w.lastSentOSC r.1.Address = none := by
              cases he : w.lastSentOSC r.1.Address with
              | none => rfl
              | some e => rw [he] at hsome; exact absurd rfl hsome
            rw [shouldSend_no_entry _ _ _ _ _ hnone, hz] at hs
            exact absurd hs (by simp)
          rw [List.filter_cons, hp]
          simp

theorem decodeFields_scalar (ts : List (String × GoType))
    (hts : ∀ t ∈ ts, t.2.wireScalar = true) :
    ∀ buf, ((decodeValue.decodeFields ts buf).1).map Prod.fst = ts.map Prod.fst ∧
      ∀ q ∈ (decodeValue.decodeFields ts buf).1,
        q.2.isScalar = true ∧ ifaceEqZero q.2 = false := by
  induction ts with
  | nil => intro buf; simp [decodeValue.decodeFields]
  | cons t ts ih =>
    intro buf
    obtain ⟨f, T⟩ := t
    have hT := hts (f, T) (List.mem_cons_self _ _)
    have ih2 := ih (fun t ht => hts t (List.mem_cons_of_mem _ ht))
    simp only [decodeValue.decodeFields, List.map_cons, List.mem_cons, forall_eq_or_imp]
    refine ⟨by rw [(ih2 _).1], ?_, (ih2 _).2⟩
    cases T with
    | int k =>
      cases k <;> first
        | exact ⟨rfl, rfl⟩
        | exact absurd hT (by simp [GoType.wireScalar, IntKind.wireSize])
    | float32 => exact ⟨rfl, rfl⟩
    | float64 => exact ⟨rfl, rfl⟩
    | array n e => simp [GoType.wireScalar] at hT
    | struct n fs => simp [GoType.wireScalar] at hT

theorem oscHead_nonzero (env : Env) (name : String) (field : GoValue)
    (hz : ifaceEqZero field = false) :
    oscHead env name field = some (oscElemHead env name field) := by
  unfold oscHead oscElemHead
  cases lookupOSC env name <;> simp [hz]

theorem oscFieldLeaves_scalar (env : Env) (name : String) (v : GoValue)
    (hs : v.isScalar = true) (hz : ifaceEqZero v = false) :
    oscFieldLeaves env v name = oscElemHead env name v := by
  cases v with
  | struct n fs => simp [GoValue.isScalar] at hs
  | array elems => simp [GoValue.isScalar] at hs
  | _ => simp only [oscFieldLeaves, oscHead_nonzero env name _ hz]

theorem oscFieldLeaves_struct (env : Env) (name n : String) (fs : List (String × GoValue)) :
    oscFieldLeaves env (GoValue.struct n fs) name
      = oscElemHead env name (GoValue.struct n fs) ++ oscLeaves env fs := by
  simp only [oscFieldLeaves, oscHead_nonzero env name (GoValue.struct n fs) rfl]

theorem oscFieldLeaves_array (env : Env) (name : String) (elems : List GoValue) :
    oscFieldLeaves env (GoValue.array elems) name
      = oscElemHead env name (GoValue.array elems)
        ++ oscElemLeaves env elems name elems.length 0 := by
  simp only [oscFieldLeaves, oscHead_nonzero env name (GoValue.array elems) rfl]

theorem filter_oscElemHead_other (env : Env) (a key : String) (v : GoValue)
    (h : ∀ e, lookupOSC env key = some e → e.Address ≠ a) :
    (oscElemHead env key v).filter (OSCRequest.admissibleAt a) = [] := by
  unfold oscElemHead
  cases hl : lookupOSC env key with
  | none => rfl
  | some e => simp [OSCRequest.admissibleAt, h e hl]

theorem lookup_eq_none_of_not_mem (F : String) (fs : List (String × GoValue))
    (h : F ∉ fs.map Prod.fst) : fs.lookup F = none := by
  induction fs with
  | nil => rfl
  | cons q fs ih =>
    obtain ⟨G, v⟩ := q
    simp only [List.map_cons, List.mem_cons, not_or] at h
    have hne : (F == G) = false := by simpa using h.1
    simp only [List.lookup, hne]
    exact ih h.2

theorem oscLeaves_scalar_filter (env : Env) (F : String) (entry : OSCAddressEntry)
    (hF : lookupOSC env F = some entry) (fs : List (String × GoValue))
    (hsc : ∀ q ∈ fs, q.2.isScalar = true ∧ ifaceEqZero q.2 = false)
    (hnd : (fs.map Prod.fst).Nodup)
    (huniq : ∀ G ∈ fs.map Prod.fst, G ≠ F →
      ∀ e, lookupOSC env G = some e → e.Address ≠ entry.Address) :
    (oscLeaves env fs).filter (OSCRequest.admissibleAt entry.Address)
      = (((fs.lookup F).toList).map (fun v => ((entry, v, false) : OSCRequest))).filter
          (OSCRequest.admissibleAt entry.Address) := by
  induction fs with
  | nil => rfl
  | cons q fs ih =>
    obtain ⟨G, v⟩ := q
    have hq := hsc (G, v) (List.mem_cons_self _ _)
    simp only [List.map_cons, List.nodup_cons] at hnd
    have ih2 := ih (fun q hq => hsc q (List.mem_cons_of_mem _ hq)) hnd.2
      (fun G hG => huniq G (List.mem_cons_of_mem _ hG))
    simp only [oscLeaves, List.filter_append, oscFieldLeaves_scalar env G v hq.1 hq.2]
    by_cases hGF : G = F
    · subst hGF
      have hl : List.lookup G ((G, v) :: fs) = some v := by simp [List.lookup]
      rw [ih2, lookup_eq_none_of_not_mem G fs hnd.1, hl]
      simp [oscElemHead, hF]
    · have hne : (F == G) = false := by
        simp only [beq_eq_false_iff_ne, ne_eq]
        exact fun h => hGF h.symm
      have hl : List.lookup F ((G, v) :: fs) = List.lookup F fs := by
        simp only [List.lookup, hne]
      rw [ih2, hl, filter_oscElemHead_other env _ G v
        (huniq G (by simp) hGF)]
      rfl

theorem decodeN_struct_slots (nm : String) (ts : List (String × GoType))
    (hts : ∀ t ∈ ts, t.2.wireScalar = true) (n : Nat) :
    ∀ buf, ∀ s ∈ (decodeN (decodeValue (GoType.struct nm ts)) n buf).1,
      ∃ fs, s = GoValue.struct nm fs ∧ fs.map Prod.fst = ts.map Prod.fst ∧
        ∀ q ∈ fs, q.2.isScalar = true ∧ ifaceEqZero q.2 = false := by
  induction n with
  | zero => intro buf s hs; simp [decodeN] at hs
  | succ n ih =>
    intro buf s hs
    simp only [decodeN, List.mem_cons] at hs
    rcases hs with hs | hs
    · subst hs
      exact ⟨_, decodeValue_struct nm ts buf, (decodeFields_scalar ts hts buf).1,
        (decodeFields_scalar ts hts buf).2⟩
    · exact ih _ s hs

theorem oscElemLeaves_slots_filter (env : Env) (F : String) (entry : OSCAddressEntry)
    (hF : lookupOSC env F = some entry) (name : String) (len : Nat) (hlen : len ≠ 4)
    (hname : ∀ e, lookupOSC env name = some e → e.Address ≠ entry.Address)
    (names : List String) (hnd : names.Nodup)
    (huniq : ∀ G ∈ names, G ≠ F → ∀ e, lookupOSC env G = some e → e.Address ≠ entry.Address)
    (slots : List GoValue)
    (hslots : ∀ s ∈ slots, ∃ nm fs, s = GoValue.struct nm fs ∧ fs.map Prod.fst = names ∧
      ∀ q ∈ fs, q.2.isScalar = true ∧ ifaceEqZero q.2 = false) :
    ∀ j, (oscElemLeaves env slots name len j).filter (OSCRequest.admissibleAt entry.Address)
      = ((slots.filterMap (fun s => s.field F)).map
          (fun v => ((entry, v, false) : OSCRequest))).filter
            (OSCRequest.admissibleAt entry.Address) := by
  induction slots with
  | nil => intro j; rfl
  | cons s slots ih =>
    intro j
    obtain ⟨nm, fs, rfl, hn, hsc⟩ := hslots s (List.mem_cons_self _ _)
    have ih2 := ih (fun s hs => hslots s (List.mem_cons_of_mem _ hs)) (j + 1)
    have hk : oscElemKey name len j = name := by simp [oscElemKey, hlen]
    simp only [oscElemLeaves, List.filter_append, hk, oscElemLeaf,
      filter_oscElemHead_other env _ name _ hname, List.nil_append, ih2,
      oscLeaves_scalar_filter env F entry hF fs hsc (by rw [hn]; exact hnd)
        (by rw [hn]; exact huniq)]
    simp only [List.filterMap_cons, GoValue.field]
    cases fs.lookup F with
    | none => simp
    | some v =>
      simp only [Option.toList_some, List.map_cons, List.map_nil]
      rw [← List.filter_append]
      rfl

theorem head_filter_requests (entry : OSCAddressEntry) (vals : List GoValue) :
    ((((vals.map (fun v => ((entry, v, false) : OSCRequest))).filter
        (OSCRequest.admissibleAt entry.Address)).head?).toList.map
      (fun r => (⟨entry.Address, oscConvert r.2.1⟩ : OSCMessage)))
      = ((vals.find? (fun v => !isIgnoredZero v)).toList.map
          (fun v => (⟨entry.Address, oscConvert v⟩ : OSCMessage))) := by
  induction vals with
  | nil => rfl
  | cons v vals ih =>
    by_cases hz : isIgnoredZero v = true
    · simp only [List.map_cons, List.filter_cons, OSCRequest.admissibleAt, hz, decide_True,
        Bool.not_true, Bool.and_false, Bool.false_eq_true, if_false, List.find?_cons]
      exact ih
    · have hz2 : isIgnoredZero v = false := by simpa using hz
      simp [List.filter_cons, OSCRequest.admissibleAt, hz2, List.find?_cons]

theorem oscLeaves_flags (env : Env) (fs : List (String × GoValue)) :
    GoValue.noGoInt.noGoIntFields fs = true → ∀ r ∈ oscLeaves env fs, r.2.2 = false := by
  have hhead : ∀ key v, ∀ r ∈ oscElemHead env key v, r.2.2 = false := by
    intro key v r hr
    unfold oscElemHead at hr
    split at hr
    · simp only [List.mem_singleton] at hr
      subst hr
      rfl
    · exact absurd hr (by simp)
  refine oscLeaves.induct env
    (fun v => v.noGoInt = true → ∀ name, ∀ r ∈ oscFieldLeaves env v name, r.2.2 = false)
    (fun elems => GoValue.noGoInt.noGoIntList elems = true → ∀ name len j,
      ∀ r ∈ oscElemLeaves env elems name len j, r.2.2 = false)
    (fun v => v.noGoInt = true → ∀ r ∈ oscElemLeaf env v, r.2.2 = false)
    (fun fs => GoValue.noGoInt.noGoIntFields fs = true → ∀ r ∈ oscLeaves env fs, r.2.2 = false)
    ?_ ?_ ?_ ?_ ?_ ?_ ?_ ?_ ?_ fs
  · intro n fs ih hn name r hr
    simp only [GoValue.noGoInt] at hn
    rw [oscFieldLeaves_struct, List.mem_append] at hr
    rcases hr with hr | hr
    · exact hhead _ _ r hr
    · exact ih hn r hr
  · intro elems ih hn name r hr
    simp only [GoValue.noGoInt] at hn
    rw [oscFieldLeaves_array, List.mem_append] at hr
    rcases hr with hr | hr
    · exact hhead _ _ r hr
    · exact ih hn name _ 0 r hr
  · intro t h1 h2 hn name r hr
    have hz := ifaceEqZero_of_noGoInt t hn
    cases t with
    | struct n fs => exact absurd rfl (h1 n fs)
    | array elems => exact absurd rfl (h2 elems)
    | _ =>
      simp only [oscFieldLeaves, oscHead_nonzero env name _ hz] at hr
      exact hhead _ _ r hr
  · intro n fs ih hn r hr
    simp only [GoValue.noGoInt] at hn
    simp only [oscElemLeaf] at hr
    exact ih hn r hr
  · intro t h1 _ r hr
    cases t with
    | struct n fs => exact absurd rfl (h1 n fs)
    | _ => simp only [oscElemLeaf] at hr; exact absurd hr (by simp)
  · intro _ name len j r hr
    simp only [oscElemLeaves] at hr
    exact absurd hr (by simp)
  · intro elem rest ih1 ih2 hn name len j r hr
    simp only [GoValue.noGoInt.noGoIntList, Bool.and_eq_true] at hn
    simp only [oscElemLeaves, List.mem_append] at hr
    rcases hr with (hr | hr) | hr
    · exact hhead _ _ r hr
    · exact ih1 hn.1 r hr
    · exact ih2 hn.2 name len (j + 1) r hr
  · intro _ r hr
    simp only [oscLeaves] at hr
    exact absurd hr (by simp)
  · intro name field rest ih1 ih2 hn r hr
    simp only [GoValue.noGoInt.noGoIntFields, Bool.and_eq_true] at hn
    simp only [oscLeaves, List.mem_append] at hr
    rcases hr with hr | hr
    · exact ih1 hn.1 name r hr
    · exact ih2 hn.2 r hr

theorem decodeCarStatusPacket_record (data : List UInt8) (hlen : data.length = 1239) :
    decodeCarStatusPacket data
      = (GoValue.struct "PacketCarStatusData"
          [("Header", GoValue.struct "PacketHeader"
              (decodeValue.decodeFields (structFields PacketHeader) (data.take 1239)).1),
           ("CarStatusData", GoValue.array (carStatusSlots data))], none) := by
  have hd : decodeCarStatusPacket data
      = ((decodeValue PacketCarStatusData (data.take 1239)).1, none) := by
    unfold decodeCarStatusPacket
    rw [if_neg (by omega), binaryRead_enough _ _ sizeof_PacketCarStatusData data (by omega)]
  have hs : (decodeValue PacketCarStatusData (data.take 1239)).1
      = GoValue.struct "PacketCarStatusData" (decodeValue.decodeFields
          [("Header", PacketHeader), ("CarStatusData", GoType.array 22 CarStatusData)]
          (data.take 1239)).1 :=
    decodeValue_struct _ _ _
  have hh : (decodeValue PacketHeader (data.take 1239)).1
      = GoValue.struct "PacketHeader"
          (decodeValue.decodeFields (structFields PacketHeader) (data.take 1239)).1 :=
    decodeValue_struct _ _ _
  have h2 : (decodeValue PacketHeader (data.take 1239)).2 = (data.drop 29).take 1210 := by
    rw [decodeValue_PacketHeader, List.drop_take]
  rw [hd, hs]
  simp only [decodeValue.decodeFields, hh, h2, decodeValue_array, carStatusSlots]

theorem carStatus_names_facts :
    (structFieldNames CarStatusData).Nodup ∧ (structFieldNames PacketHeader).Nodup ∧
    (∀ F ∈ structFieldNames CarStatusData,
      F ∉ structFieldNames PacketHeader ∧ F ≠ "Header" ∧ F ≠ "CarStatusData") ∧
    (∀ t ∈ structFields CarStatusData, t.2.wireScalar = true) ∧
    (∀ t ∈ structFields PacketHeader, t.2.wireScalar = true) := by
  refine ⟨by decide, by decide, by decide, by decide, by decide⟩

theorem carStatus_requests_filter (env : Env) (data : List UInt8) (F : String)
    (entry : OSCAddressEntry) (hFm : F ∈ structFieldNames CarStatusData)
    (hF : lookupOSC env F = some entry)
    (huniq : ∀ G ∈ carStatusLookupNames, G ≠ F →
      ∀ e, lookupOSC env G = some e → e.Address ≠ entry.Address) :
    (oscLeaves env
        [("Header", GoValue.struct "PacketHeader"
            (decodeValue.decodeFields (structFields PacketHeader) (data.take 1239)).1),
         ("CarStatusData", GoValue.array (carStatusSlots data))]).filter
        (OSCRequest.admissibleAt entry.Address)
      = (((carStatusSlots data).filterMap (fun s => s.field F)).map
          (fun v => ((entry, v, false) : OSCRequest))).filter
            (OSCRequest.admissibleAt entry.Address) := by
  obtain ⟨hnd1, hnd2, hdis, hsc1, hsc2⟩ := carStatus_names_facts
  obtain ⟨hd1, hd2, hd3⟩ := hdis F hFm
  have hm1 : "Header" ∈ carStatusLookupNames := by decide
  have hm2 : "CarStatusData" ∈ carStatusLookupNames := by decide
  have hm3 : ∀ G ∈ structFieldNames PacketHeader, G ∈ carStatusLookupNames := by
    intro G hG
    unfold carStatusLookupNames
    exact List.mem_cons_of_mem _ (List.mem_append_left _ hG)
  have hm4 : ∀ G ∈ structFieldNames CarStatusData, G ∈ carStatusLookupNames := by
    intro G hG
    unfold carStatusLookupNames
    exact List.mem_cons_of_mem _ (List.mem_append_right _ (List.mem_cons_of_mem _ hG))
  have hH := decodeFields_scalar (structFields PacketHeader) hsc2 (data.take 1239)
  have hnames : (structFields PacketHeader).map Prod.fst = structFieldNames PacketHeader := rfl
  have hlookup : List.lookup F
      (decodeValue.decodeFields (structFields PacketHeader) (data.take 1239)).1 = none := by
    apply lookup_eq_none_of_not_mem
    rw [hH.1, hnames]
    exact hd1
  have hslots : ∀ s ∈ carStatusSlots data, ∃ nm fs, s = GoValue.struct nm fs ∧
      fs.map Prod.fst = structFieldNames CarStatusData ∧
      ∀ q ∈ fs, q.2.isScalar = true ∧ ifaceEqZero q.2 = false := by
    intro s hs
    obtain ⟨fs, h1, h2, h3⟩ := decodeN_struct_slots "CarStatusData" (structFields CarStatusData)
      hsc1 22 _ s hs
    exact ⟨_, fs, h1, h2, h3⟩
  have hlen22 : (carStatusSlots data).length = 22 := decodeN_length _ _ _
  generalize (decodeValue.decodeFields (structFields PacketHeader) (data.take 1239)).1 = hf at *
  generalize carStatusSlots data = slots at *
  simp only [oscLeaves, oscFieldLeaves_struct, oscFieldLeaves_array, List.filter_append,
    List.append_nil, List.filter_nil]
  rw [filter_oscElemHead_other env _ "Header" _
      (huniq "Header" hm1 (fun h => hd2 h.symm)),
    filter_oscElemHead_other env _ "CarStatusData" _
      (huniq "CarStatusData" hm2 (fun h => hd3 h.symm)),
    oscLeaves_scalar_filter env F entry hF _ hH.2 (by rw [hH.1, hnames]; exact hnd2)
      (by
        rw [hH.1, hnames]
        intro G hG hne
        exact huniq G (hm3 G hG) hne),
    hlookup,
    oscElemLeaves_slots_filter env F entry hF "CarStatusData" _ (by rw [hlen22]; decide)
      (huniq "CarStatusData" hm2 (fun h => hd3 h.symm)) (structFieldNames CarStatusData) hnd1
      (fun G hG hne => huniq G (hm4 G hG) hne) slots hslots 0]
  rfl

/-- Claim C29.  Let OSC and the forwarding of CarStatus frames be enabled, the
OSC cache be empty, and every two clock readings from the start of the handling
on be less than one broadcast interval apart.  Then handling a 1239-byte
CarStatus frame returns a state and sends at most one OSC message per address.
For a field `F` of the car slot whose table entry is enabled and whose address
is not the address of the enabled entry of any other name the walk looks up,
the messages sent to that address are: the converted value of `F` in the
lowest-indexed of the 22 slots whose value the zero rule does not suppress, or
none when every slot holds a suppressed zero.  The slots are decoded from byte
29 on, so the result does not depend on the player car index (byte 27) of the
header. -/
theorem carStatus_osc_first_slot (env : Env) (data : List UInt8) (w0 : World)
    (hosc : env.Config.EnableOSC = true)
    (hfwd : (env.PacketForwardingConfig 7).getD false = true)
    (hlen : data.length = 1239) (hid : data[6]? = some 7)
    (hempty : ∀ k, w0.lastSentOSC k = none)
    (hclock : ∀ i j, w0.clockReads ≤ i → w0.clockReads ≤ j →
      env.clock j - env.clock i < getBroadcastInterval env.Config) :
    ∃ w1 new, handleUDPPacket env data w0 = some w1 ∧ w1.oscOut = w0.oscOut ++ new ∧
      (∀ a, (new.filter (fun m => decide (m.address = a))).length ≤ 1) ∧
      (∀ F entry, F ∈ structFieldNames CarStatusData → lookupOSC env F = some entry →
        (∀ G ∈ carStatusLookupNames, G ≠ F →
          ∀ e, lookupOSC env G = some e → e.Address ≠ entry.Address) →
        new.filter (fun m => decide (m.address = entry.Address))
          = (((carStatusSlots data).filterMap (fun s => s.field F)).find?
              (fun v => !isIgnoredZero v)).toList.map
              (fun v => (⟨entry.Address, oscConvert v⟩ : OSCMessage))) ∧
      (∀ data2 : List UInt8, data2.drop 29 = data.drop 29 →
        carStatusSlots data2 = carStatusSlots data) := by
  have hh : handleUDPPacket env data w0
      = some (decodeAndBroadcast env data decodeCarStatusPacket "CarStatus" w0) := by
    unfold handleUDPPacket
    rw [if_neg (by omega), hid]
    simp [hfwd]
  have hmem : ((7 : UInt8), decodeCarStatusPacket, PacketCarStatusData, 1239) ∈ decoderTable := by
    simp [decoderTable]
  have hrec := decodeCarStatusPacket_record data hlen
  have hng := decoded_noGoInt 7 _ _ _ hmem data (by rw [hrec])
  rw [carStatus_walk env data hlen w0] at hh
  generalize hW : (wsLeaves (decodeValue.decodeFields
      [("Header", PacketHeader), ("CarStatusData", GoType.array 22 CarStatusData)]
      (data.take 1239)).1 ["CarStatus"]) = W at hh
  obtain ⟨-, -, -, hc1, hc2, hc3⟩ := foldl_wsStep_out env W w0
  rw [hrec] at hh hng
  simp only [GoValue.noGoInt] at hng
  rw [sendStructFieldsToOSC_eq_foldl] at hh
  obtain ⟨new, h1, h2⟩ := foldl_oscStep_first env hosc w0.clockReads hclock _
    (W.foldl (wsStep env) w0) (oscLeaves_flags env _ hng) hc3
    (fun k e hk => by rw [hc1, hempty k] at hk; exact absurd hk (by simp))
  have hnone : ∀ a, ((W.foldl (wsStep env) w0).lastSentOSC a).isSome = false := by
    intro a
    rw [hc1, hempty a]
    rfl
  refine ⟨_, new, hh, by rw [h1, hc2], fun a => ?_, fun F entry hFm hF huniq => ?_,
    fun data2 h2 => by simp only [carStatusSlots, h2]⟩
  · rw [h2 a, hnone a]
    simp only [Bool.false_eq_true, if_false, List.length_map]
    cases (List.filter (OSCRequest.admissibleAt a) _).head? <;> simp
  · rw [h2 entry.Address, hnone entry.Address]
    simp only [Bool.false_eq_true, if_false]
    rw [carStatus_requests_filter env data F entry hFm hF huniq]
    exact head_filter_requests entry _

set_option maxRecDepth 100000 in
/-- Claim C29 at the sample frame with player car index 5, from the empty state
with a clock that stands still: the traction control message carries the value 0
of car slot 0 (an 8-bit zero is not suppressed), the fuel message carries the
value 1.0 of car slot 1 (the zero of car slot 0 is suppressed). -/
theorem carStatus_osc_first_slot_witness :
    statusEnv.Config.EnableOSC = true ∧
    (statusEnv.PacketForwardingConfig 7).getD false = true ∧
    frameCarStatusFuel.length = 1239 ∧ frameCarStatusFuel[6]? = some 7 ∧
    frameCarStatusFuel[27]? = some 5 ∧
    (∀ k, emptyWorld.lastSentOSC k = none) ∧
    (∀ i j, emptyWorld.clockReads ≤ i → emptyWorld.clockReads ≤ j →
      statusEnv.clock j - statusEnv.clock i < getBroadcastInterval statusEnv.Config) ∧
    (∃ w1 new, handleUDPPacket statusEnv frameCarStatusFuel emptyWorld = some w1 ∧
      w1.oscOut = emptyWorld.oscOut ++ new ∧
      (∀ a, (new.filter (fun m => decide (m.address = a))).length ≤ 1)) ∧
    (∃ w, handleUDPPacket statusEnv frameCarStatusFuel emptyWorld = some w ∧
      w.oscOut = [⟨"/status/traction_control", GoValue.int IntKind.int32 0⟩,
        ⟨"/status/fuel_in_tank", GoValue.float32 0x3F800000⟩]) := by
  have hclock : ∀ i j, emptyWorld.clockReads ≤ i → emptyWorld.clockReads ≤ j →
      statusEnv.clock j - statusEnv.clock i < getBroadcastInterval statusEnv.Config := by
    intro i j _ _
    simp [statusEnv, Env.withTable, burstEnv, getBroadcastInterval]
  obtain ⟨w1, new, h1, h2, h3, -, -⟩ := carStatus_osc_first_slot statusEnv frameCarStatusFuel
    emptyWorld rfl rfl (by decide) (by decide) (fun _ => rfl) hclock
  refine ⟨rfl, rfl, by decide, by decide, by decide, fun _ => rfl, hclock,
    ⟨w1, new, h1, h2, h3⟩, _, rfl, ?_⟩
  rw [carStatus_walk statusEnv frameCarStatusFuel (by decide) emptyWorld,
    decodeCarStatusPacket_record frameCarStatusFuel (by decide),
    sendStructFieldsToOSC_eq_foldl]
  rfl

end TelemBridge
